import Mathlib

/-! # Kleopatra smartcard reader status: a shallow embedding of `smartcard/readerstatus.cpp`

The file has three parts. The first embeds the source in its own order: the text functions
of libc, the standard library and boost that it calls, the enumerations of `ReaderStatus`,
the text parsers (`parse_app_type`, `parse_app_version`, `parse_pin_state`,
`parse_keypairinfo`), the data model (`CardInfo`), the agent transport (`gpgagent_transact`
and its wrappers), the card prober (`get_card_status`), the event counter, the requests and
the worker thread (`ReaderStatusThread`, its queue and its `run` loop), the status files
(`read_file`, `parseFileName`, `slotReaderStatusFileChanged`) and the facade. The second
part holds the notions the specification uses to talk about the code, and example agents.
The third part holds the theorems.

Conventions.
* `std::string`, `QByteArray` and `const char *` are lists of characters (`Str`); a call of
  `c_str()` is the function `c_str`, which cuts the text at the first NUL.
* `unsigned int` is `Nat`, `int` is `Int`; a `gpg_err_code_t` is a `Nat`.
* The agent is an explicit world value (`Agent`) threaded through every function that talks
  to it; it records each command it was sent.
* `std::shared_ptr<Context>` is `Option Context`; dereferencing the null handle has no
  defined result, which the transport functions express by returning `none`.
* A `QString` is a `Str` as well; the directory and the files of the gnupg home are given to
  the slot as a value (`GnupgHome`), and a failing `assert` has no result (`none`).
-/

namespace Kleo

/-! # Part 1: the source -/

/-! ## Text -/

/-- Byte strings of the source (`std::string`, `QByteArray`, C strings). -/
abbrev Str := List Char

/-- The terminating byte of a C string. -/
def NUL : Char := Char.ofNat 0

/-- The text `std::string::c_str()` hands to a C function: everything before the first NUL. -/
def c_str (s : Str) : Str := s.takeWhile (fun c => c != NUL)

/-- The C locale `isspace`: space, `\t`, `\n`, `\v`, `\f`, `\r`. -/
def isspace (c : Char) : Bool :=
  c.toNat == 32 || (9 ≤ c.toNat && c.toNat ≤ 13)

/-- The C `isdigit`. -/
def isdigit (c : Char) : Bool := 48 ≤ c.toNat && c.toNat ≤ 57

/-- Value of a decimal digit character. -/
def digitValue (c : Char) : Nat := c.toNat - 48

/-- The C locale `tolower`: only `A`..`Z` are changed. -/
def tolower (c : Char) : Char :=
  if 65 ≤ c.toNat ∧ c.toNat ≤ 90 then Char.ofNat (c.toNat + 32) else c

/-- The digit loop of `strtol`: reads the longest run of decimal digits. -/
def readDigits : Nat → Str → Nat
  | acc, [] => acc
  | acc, c :: cs => if isdigit c then readDigits (acc * 10 + digitValue c) cs else acc

def LONG_MAX : Int := 2 ^ 63 - 1

def LONG_MIN : Int := -(2 ^ 63)

/-- Splits an optional sign off the front of a numeral: `(isNegative, rest)`. -/
def readSign : Str → Bool × Str
  | c :: cs => if c = '-' then (true, cs) else if c = '+' then (false, cs) else (false, c :: cs)
  | [] => (false, [])

/-- The libc `strtol(s, NULL, 10)` on a 64-bit `long`: leading white space, an optional sign,
the longest run of digits (value 0 when there is none), saturating at the ends of `long`. -/
def strtol (s : Str) : Int :=
  let p := readSign (s.dropWhile isspace)
  let n : Int := (readDigits 0 p.2 : Nat)
  let v : Int := if p.1 then -n else n
  if v < LONG_MIN then LONG_MIN else if LONG_MAX < v then LONG_MAX else v

/-- Conversion of a `long` to a 32-bit `int` (two's complement truncation). -/
def toInt32 (v : Int) : Int := (v + 2 ^ 31) % 2 ^ 32 - 2 ^ 31

/-- The libc `atoi`, which is `(int) strtol(s, NULL, 10)`; C leaves the result open when the
value does not fit an `int`, and this is what glibc computes there. -/
def atoi (s : Str) : Int := toInt32 (strtol s)

/-- The libc `strcasecmp` on two C strings: the difference of the first pair of characters
that differ after `tolower`, 0 when there is none. -/
def strcasecmp : Str → Str → Int
  | [], [] => 0
  | [], b :: _ => - ((tolower b).toNat : Int)
  | a :: _, [] => ((tolower a).toNat : Int)
  | a :: as, b :: bs =>
    if tolower a = tolower b then strcasecmp as bs
    else ((tolower a).toNat : Int) - ((tolower b).toNat : Int)

/-- The `std::find_if` over an array, as the index of the first match (`none` is `end`). -/
def find_if {α : Type} (p : α → Bool) : List α → Option Nat
  | [] => none
  | x :: xs => if p x then some 0 else (find_if p xs).map (· + 1)

/-- The field iterator behind `boost::split(result, input, pred, token_compress_on)`: the
input is cut at every maximal run of separator characters (`inRun` says that the character
before was a separator, so that a run counts once); a run at the very start or end leaves an
empty field there. -/
def boost_split_from (isSep : Char → Bool) : Bool → Str → List Str
  | _, [] => [[]]
  | inRun, c :: cs =>
    if isSep c then
      if inRun then boost_split_from isSep true cs
      else [] :: boost_split_from isSep true cs
    else
      match boost_split_from isSep false cs with
      | f :: fs => (c :: f) :: fs
      | [] => [[c]]

/-- The fields `boost::split(result, input, pred, token_compress_on)` stores in `result`;
the empty input gives one empty field. -/
def boost_split (isSep : Char → Bool) (input : Str) : List Str :=
  boost_split_from isSep false input

/-! ## The enumerations of `ReaderStatus` -/

/-- Modelled from the spec: the enumeration `ReaderStatus::Status` of the header
`readerstatus.h`, in the order of the `prettyFlags` table of the source. -/
inductive Status where
  | NoCard | CardPresent | CardActive | CardUsable | CardCanLearnKeys | CardHasNullPin
  | CardError
  deriving DecidableEq, Repr

/-- Modelled from the spec: the enumeration `ReaderStatus::AppType` of the header
`readerstatus.h`; its order is the order of the `app_types` table of the source. -/
inductive AppType where
  | UnknownApplication | OpenPGPApplication | NksApplication | P15Application
  | DinSigApplication | GeldkarteApplication
  deriving DecidableEq, Repr

/-- Modelled from the spec: the enumeration `ReaderStatus::PinState` of the header
`readerstatus.h`. -/
inductive PinState where
  | UnknownPinState | NullPin | PinBlocked | NoPin | PinOk
  deriving DecidableEq, Repr

/-- The `static_cast<ReaderStatus::AppType>` of a table index. -/
def AppType.ofIndex : Nat → AppType
  | 0 => .UnknownApplication
  | 1 => .OpenPGPApplication
  | 2 => .NksApplication
  | 3 => .P15Application
  | 4 => .DinSigApplication
  | 5 => .GeldkarteApplication
  | _ => .UnknownApplication

/-! ## Text parsers -/

/-- The table `app_types`. -/
def app_types : List Str :=
  ["_".toList, "openpgp".toList, "nks".toList, "p15".toList, "dinsig".toList,
   "geldkarte".toList]

def parse_app_type (s : Str) : AppType :=
  match find_if (fun type => strcasecmp (c_str s) type == 0) app_types with
  | none => AppType.UnknownApplication
  | some i => AppType.ofIndex i

def parse_app_version (s : Str) : Int := atoi (c_str s)

def parse_pin_state (s : Str) : PinState :=
  let i := atoi (c_str s)
  if i = -4 then PinState.NullPin
  else if i = -3 then PinState.PinBlocked
  else if i = -2 then PinState.NoPin
  else if i = -1 then PinState.UnknownPinState
  else if i < 0 then PinState.UnknownPinState
  else PinState.PinOk

/-- The hexadecimal digits `hexchars` of `parse_keypairinfo`. -/
def hexchars : Str := "0123456789abcdefABCDEF".toList

/-- The `std::string::find_first_not_of`: index of the first character that is not in
`chars`, `none` for `npos`. -/
def find_first_not_of (s chars : Str) : Option Nat :=
  find_if (fun c => !chars.contains c) s

/-- The `std::string::substr(0, n)`, where `none` is `npos`. -/
def substr0 (s : Str) : Option Nat → Str
  | none => s
  | some n => s.take n

def parse_keypairinfo (kpi : Str) : Str :=
  '&' :: substr0 kpi (find_first_not_of kpi hexchars)

/-! ## The data model -/

structure CardInfo where
  fileName : Str
  status : Status
  serialNumber : Str
  appType : AppType
  appVersion : Int
  pinStates : List PinState
  deriving DecidableEq, Repr

/-- The default constructor `CardInfo()`. -/
def CardInfo.default : CardInfo :=
  { fileName := [], status := Status.NoCard, serialNumber := [],
    appType := AppType.UnknownApplication, appVersion := -1, pinStates := [] }

/-- The constructor `CardInfo(fn, s)`. -/
def CardInfo.init (fn : Str) (s : Status) : CardInfo :=
  { fileName := fn, status := s, serialNumber := [],
    appType := AppType.UnknownApplication, appVersion := -1, pinStates := [] }

/-! ## Error codes of `gpg-error.h` -/

def GPG_ERR_NOT_SUPPORTED : Nat := 60

def GPG_ERR_CARD_REMOVED : Nat := 110

def GPG_ERR_CARD_NOT_PRESENT : Nat := 112

def GPG_ERR_ASS_GENERAL : Nat := 257

def GPG_ERR_ASS_UNKNOWN_INQUIRE : Nat := 281

/-! ## The agent and the session -/

/-- What a finished `GpgME::DefaultAssuanTransaction` holds: the data bytes and the status
lines (keyword, arguments) in the order received. -/
structure DefaultAssuanTransaction where
  data : Str
  statusLines : List (Str × Str)
  deriving DecidableEq, Repr

/-- The `DefaultAssuanTransaction::statusLine(tag)`: the arguments of every status line
with this keyword, in order. -/
def DefaultAssuanTransaction.statusLine (t : DefaultAssuanTransaction) (tag : Str) :
    List Str :=
  (t.statusLines.filter (fun p => p.1 == tag)).map (fun p => p.2)

/-- The `DefaultAssuanTransaction::firstStatusLine(tag)`: the arguments of the first status
line with this keyword, the empty string when there is none. -/
def DefaultAssuanTransaction.firstStatusLine (t : DefaultAssuanTransaction) (tag : Str) :
    Str :=
  match t.statusLines.find? (fun p => p.1 == tag) with
  | some p => p.2
  | none => []

/-- The outcome of one Assuan transaction: the error code and the transaction object the
session holds afterwards (`none` when there is no `DefaultAssuanTransaction` to take). -/
structure Reply where
  err : Nat
  transaction : Option DefaultAssuanTransaction
  deriving DecidableEq, Repr

/-- The agent process as the worker sees it: its answer to a command may depend on every
command sent before, and `sent` records the commands in the order they were issued. -/
structure Agent where
  reply : List Str → Str → Reply
  sent : List Str

/-- The state of a `GpgME::Context` that the source reads: the last transaction. -/
structure Context where
  lastAssuanTransaction : Option DefaultAssuanTransaction
  deriving DecidableEq, Repr

/-- The `Context::assuanTransact(command)`: sends the command, keeps the transaction. -/
def Context.assuanTransact (_ctx : Context) (command : Str) (w : Agent) :
    Nat × Context × Agent :=
  let r := w.reply w.sent command
  (r.err, { lastAssuanTransaction := r.transaction }, { w with sent := w.sent ++ [command] })

/-- The `Context::takeLastAssuanTransaction()` followed by the `dynamic_cast`. -/
def Context.takeLastAssuanTransaction (ctx : Context) :
    Option DefaultAssuanTransaction × Context :=
  (ctx.lastAssuanTransaction, { lastAssuanTransaction := none })

/-- What a transport function leaves behind: its return value, the `Error &err` it wrote,
the session handle (`none` after `reset()`), and the agent. -/
structure Transacted (α : Type) where
  value : α
  err : Nat
  gpgAgent : Option Context
  agent : Agent

def gpgagent_transact (gpgAgent : Option Context) (command : Str) (w : Agent) :
    Option (Transacted (Option DefaultAssuanTransaction)) :=
  match gpgAgent with
  | none => none
  | some ctx =>
    let r := ctx.assuanTransact command w
    if r.1 ≠ 0 then
      if GPG_ERR_ASS_GENERAL ≤ r.1 ∧ r.1 ≤ GPG_ERR_ASS_UNKNOWN_INQUIRE then
        some { value := none, err := r.1, gpgAgent := none, agent := r.2.2 }
      else
        some { value := none, err := r.1, gpgAgent := some r.2.1, agent := r.2.2 }
    else
      let t := r.2.1.takeLastAssuanTransaction
      some { value := t.1, err := r.1, gpgAgent := some t.2, agent := r.2.2 }

def scd_getattr_status (gpgAgent : Option Context) (what : Str) (w : Agent) :
    Option (Transacted Str) :=
  let cmd := "SCD GETATTR ".toList ++ what
  (gpgagent_transact gpgAgent (c_str cmd) w).map fun r =>
    match r.value with
    | some t => { r with value := t.firstStatusLine what }
    | none => { r with value := [] }

def gpgagent_data (gpgAgent : Option Context) (what : Str) (w : Agent) :
    Option (Transacted Str) :=
  (gpgagent_transact gpgAgent what w).map fun r =>
    match r.value with
    | some t => { r with value := t.data }
    | none => { r with value := [] }

/-! ## Key lookup -/

/-- The key listing context `Context::createForProtocol(CMS)` as the prober uses it:
`startKeyListing pattern` is the truth value of the `Error` that `startKeyListing` returns,
`nextKey pattern` is the truth value of the error of the following `nextKey` together with
`key.isNull()`. -/
structure KeyListContext where
  startKeyListing : Str → Bool
  nextKey : Str → Bool × Bool

def parse_keypairinfo_and_lookup_key (ctx : Option KeyListContext) (kpi : Str) : Bool :=
  match ctx with
  | none => false
  | some c =>
    let pattern := parse_keypairinfo kpi
    if c.startKeyListing (c_str pattern) then false
    else
      let r := c.nextKey (c_str pattern)
      !r.1 && !r.2

/-! ## The card prober -/

/-- The separators `boost::is_any_of(" \t")`. -/
def is_space_or_tab (c : Char) : Bool := c == ' ' || c == '\t'

/-- What `get_card_status` leaves behind: the snapshot, the session handle and the agent. -/
structure Probed where
  ci : CardInfo
  gpg_agent : Option Context
  agent : Agent

/-- The prober. `klc` is what `Context::createForProtocol(CMS)` returns (`none` for null). -/
def get_card_status (klc : Option KeyListContext) (fileName : Str) (idx : Nat)
    (gpg_agent : Option Context) (w : Agent) : Option Probed :=
  let ci := CardInfo.init fileName Status.CardUsable
  if idx ≠ 0 ∨ gpg_agent.isNone then some ⟨ci, gpg_agent, w⟩
  else
  (gpgagent_data gpg_agent "SCD SERIALNO".toList w).bind fun r1 =>
  let ci := { ci with serialNumber := r1.value }
  if r1.err = GPG_ERR_CARD_NOT_PRESENT ∨ r1.err = GPG_ERR_CARD_REMOVED then
    some ⟨{ ci with status := Status.NoCard }, r1.gpgAgent, r1.agent⟩
  else if r1.err ≠ 0 then
    some ⟨{ ci with status := Status.CardError }, r1.gpgAgent, r1.agent⟩
  else
  (scd_getattr_status r1.gpgAgent "APPTYPE".toList r1.agent).bind fun r2 =>
  let ci := { ci with appType := parse_app_type r2.value }
  if r2.err ≠ 0 then some ⟨ci, r2.gpgAgent, r2.agent⟩
  else if ci.appType ≠ AppType.NksApplication then some ⟨ci, r2.gpgAgent, r2.agent⟩
  else
  (scd_getattr_status r2.gpgAgent "NKS-VERSION".toList r2.agent).bind fun r3 =>
  let ci := { ci with appVersion := parse_app_version r3.value }
  if r3.err ≠ 0 then some ⟨ci, r3.gpgAgent, r3.agent⟩
  else if ci.appVersion ≠ 3 then some ⟨ci, r3.gpgAgent, r3.agent⟩
  else
  (scd_getattr_status r3.gpgAgent "CHV-STATUS".toList r3.agent).bind fun r4 =>
  let chvStatus := boost_split is_space_or_tab r4.value
  if r4.err ≠ 0 then some ⟨ci, r4.gpgAgent, r4.agent⟩
  else
  let ci := { ci with pinStates := ci.pinStates ++ chvStatus.map parse_pin_state }
  if ci.pinStates.contains PinState.NullPin then
    some ⟨{ ci with status := Status.CardHasNullPin }, r4.gpgAgent, r4.agent⟩
  else
  (gpgagent_transact r4.gpgAgent "SCD LEARN --keypairinfo".toList r4.agent).bind fun r5 =>
  match r5.value with
  | none => some ⟨ci, r5.gpgAgent, r5.agent⟩
  | some result =>
    if r5.err ≠ 0 then some ⟨ci, r5.gpgAgent, r5.agent⟩
    else
    let keyPairInfos := result.statusLine "KEYPAIRINFO".toList
    if keyPairInfos.isEmpty then some ⟨ci, r5.gpgAgent, r5.agent⟩
    else
    match klc with
    | none => some ⟨ci, r5.gpgAgent, r5.agent⟩
    | some k =>
      if keyPairInfos.any (fun str => !parse_keypairinfo_and_lookup_key (some k) str) then
        some ⟨{ ci with status := Status.CardCanLearnKeys }, r5.gpgAgent, r5.agent⟩
      else some ⟨ci, r5.gpgAgent, r5.agent⟩

/-! ## The event counter -/

/-- The value of `(unsigned int) -1`. -/
def UINT_MAX : Nat := 2 ^ 32 - 1

/-- One `%u` conversion of `sscanf`: leading white space, an optional sign, one or more
digits. The result is the value stored in an `unsigned int` and the rest of the input,
`none` when there is no digit to read. As in glibc the digits are read as by `strtoul` on a
64-bit `unsigned long` (saturating, negated for a minus sign) and then cut to 32 bits. -/
def scan_unsigned (s : Str) : Option (Nat × Str) :=
  let p := readSign (s.dropWhile isspace)
  match p.2 with
  | [] => none
  | c :: cs =>
    if isdigit c then
      let n := readDigits 0 (c :: cs)
      let v : Nat :=
        if 2 ^ 64 - 1 < n then 2 ^ 64 - 1 else if p.1 then (2 ^ 64 - n) % 2 ^ 64 else n
      some (v % 2 ^ 32, (c :: cs).dropWhile isdigit)
    else none

/-- The function `parse_event_counter`: `sscanf(str, "%*u %*u %u ", &result)` stores the
third number of the text; without a third number the result is `-1`. -/
def parse_event_counter (str : Str) : Nat :=
  match scan_unsigned (c_str str) with
  | none => UINT_MAX
  | some (_, r1) =>
    match scan_unsigned r1 with
    | none => UINT_MAX
    | some (_, r2) =>
      match scan_unsigned r2 with
      | none => UINT_MAX
      | some (result, _) => result

def get_event_counter (gpgAgent : Option Context) (w : Agent) : Option (Transacted Nat) :=
  (gpgagent_transact gpgAgent "GETEVENTCOUNTER".toList w).map fun r =>
    match r.value with
    | some t => { r with value := parse_event_counter (t.firstStatusLine "EVENTCOUNTER".toList) }
    | none => { r with value := UINT_MAX }

/-- The `QDir::absoluteFilePath` of a file name in a directory given by an absolute path. -/
def absoluteFilePath (dir file : Str) : Str := dir ++ '/' :: file

/-- What `update_cardinfo` leaves behind: the new table, the session handle, the agent. -/
structure Updated where
  cardInfos : List CardInfo
  gpgAgent : Option Context
  agent : Agent

def update_cardinfo (klc : Option KeyListContext) (gnupgHomePath : Str)
    (gpgAgent : Option Context) (w : Agent) : Option Updated :=
  (get_card_status klc (absoluteFilePath gnupgHomePath "reader_0.status".toList) 0
      gpgAgent w).map fun p =>
    { cardInfos := [p.ci], gpgAgent := p.gpg_agent, agent := p.agent }

/-- The function `check_event_counter_changed`; the value is the answer together with the
new content of `counter`. -/
def check_event_counter_changed (gpg_agent : Option Context) (counter : Nat) (w : Agent) :
    Option (Transacted (Bool × Nat)) :=
  let oldCounter := counter
  (get_event_counter gpg_agent w).map fun r =>
    { r with value := (decide (oldCounter ≠ r.value), r.value) }

/-! ## Requests -/

/-- The `struct Transaction`: `receiver` is the `QPointer<QObject>` (`none` when null),
`slot` the `const char *` (`none` when null), `error` the code of the `GpgME::Error`. -/
structure Transaction where
  command : Str
  receiver : Option Nat
  slot : Option Str
  error : Nat
  deriving DecidableEq, Repr

def checkTransaction : Transaction :=
  { command := "__check__".toList, receiver := none, slot := none, error := 0 }

def updateTransaction : Transaction :=
  { command := "__update__".toList, receiver := none, slot := none, error := 0 }

def quitTransaction : Transaction :=
  { command := "__quit__".toList, receiver := none, slot := none, error := 0 }

/-! ## The worker thread -/

/-- The data members of `ReaderStatusThread`. -/
structure ReaderStatusThread where
  m_gnupgHomePath : Str
  readerStatusFileContents : List Str
  m_cardInfos : List CardInfo
  m_transactions : List Transaction
  m_finishedTransactions : List Transaction
  deriving DecidableEq, Repr

/-- The constructor: the queue starts with one forced update. -/
def ReaderStatusThread.init (gnupgHomePath : Str) : ReaderStatusThread :=
  { m_gnupgHomePath := gnupgHomePath, readerStatusFileContents := [], m_cardInfos := [],
    m_transactions := [updateTransaction], m_finishedTransactions := [] }

def ReaderStatusThread.addTransaction (th : ReaderStatusThread) (t : Transaction) :
    ReaderStatusThread :=
  { th with m_transactions := th.m_transactions ++ [t] }

def ReaderStatusThread.ping (th : ReaderStatusThread) : ReaderStatusThread :=
  th.addTransaction updateTransaction

def ReaderStatusThread.stop (th : ReaderStatusThread) : ReaderStatusThread :=
  { th with m_transactions := quitTransaction :: th.m_transactions }

/-- The signals of `ReaderStatusThread`. -/
inductive Signal where
  | anyCardHasNullPinChanged (b : Bool)
  | anyCardCanLearnKeysChanged (b : Bool)
  | cardStatusChanged (idx : Nat) (status : Status)
  | oneTransactionFinished
  deriving DecidableEq, Repr

/-- A call another thread makes on the queue while the worker does not hold the mutex. -/
inductive QueueOp where
  | addTransaction (t : Transaction)
  | stop
  deriving DecidableEq, Repr

def QueueOp.apply (th : ReaderStatusThread) : QueueOp → ReaderStatusThread
  | QueueOp.addTransaction t => th.addTransaction t
  | QueueOp.stop => th.stop

/-- One call of `m_waitForTransactions.wait(&m_mutex, CHECK_INTERVAL)`: the calls other
threads made on the queue while the worker slept, and whether the wait timed out (returned
`false`). -/
structure Wait where
  arrived : List QueueOp
  timedOut : Bool
  deriving DecidableEq, Repr

/-- The loop `while (m_transactions.empty())` of `run`: each pass takes the outcome of one
wait; a timeout puts the periodic check at the front. The result is `none` when the queue is
empty and no further outcome of a wait is given (the worker sleeps on). -/
def waitForTransactions : List Wait → ReaderStatusThread → Option ReaderStatusThread
  | [], th => if th.m_transactions.isEmpty then none else some th
  | wt :: wts, th =>
    if th.m_transactions.isEmpty then
      let th1 := wt.arrived.foldl QueueOp.apply th
      let th2 :=
        if wt.timedOut then { th1 with m_transactions := checkTransaction :: th1.m_transactions }
        else th1
      waitForTransactions wts th2
    else some th

/-- The local variables of `run` that live across iterations, the object itself, the agent
and the signals emitted so far. -/
structure RunState where
  thread : ReaderStatusThread
  gpgAgent : Option Context
  eventCounter : Nat
  agent : Agent
  emitted : List Signal

/-- What the surroundings contribute to one pass of the loop of `run`: the outcome of
`Context::createForEngine(AssuanEngine, &err)` as error code and context (used when the
worker has no session), the calls other threads made on the queue since the worker last held
the mutex, the outcomes of the waits, and the result of `Context::createForProtocol(CMS)`. -/
structure Surroundings where
  createForEngine : Nat × Option Context
  arrived : List QueueOp
  waits : List Wait
  createForProtocol : Option KeyListContext

/-- How one pass of the loop of `run` ends: the loop goes on, `run` returns, the worker
sleeps on an empty queue, or a null session handle is dereferenced. -/
inductive Step where
  | next (s : RunState)
  | finished (s : RunState)
  | blocked
  | undefined

/-- The `std::vector::resize(n)` of a table of snapshots: cut, or filled with `CardInfo()`. -/
def resize (v : List CardInfo) (n : Nat) : List CardInfo :=
  v.take n ++ List.replicate (n - v.length) CardInfo.default

/-- The local variables of the comparison loop of `run`, with the signals it emitted. -/
structure Comparison where
  emitted : List Signal
  anyLC : Bool
  anyNP : Bool
  anyError : Bool
  deriving DecidableEq, Repr

/-- The loop `while (nit != nend && oit != oend)` of `run`, from index `idx` on. -/
def compareCardInfos : Nat → List CardInfo → List CardInfo → Comparison → Comparison
  | idx, n :: ns, o :: os, acc =>
    compareCardInfos (idx + 1) ns os
      { emitted :=
          if n.status ≠ o.status then acc.emitted ++ [Signal.cardStatusChanged idx n.status]
          else acc.emitted,
        anyLC := if n.status = Status.CardCanLearnKeys then true else acc.anyLC,
        anyNP := if n.status = Status.CardHasNullPin then true else acc.anyNP,
        anyError := if n.status = Status.CardError then true else acc.anyError }
  | _, _, _, acc => acc

/-- The branch of `run` for a check or update request, from `update_cardinfo` to the reset
of the session: `s` is the state once the request is taken, `oldCardInfos` the copy of the
table made then. -/
def reprobe (klc : Option KeyListContext) (oldCardInfos : List CardInfo) (s : RunState) :
    Option RunState :=
  (update_cardinfo klc s.thread.m_gnupgHomePath s.gpgAgent s.agent).map fun u =>
    let newCardInfos := resize u.cardInfos (max u.cardInfos.length oldCardInfos.length)
    let oldCardInfos := resize oldCardInfos (max newCardInfos.length oldCardInfos.length)
    let c := compareCardInfos 0 newCardInfos oldCardInfos
      { emitted := [], anyLC := false, anyNP := false, anyError := false }
    { thread := { s.thread with m_cardInfos := newCardInfos },
      gpgAgent := if c.anyError then none else u.gpgAgent,
      eventCounter := s.eventCounter,
      agent := u.agent,
      emitted := s.emitted ++ c.emitted ++
        [Signal.anyCardHasNullPinChanged c.anyNP, Signal.anyCardCanLearnKeysChanged c.anyLC] }

/-- The end of a pass of the loop of `run`: the event counter is fetched again when there is
a session and set to `-1` when there is none. -/
def refresh_event_counter (s : RunState) : Option RunState :=
  match s.gpgAgent with
  | some _ =>
    (get_event_counter s.gpgAgent s.agent).map fun r =>
      { s with eventCounter := r.value, gpgAgent := r.gpgAgent, agent := r.agent }
  | none => some { s with eventCounter := UINT_MAX }

/-- Ends a pass of the loop whose branch left the state `r` (`none`: undefined). -/
def end_of_iteration (r : Option RunState) : Step :=
  match r.bind refresh_event_counter with
  | some s => Step.next s
  | none => Step.undefined

/-- The start of a pass of the loop of `run`: a worker without session creates one. The
result is `none` when `run` returns because the engine is not supported, and the session
handle to go on with otherwise (a null handle when the creation failed for another
reason). -/
def acquire_session (e : Surroundings) (gpgAgent : Option Context) : Option (Option Context) :=
  match gpgAgent with
  | some c => some (some c)
  | none =>
    if e.createForEngine.1 = GPG_ERR_NOT_SUPPORTED then none else some e.createForEngine.2

/-- The section of `run` under the mutex: the worker waits until the queue is not empty and
splices off its first request. `arrived` are the calls other threads made on the queue
before, `waits` the outcomes of the waits; the result is the request and the object without
it, `none` when the worker sleeps on. -/
def take_transaction (arrived : List QueueOp) (waits : List Wait) (th : ReaderStatusThread) :
    Option (Transaction × ReaderStatusThread) :=
  match waitForTransactions waits (arrived.foldl QueueOp.apply th) with
  | none => none
  | some th1 =>
    match th1.m_transactions with
    | [] => none
    | item :: rest => some (item, { th1 with m_transactions := rest })

/-- One pass of the `while (true)` loop of `run`. -/
def run_iteration (e : Surroundings) (s : RunState) : Step :=
  match acquire_session e s.gpgAgent with
  | none => Step.finished s
  | some gpgAgent =>
    match take_transaction e.arrived e.waits s.thread with
    | none => Step.blocked
    | some (item, th) =>
      let command := item.command
      let nullSlot := item.slot.isNone
      let oldCardInfos := th.m_cardInfos
      let s1 : RunState := { s with thread := th, gpgAgent := gpgAgent }
      if nullSlot && command == quitTransaction.command then Step.finished s1
      else if (nullSlot && command == updateTransaction.command) ||
          (nullSlot && command == checkTransaction.command) then
        if nullSlot && command == checkTransaction.command then
          match check_event_counter_changed s1.gpgAgent s1.eventCounter s1.agent with
          | none => Step.undefined
          | some r =>
            let s2 : RunState :=
              { s1 with gpgAgent := r.gpgAgent, agent := r.agent, eventCounter := r.value.2 }
            if !r.value.1 then Step.next s2
            else end_of_iteration (reprobe e.createForProtocol oldCardInfos s2)
        else end_of_iteration (reprobe e.createForProtocol oldCardInfos s1)
      else
        match gpgagent_transact s1.gpgAgent (c_str command) s1.agent with
        | none => Step.undefined
        | some r =>
          end_of_iteration (some
            { s1 with
              thread := { s1.thread with
                m_finishedTransactions :=
                  s1.thread.m_finishedTransactions ++ [{ item with error := r.err }] },
              gpgAgent := r.gpgAgent, agent := r.agent,
              emitted := s1.emitted ++ [Signal.oneTransactionFinished] })

/-- The loop of `run` for as many passes as surroundings are given; `Step.next` is the
state of a worker that is still running. -/
def run_loop : List Surroundings → RunState → Step
  | [], s => Step.next s
  | e :: es, s =>
    match run_iteration e s with
    | Step.next s1 => run_loop es s1
    | r => r

/-- The function `run`: no session and the event counter `-1` to start with. -/
def run (es : List Surroundings) (th : ReaderStatusThread) (w : Agent) : Step :=
  run_loop es { thread := th, gpgAgent := none, eventCounter := UINT_MAX, agent := w,
                emitted := [] }

/-! ## The status files -/

/-- The `QByteArray::trimmed()`: the bytes without the white space (C locale `isspace`) at
their start and at their end. -/
def trimmed (bytes : Str) : Str :=
  ((bytes.dropWhile isspace).reverse.dropWhile isspace).reverse

/-- The function `read_file`; `files` gives the bytes of each file that exists and can be
opened. -/
def read_file (files : Str → Option Str) (fileName : Str) : Str :=
  match files fileName with
  | none => []
  | some bytes => trimmed bytes

/-- The `QFileInfo(fileName).fileName()`: the part of a path behind its last `/`. -/
def QFileInfo_fileName (path : Str) : Str :=
  (path.reverse.takeWhile fun c => c != '/').reverse

/-- The class `\d` of `QRegExp`, which is `QChar::isDigit`: the digits `0`..`9` and, beyond
ASCII, the decimal digits of other scripts, which `nd` tells. -/
def QChar_isDigit (nd : Char → Bool) (c : Char) : Bool :=
  isdigit c || (decide (127 < c.toNat) && nd c)

/-- Takes the literal text `lit` off the front of `s`; `none` when `s` does not start
with it. -/
def dropLiteral : Str → Str → Option Str
  | [], s => some s
  | _ :: _, [] => none
  | l :: ls, c :: cs => if l = c then dropLiteral ls cs else none

/-- The `rx.exactMatch(name)` for the `QRegExp` `reader_(\d+)\.status` of `parseFileName`,
with `rx.cap(1)` as the result of a match: the whole name has to be `reader_`, one or more
characters of the class `\d`, and `.status`. -/
def exactMatch (nd : Char → Bool) (name : Str) : Option Str :=
  match dropLiteral "reader_".toList name with
  | none => none
  | some rest =>
    let cap1 := rest.takeWhile (QChar_isDigit nd)
    if cap1.isEmpty then none
    else if rest.dropWhile (QChar_isDigit nd) = ".status".toList then some cap1
    else none

/-- The `QString::toUInt(ok, 10)` of a text made of characters of the class `\d`, as value
and `*ok`: the conversion reads the digits `0`..`9` only, and fails (value 0) on any other
character, on the empty text and on a value that does not fit an `unsigned int`. -/
def toUInt (s : Str) : Nat × Bool :=
  if s.isEmpty || !s.all isdigit then (0, false)
  else if readDigits 0 s ≤ UINT_MAX then (readDigits 0 s, true)
  else (0, false)

/-- The function `parseFileName`, as its return value and what it leaves in `*ok` (when
`ok` is not null). -/
def parseFileName (nd : Char → Bool) (fileName : Str) : Nat × Bool :=
  match exactMatch nd (QFileInfo_fileName fileName) with
  | some cap1 => toUInt cap1
  | none => (0, false)

/-- What `QDir` and `QFile` show of the gnupg home directory when the slot runs: whether the
directory exists, the result of
`entryList(QStringList("reader_*.status"), QDir::Files, QDir::Name)`, and the files. -/
structure GnupgHome where
  isThere : Bool
  entryList : List Str
  files : Str → Option Str

/-- The `std::sort` of the file names with the comparator of the source,
`parseFileName(lhs, nullptr) < parseFileName(rhs, nullptr)`: the names in ascending order of
their number. The standard leaves the order of names with the same number open; here they
keep their order. -/
def sortFiles (nd : Char → Bool) (files : List Str) : List Str :=
  files.insertionSort fun lhs rhs => ¬ (parseFileName nd rhs).1 < (parseFileName nd lhs).1

/-- The `std::vector::resize(n)` of the vector of file contents: cut, or filled with empty
byte arrays. -/
def resizeContents (v : List Str) (n : Nat) : List Str :=
  v.take n ++ List.replicate (n - v.length) []

/-- The `Q_FOREACH` loop of `slotReaderStatusFileChanged` over the sorted names; `none` when
the assertion `idx >= contents.size()` fails. -/
def placeContents (nd : Char → Bool) (files : Str → Option Str) (gnupgHomePath : Str) :
    List Str → List Str → Option (List Str)
  | [], contents => some contents
  | file :: rest, contents =>
    let p := parseFileName nd file
    if !p.2 then placeContents nd files gnupgHomePath rest contents
    else if p.1 < contents.length then none
    else
      placeContents nd files gnupgHomePath rest
        (resizeContents contents p.1 ++ [read_file files (absoluteFilePath gnupgHomePath file)])

/-- The loop `while (!contents.empty() && contents.back().isEmpty()) contents.pop_back()`,
on the reversed vector. -/
def popEmptyBack : List Str → List Str
  | [] => []
  | c :: cs => if c.isEmpty then popEmptyBack cs else c :: cs

/-- The slot `slotReaderStatusFileChanged`; `none` when the assertion fails. -/
def ReaderStatusThread.slotReaderStatusFileChanged (nd : Char → Bool) (home : GnupgHome)
    (th : ReaderStatusThread) : Option ReaderStatusThread :=
  if !home.isThere then some th
  else
    match placeContents nd home.files th.m_gnupgHomePath (sortFiles nd home.entryList) [] with
    | none => none
    | some contents =>
      let contents := (popEmptyBack contents.reverse).reverse
      let th1 := if contents ≠ th.readerStatusFileContents then th.ping else th
      some { th1 with readerStatusFileContents := contents }

/-! ## The facade -/

def ReaderStatusThread.cardInfos (th : ReaderStatusThread) : List CardInfo := th.m_cardInfos

def ReaderStatusThread.cardStatus (th : ReaderStatusThread) (slot : Nat) : Status :=
  if h : slot < th.m_cardInfos.length then (th.m_cardInfos.get ⟨slot, h⟩).status
  else Status.NoCard

def anyCardHasNullPinImpl (d : ReaderStatusThread) : Bool :=
  d.cardInfos.any fun ci => ci.status == Status.CardHasNullPin

def anyCardCanLearnKeysImpl (d : ReaderStatusThread) : Bool :=
  d.cardInfos.any fun ci => ci.status == Status.CardCanLearnKeys

/-- The `ReaderStatus::cardStatus`; `d` is the private object of the facade. -/
def ReaderStatus.cardStatus (d : ReaderStatusThread) (slot : Nat) : Status := d.cardStatus slot

def ReaderStatus.anyCardHasNullPin (d : ReaderStatusThread) : Bool := anyCardHasNullPinImpl d

def ReaderStatus.anyCardCanLearnKeys (d : ReaderStatusThread) : Bool :=
  anyCardCanLearnKeysImpl d

def ReaderStatus.pinStates (d : ReaderStatusThread) (slot : Nat) : List PinState :=
  let ci := d.cardInfos
  if h : slot < ci.length then (ci.get ⟨slot, h⟩).pinStates else []

def ReaderStatus.startSimpleTransaction (d : ReaderStatusThread) (command : Str)
    (receiver : Option Nat) (slot : Option Str) : ReaderStatusThread :=
  d.addTransaction { command := command, receiver := receiver, slot := slot, error := 0 }

def ReaderStatus.updateStatus (d : ReaderStatusThread) : ReaderStatusThread := d.ping


/-! # Part 2: notions of the specification -/

/-! ## Values and texts -/

/-- The mapping from the integer value of a CHV-STATUS field to a PIN state, as the
specification words it. -/
def PinStateMapping (n : Int) (p : PinState) : Prop :=
  (n = -4 → p = PinState.NullPin) ∧
  (n = -3 → p = PinState.PinBlocked) ∧
  (n = -2 → p = PinState.NoPin) ∧
  (n = -1 → p = PinState.UnknownPinState) ∧
  (n < 0 → n ≠ -4 → n ≠ -3 → n ≠ -2 → n ≠ -1 → p = PinState.UnknownPinState) ∧
  (0 ≤ n → p = PinState.PinOk)

/-- The decimal digits of a natural number, most significant first. -/
def decimalDigits (n : Nat) : Str :=
  if h : n < 10 then [Char.ofNat (48 + n)]
  else decimalDigits (n / 10) ++ [Char.ofNat (48 + n % 10)]
termination_by n
decreasing_by omega

/-- The decimal text of an integer: a minus sign for a negative value, then the digits. -/
def decimalText (n : Int) : Str :=
  if n < 0 then '-' :: decimalDigits n.natAbs else decimalDigits n.toNat

/-- A text that is a decimal integer: an optional sign, then one or more digits, and
nothing else. -/
def isDecimalInteger (s : Str) : Bool :=
  let r := (readSign s).2
  !r.isEmpty && r.all isdigit

/-- A text that starts with something `atoi` reads as a number: after leading white space
and an optional sign there is a digit. -/
def startsWithInteger (s : Str) : Bool :=
  match (readSign (s.dropWhile isspace)).2 with
  | c :: _ => isdigit c
  | [] => false

/-- The number of maximal runs of separator characters in a text (`inRun` says that the
character before was a separator). -/
def separatorRunsFrom (isSep : Char → Bool) : Bool → Str → Nat
  | _, [] => 0
  | inRun, c :: cs =>
    if isSep c then
      if inRun then separatorRunsFrom isSep true cs
      else separatorRunsFrom isSep true cs + 1
    else separatorRunsFrom isSep false cs

/-- The number of maximal runs of separator characters in a text. -/
def separatorRuns (isSep : Char → Bool) (s : Str) : Nat := separatorRunsFrom isSep false s

/-! ## Replies, and what the transport makes of them -/

/-- The reply the agent gives to `command` once the commands `earlier` have been sent after
those it has already seen. -/
def Agent.answer (w : Agent) (earlier : List Str) (command : Str) : Reply :=
  w.reply (w.sent ++ earlier) command

/-- The agent after it has been sent the commands `cmds`. -/
def Agent.after (w : Agent) (cmds : List Str) : Agent :=
  { w with sent := w.sent ++ cmds }

/-- The session handle a transaction with reply `r` leaves on a present session: dropped
for an error code in the Assuan range, kept otherwise (after a reply without error the
transaction has been taken out of it). -/
def Reply.sessionAfter (r : Reply) : Option Context :=
  if r.err ≠ 0 then
    if GPG_ERR_ASS_GENERAL ≤ r.err ∧ r.err ≤ GPG_ERR_ASS_UNKNOWN_INQUIRE then none
    else some { lastAssuanTransaction := r.transaction }
  else some { lastAssuanTransaction := none }

/-- The transaction object `gpgagent_transact` returns for reply `r`. -/
def Reply.taken (r : Reply) : Option DefaultAssuanTransaction :=
  if r.err ≠ 0 then none else r.transaction

/-- The text `gpgagent_data` returns for reply `r`. -/
def Reply.dataText (r : Reply) : Str :=
  match r.taken with
  | some t => t.data
  | none => []

/-- The text `scd_getattr_status` returns for reply `r`. -/
def Reply.attrText (r : Reply) (what : Str) : Str :=
  match r.taken with
  | some t => t.firstStatusLine what
  | none => []

/-! ## The conversation of one probe -/

/-- The serial number query. -/
def cmdSerialNo : Str := "SCD SERIALNO".toList

/-- The application type query, as `scd_getattr_status` builds it. -/
def cmdAppType : Str := "SCD GETATTR APPTYPE".toList

/-- The NKS version query, as `scd_getattr_status` builds it. -/
def cmdNksVersion : Str := "SCD GETATTR NKS-VERSION".toList

/-- The PIN status query, as `scd_getattr_status` builds it. -/
def cmdChvStatus : Str := "SCD GETATTR CHV-STATUS".toList

/-- The key-learn query. -/
def cmdLearn : Str := "SCD LEARN --keypairinfo".toList

/-- The agent's reply to the serial number query of a probe. -/
def Agent.serialNo (w : Agent) : Reply := w.answer [] cmdSerialNo

/-- The agent's reply to the application type query that follows the serial number query. -/
def Agent.appType (w : Agent) : Reply := w.answer [cmdSerialNo] cmdAppType

/-- The agent's reply to the NKS version query, the third query of a probe. -/
def Agent.nksVersion (w : Agent) : Reply := w.answer [cmdSerialNo, cmdAppType] cmdNksVersion

/-- The agent's reply to the PIN status query, the fourth query of a probe. -/
def Agent.chvStatus (w : Agent) : Reply :=
  w.answer [cmdSerialNo, cmdAppType, cmdNksVersion] cmdChvStatus

/-- The agent's reply to the key-learn query, the fifth query of a probe. -/
def Agent.learn (w : Agent) : Reply :=
  w.answer [cmdSerialNo, cmdAppType, cmdNksVersion, cmdChvStatus] cmdLearn

/-- The probe of the agent finds a NetKey card of version 3: the serial number, application
type and version queries have no error and answer `nks` and 3. -/
def Agent.isNksV3 (w : Agent) : Prop :=
  w.serialNo.err = 0 ∧
  w.appType.err = 0 ∧ parse_app_type (w.appType.attrText "APPTYPE".toList) = AppType.NksApplication ∧
  w.nksVersion.err = 0 ∧ parse_app_version (w.nksVersion.attrText "NKS-VERSION".toList) = 3

/-- The PIN states parsed from a CHV-STATUS response. -/
def pinStatesOf (response : Str) : List PinState :=
  (boost_split is_space_or_tab response).map parse_pin_state

/-- The probe of slot 0 on a present session, written out reply by reply. -/
def probeSlot0 (klc : Option KeyListContext) (fileName : Str) (w : Agent) : Probed :=
  let ci0 : CardInfo :=
    { fileName := fileName, status := Status.CardUsable, serialNumber := w.serialNo.dataText,
      appType := AppType.UnknownApplication, appVersion := -1, pinStates := [] }
  if w.serialNo.err = GPG_ERR_CARD_NOT_PRESENT ∨ w.serialNo.err = GPG_ERR_CARD_REMOVED then
    ⟨{ ci0 with status := Status.NoCard }, w.serialNo.sessionAfter, w.after [cmdSerialNo]⟩
  else if w.serialNo.err ≠ 0 then
    ⟨{ ci0 with status := Status.CardError }, w.serialNo.sessionAfter, w.after [cmdSerialNo]⟩
  else
  let ci1 := { ci0 with appType := parse_app_type (w.appType.attrText "APPTYPE".toList) }
  if w.appType.err ≠ 0 ∨ ci1.appType ≠ AppType.NksApplication then
    ⟨ci1, w.appType.sessionAfter, w.after [cmdSerialNo, cmdAppType]⟩
  else
  let ci2 :=
    { ci1 with appVersion := parse_app_version (w.nksVersion.attrText "NKS-VERSION".toList) }
  if w.nksVersion.err ≠ 0 ∨ ci2.appVersion ≠ 3 then
    ⟨ci2, w.nksVersion.sessionAfter, w.after [cmdSerialNo, cmdAppType, cmdNksVersion]⟩
  else
  if w.chvStatus.err ≠ 0 then
    ⟨ci2, w.chvStatus.sessionAfter,
      w.after [cmdSerialNo, cmdAppType, cmdNksVersion, cmdChvStatus]⟩
  else
  let ci3 := { ci2 with pinStates := pinStatesOf (w.chvStatus.attrText "CHV-STATUS".toList) }
  if PinState.NullPin ∈ ci3.pinStates then
    ⟨{ ci3 with status := Status.CardHasNullPin }, w.chvStatus.sessionAfter,
      w.after [cmdSerialNo, cmdAppType, cmdNksVersion, cmdChvStatus]⟩
  else
  let learnable : Bool :=
    match w.learn.taken, klc with
    | some result, some k =>
      (result.statusLine "KEYPAIRINFO".toList).any
        (fun str => !parse_keypairinfo_and_lookup_key (some k) str)
    | _, _ => false
  ⟨{ ci3 with status := if learnable then Status.CardCanLearnKeys else Status.CardUsable },
    w.learn.sessionAfter,
    w.after [cmdSerialNo, cmdAppType, cmdNksVersion, cmdChvStatus, cmdLearn]⟩

/-! ## Example agents -/

/-- An agent that answers each command of a probe with a fixed reply and has seen no
command yet. -/
def scriptedAgent (serialNo appType nksVersion chvStatus learn : Reply) : Agent :=
  { reply := fun _ cmd =>
      if cmd = cmdSerialNo then serialNo
      else if cmd = cmdAppType then appType
      else if cmd = cmdNksVersion then nksVersion
      else if cmd = cmdChvStatus then chvStatus
      else learn,
    sent := [] }

/-- A reply without error that carries one status line. -/
def statusReply (tag args : String) : Reply :=
  { err := 0, transaction := some { data := [], statusLines := [(tag.toList, args.toList)] } }

/-- A reply without error that carries data bytes. -/
def dataReply (data : String) : Reply :=
  { err := 0, transaction := some { data := data.toList, statusLines := [] } }

/-- A reply that is only an error code. -/
def errorReply (code : Nat) : Reply := { err := code, transaction := none }

/-- An agent with a NetKey v3 card whose PIN status line is `chv` and whose key-learn
query reports the key pairs `infos`. -/
def nksV3Agent (chv : String) (infos : List String) : Agent :=
  scriptedAgent (dataReply "D27600000000000000000000") (statusReply "APPTYPE" "nks")
    (statusReply "NKS-VERSION" "3") (statusReply "CHV-STATUS" chv)
    { err := 0,
      transaction := some { data := [],
                            statusLines := infos.map fun i => ("KEYPAIRINFO".toList, i.toList) } }

/-- An agent whose serial number query fails with the error `code`. -/
def failingAgent (code : Nat) : Agent :=
  scriptedAgent (errorReply code) (errorReply code) (errorReply code) (errorReply code)
    (errorReply code)

/-- A key listing context that knows no key at all. -/
def emptyKeyring : KeyListContext :=
  { startKeyListing := fun _ => false, nextKey := fun _ => (false, true) }

/-- A key listing context that knows every key. -/
def fullKeyring : KeyListContext :=
  { startKeyListing := fun _ => false, nextKey := fun _ => (false, false) }

/-- A fresh session. -/
def freshContext : Context := { lastAssuanTransaction := none }

/-- An agent with a card whose application type line is `app` and whose version line is
`version`. -/
def cardAgent (app version : String) : Agent :=
  scriptedAgent (dataReply "D27600000000000000000000") (statusReply "APPTYPE" app)
    (statusReply "NKS-VERSION" version) (statusReply "CHV-STATUS" "-4 3 3") (errorReply 1)

/-! ## Key lookups, as the specification words them -/

/-- The pattern `parse_keypairinfo_and_lookup_key` hands to `startKeyListing`. -/
def lookupPattern (kpi : Str) : Str := c_str (parse_keypairinfo kpi)

/-- The key-pair identifier fails to resolve to a known key: the lookup reports an error
(when it starts or when it fetches the key) or the key it returns is null. -/
def failsToResolve (k : KeyListContext) (kpi : Str) : Prop :=
  k.startKeyListing (lookupPattern kpi) = true ∨
  (k.nextKey (lookupPattern kpi)).1 = true ∨
  (k.nextKey (lookupPattern kpi)).2 = true

instance (k : KeyListContext) (kpi : Str) : Decidable (failsToResolve k kpi) := by
  unfold failsToResolve; infer_instance

/-! ## Key-pair identifiers -/

/-- A hexadecimal digit `[0-9a-fA-F]`. -/
def isHexDigit (c : Char) : Bool :=
  (48 ≤ c.toNat && c.toNat ≤ 57) || (97 ≤ c.toNat && c.toNat ≤ 102) ||
    (65 ≤ c.toNat && c.toNat ≤ 70)

/-- The longest prefix of a text that consists of hexadecimal digits only. -/
def leadingHexDigits (s : Str) : Str := s.takeWhile isHexDigit

/-! ## The worker: requests, the queue, the tables -/

/-- The event counter query. -/
def cmdEventCounter : Str := "GETEVENTCOUNTER".toList

/-- The agent's reply to the event counter query as the next command. -/
def Agent.eventCounter (w : Agent) : Reply := w.answer [] cmdEventCounter

/-- The counter `get_event_counter` reads from reply `r`. -/
def Reply.counter (r : Reply) : Nat :=
  match r.taken with
  | some t => parse_event_counter (t.firstStatusLine "EVENTCOUNTER".toList)
  | none => UINT_MAX

/-- The request is taken for the shutdown sentinel by `run`. -/
def Transaction.isQuit (t : Transaction) : Bool :=
  t.slot.isNone && t.command == "__quit__".toList

/-- The request is taken for a forced update by `run`. -/
def Transaction.isUpdate (t : Transaction) : Bool :=
  t.slot.isNone && t.command == "__update__".toList

/-- The request is taken for a periodic check by `run`. -/
def Transaction.isCheck (t : Transaction) : Bool :=
  t.slot.isNone && t.command == "__check__".toList

/-- What happens at the queue, seen from outside: a call by another thread, or the worker
taking a request. -/
inductive QueueEvent where
  | call (op : QueueOp)
  | take
  deriving DecidableEq, Repr

/-- Plays a sequence of queue events without time-outs: the requests the worker took, in
the order it took them, and the object at the end. A take that finds the queue empty leaves
the worker asleep and yields nothing. -/
def playQueue : List QueueEvent → ReaderStatusThread → List Transaction × ReaderStatusThread
  | [], th => ([], th)
  | QueueEvent.call op :: es, th => playQueue es (op.apply th)
  | QueueEvent.take :: es, th =>
    match take_transaction [] [] th with
    | some (item, th1) => ((playQueue es th1).1.cons item, (playQueue es th1).2)
    | none => playQueue es th

/-- The requests a sequence of queue events adds by `addTransaction`, in order. -/
def addedRequests : List QueueEvent → List Transaction
  | [] => []
  | QueueEvent.call (QueueOp.addTransaction t) :: es => t :: addedRequests es
  | _ :: es => addedRequests es

/-- No event of the sequence is a call of `stop`. -/
def withoutStop (es : List QueueEvent) : Bool :=
  es.all fun ev => ev != QueueEvent.call QueueOp.stop

/-- A table filled up with `CardInfo()` entries to the length `n`. -/
def pad (v : List CardInfo) (n : Nat) : List CardInfo :=
  v ++ List.replicate (n - v.length) CardInfo.default

/-- The `cardStatusChanged` signals the specification asks for, counting the indices from
`idx` on: one for each index at which the status of the two tables differs, in increasing
order of the index, with the new status. -/
def statusChangesFrom (idx : Nat) (new old : List CardInfo) : List Signal :=
  ((new.zip old).enumFrom idx).filterMap fun p =>
    if p.2.1.status ≠ p.2.2.status then some (Signal.cardStatusChanged p.1 p.2.1.status)
    else none

/-- The `cardStatusChanged` signals the specification asks for: one for each index at which
the status of the two tables differs, in increasing order of the index, with the new
status. -/
def statusChanges (new old : List CardInfo) : List Signal := statusChangesFrom 0 new old

/-- The slot index a `cardStatusChanged` signal carries. -/
def Signal.index? : Signal → Option Nat
  | Signal.cardStatusChanged idx _ => some idx
  | _ => none

/-- Some snapshot of the table has the status `st`. -/
def anyStatus (st : Status) (v : List CardInfo) : Bool := v.any fun ci => ci.status == st

/-- The snapshot `get_card_status` makes of slot 0 on any session handle. -/
def probed (klc : Option KeyListContext) (fileName : Str) (gpgAgent : Option Context)
    (w : Agent) : Probed :=
  match gpgAgent with
  | some _ => probeSlot0 klc fileName w
  | none => ⟨CardInfo.init fileName Status.CardUsable, none, w⟩

/-- The name `update_cardinfo` gives to the status file of slot 0. -/
def reader0 (th : ReaderStatusThread) : Str :=
  absoluteFilePath th.m_gnupgHomePath "reader_0.status".toList

/-- An agent that answers the event counter query with the status line `counter` and every
other command as `w` does. -/
def withEventCounter (counter : String) (w : Agent) : Agent :=
  { w with reply := fun sent cmd =>
      if cmd = cmdEventCounter then statusReply "EVENTCOUNTER" counter else w.reply sent cmd }

/-- A pass-through request with a receiver and a slot. -/
def passThrough (command : String) : Transaction :=
  { command := command.toList, receiver := some 1, slot := some "slotDone".toList, error := 0 }

/-- Surroundings in which a session can be created, nobody else touches the queue, and the
keyring knows no key. -/
def quietSurroundings : Surroundings :=
  { createForEngine := (0, some freshContext), arrived := [], waits := [],
    createForProtocol := some emptyKeyring }

/-! ## The worker: what the pieces of one pass leave behind -/

/-- The state a reprobe leaves behind, written out: the snapshot of slot 0 filled up to the
length of the longer table is published, the status changes and the two aggregate signals
are emitted, and the session is dropped when a snapshot has the status `CardError`. -/
def reprobed (klc : Option KeyListContext) (oldCardInfos : List CardInfo) (s : RunState) :
    RunState :=
  let p := probed klc (reader0 s.thread) s.gpgAgent s.agent
  let n := max 1 oldCardInfos.length
  { thread := { s.thread with m_cardInfos := pad [p.ci] n },
    gpgAgent := if anyStatus Status.CardError (pad [p.ci] n) then none else p.gpg_agent,
    eventCounter := s.eventCounter,
    agent := p.agent,
    emitted := s.emitted ++ statusChanges (pad [p.ci] n) (pad oldCardInfos n) ++
      [Signal.anyCardHasNullPinChanged (anyStatus Status.CardHasNullPin (pad [p.ci] n)),
       Signal.anyCardCanLearnKeysChanged (anyStatus Status.CardCanLearnKeys (pad [p.ci] n))] }

/-- The state the end of a pass leaves behind, written out: with a session the event counter
is asked for once more, without one it is set to `-1`. -/
def refreshed (s : RunState) : RunState :=
  match s.gpgAgent with
  | some _ =>
    { s with eventCounter := s.agent.eventCounter.counter,
             gpgAgent := s.agent.eventCounter.sessionAfter,
             agent := s.agent.after [cmdEventCounter] }
  | none => { s with eventCounter := UINT_MAX }

/-- The state after the counter query of a periodic check on a present session. -/
def counterChecked (s : RunState) : RunState :=
  { s with gpgAgent := s.agent.eventCounter.sessionAfter,
           agent := s.agent.after [cmdEventCounter],
           eventCounter := s.agent.eventCounter.counter }

/-- The probe of the agent `w2` gets the answers the probe of `w1` gets: the replies to
the five queries of a probe are the same. -/
def sameAnswers (w1 w2 : Agent) : Prop :=
  w2.serialNo = w1.serialNo ∧ w2.appType = w1.appType ∧ w2.nksVersion = w1.nksVersion ∧
  w2.chvStatus = w1.chvStatus ∧ w2.learn = w1.learn

/-- Some snapshot of the table has the status `CardError`. -/
def hasCardError (v : List CardInfo) : Prop := ∃ ci ∈ v, ci.status = Status.CardError

/-! ## The worker without a session -/

/-- An error code other than `GPG_ERR_NOT_SUPPORTED` with which the creation of the session
can fail (`gpgme_set_protocol` on an engine that is not usable). -/
def GPG_ERR_INV_ENGINE : Nat := 150

/-- Surroundings in which the creation of the session fails with the error `code` and gives
a null context, and the worker's wait times out once. -/
def noSession (code : Nat) : Surroundings :=
  { createForEngine := (code, none), arrived := [], waits := [{ arrived := [], timedOut := true }],
    createForProtocol := some emptyKeyring }


/-! ## The worker: pass-through commands -/

/-- The state a pass leaves behind that sends the request `item` to the agent as a
pass-through command: the command goes out as the C string `constData()`, the error code of
the reply is stored in the request, the request is appended to the finished list,
`oneTransactionFinished` is emitted, and the pass ends with the refresh of the event
counter. `th` is the object once the request is taken, `s` the state before. -/
def passedThrough (s : RunState) (item : Transaction) (th : ReaderStatusThread) : RunState :=
  refreshed
    { thread := { th with
        m_finishedTransactions := th.m_finishedTransactions ++
          [{ item with error := (s.agent.answer [] (c_str item.command)).err }] },
      gpgAgent := (s.agent.answer [] (c_str item.command)).sessionAfter,
      eventCounter := s.eventCounter,
      agent := s.agent.after [c_str item.command],
      emitted := s.emitted ++ [Signal.oneTransactionFinished] }

/-- A pass-through request whose command bytes hold a NUL byte. -/
def nulCommand : Transaction :=
  { command := "GETINFO version".toList ++ NUL :: "pid".toList, receiver := some 1,
    slot := some "slotDone".toList, error := 0 }

/-- A worker with a session, an empty table and the queue `queue`, talking to an agent that
answers every command with the error code 1. -/
def workerWith (queue : List Transaction) : RunState :=
  { thread := { ReaderStatusThread.init [] with m_transactions := queue },
    gpgAgent := some freshContext, eventCounter := UINT_MAX, agent := failingAgent 1,
    emitted := [] }


/-! ## The status files -/

/-- The number a text of decimal digits denotes. -/
def valueOfDigits (ds : Str) : Nat := ds.foldl (fun acc c => 10 * acc + (c.toNat - 48)) 0

/-- The file name `reader_<digits>.status`. -/
def readerStatusName (ds : Str) : Str := "reader_".toList ++ ds ++ ".status".toList

/-- The file name is `reader_`, one or more decimal digits whose value fits a 32-bit
unsigned integer, and `.status`. -/
def isReaderStatusName (name : Str) : Prop :=
  ∃ ds, ds ≠ [] ∧ ds.all isdigit = true ∧ name = readerStatusName ds ∧
    valueOfDigits ds ≤ UINT_MAX


/-- The entry of a content vector at position `i`; beyond its end the vector reads as
empty. -/
def entryAt (v : List Str) (i : Nat) : Str := (v[i]?).getD []

/-- The content read for slot `i` from the files `names`: what `read_file` gives for the
file whose name `parseFileName` accepts with the number `i`, and nothing when there is no
such file. -/
def contentAmong (nd : Char → Bool) (files : Str → Option Str) (gnupgHomePath : Str)
    (names : List Str) (i : Nat) : Str :=
  match names.find? fun f => (parseFileName nd f).2 && (parseFileName nd f).1 == i with
  | some f => read_file files (absoluteFilePath gnupgHomePath f)
  | none => []

/-- The content read for slot `i` from the directory. -/
def contentOfSlot (nd : Char → Bool) (home : GnupgHome) (gnupgHomePath : Str) (i : Nat) :
    Str :=
  contentAmong nd home.files gnupgHomePath home.entryList i

/-- One more than the largest slot number of an accepted file name, 0 when no name is
accepted. -/
def slotCount (nd : Char → Bool) (names : List Str) : Nat :=
  names.foldr
    (fun f n => if (parseFileName nd f).2 then max ((parseFileName nd f).1 + 1) n else n) 0

/-- A content vector without its trailing empty entries. -/
def withoutTrailingEmpty (v : List Str) : List Str := v.rdropWhile fun c => c.isEmpty

/-- The canonical content vector of the specification: the file contents placed at their
slot index, trailing empty entries removed. -/
def canonicalContents (nd : Char → Bool) (home : GnupgHome) (gnupgHomePath : Str) :
    List Str :=
  withoutTrailingEmpty
    ((List.range (slotCount nd home.entryList)).map (contentOfSlot nd home gnupgHomePath))

/-- No two accepted file names yield the same slot number. -/
def distinctSlots (nd : Char → Bool) (names : List Str) : Prop :=
  names.Pairwise fun a b =>
    (parseFileName nd a).2 = true → (parseFileName nd b).2 = true →
      (parseFileName nd a).1 ≠ (parseFileName nd b).1

/-- A gnupg home directory that is not there. -/
def missingHome : GnupgHome := { isThere := false, entryList := [], files := fun _ => none }

/-- A gnupg home directory with the status files `names`, each holding the bytes
`USABLE` and a line end. -/
def homeWith (names : List String) : GnupgHome :=
  { isThere := true, entryList := names.map String.toList,
    files := fun _ => some "USABLE\n".toList }

/-- A thread object whose stored content vector is `stored`. -/
def watching (stored : List String) : ReaderStatusThread :=
  { ReaderStatusThread.init "/home/user/.gnupg".toList with
    readerStatusFileContents := stored.map String.toList }


/-! ## The queue under waits and time-outs -/

/-- The requests a list of calls adds by `addTransaction`, in order. -/
def addedBy : List QueueOp → List Transaction
  | [] => []
  | QueueOp.addTransaction t :: ops => t :: addedBy ops
  | QueueOp.stop :: ops => addedBy ops

/-- The calls other threads made on the queue during the waits the worker went through,
starting with the object `th`: the worker waits as long as the queue is empty and leaves
the waiting after a time-out. -/
def callsDuringWaits : List Wait → ReaderStatusThread → List QueueOp
  | [], _ => []
  | wt :: wts, th =>
    if th.m_transactions.isEmpty then
      if wt.timedOut then wt.arrived
      else wt.arrived ++ callsDuringWaits wts (wt.arrived.foldl QueueOp.apply th)
    else []

/-- The waiting of the worker, starting with the object `th`, ended with a time-out, after
which the worker puts in a periodic check of its own. -/
def endedByTimeOut : List Wait → ReaderStatusThread → Bool
  | [], _ => false
  | wt :: wts, th =>
    if th.m_transactions.isEmpty then
      if wt.timedOut then true
      else endedByTimeOut wts (wt.arrived.foldl QueueOp.apply th)
    else false

/-- The calls other threads made on the queue up to the moment the worker takes a request
in a pass with the arrivals `arrived` and the waits `waits`. -/
def callsBeforeTake (arrived : List QueueOp) (waits : List Wait) (th : ReaderStatusThread) :
    List QueueOp :=
  arrived ++ callsDuringWaits waits (arrived.foldl QueueOp.apply th)

/-- The request the worker takes in the pass is a periodic check of its own. -/
def takesOwnCheck (arrived : List QueueOp) (waits : List Wait) (th : ReaderStatusThread) :
    Bool :=
  endedByTimeOut waits (arrived.foldl QueueOp.apply th)

/-- What a sequence of passes does at the queue, each pass given by the calls that arrived
before it and the outcomes of its waits: the requests of other threads the worker took, in
the order it took them (its own periodic checks left out), the object at the end, and the
calls other threads made. The play ends when the worker sleeps on. -/
def playPasses : List (List QueueOp × List Wait) → ReaderStatusThread →
    List Transaction × ReaderStatusThread × List QueueOp
  | [], th => ([], th, [])
  | (arrived, waits) :: ps, th =>
    match take_transaction arrived waits th with
    | none =>
      ([], (callsBeforeTake arrived waits th).foldl QueueOp.apply th,
        callsBeforeTake arrived waits th)
    | some (item, th1) =>
      ((if takesOwnCheck arrived waits th then (playPasses ps th1).1
        else item :: (playPasses ps th1).1),
       (playPasses ps th1).2.1,
       callsBeforeTake arrived waits th ++ (playPasses ps th1).2.2)


/-! # Part 3: theorems -/

/-! ## Facts about the text functions -/

theorem c_str_eq_self {s : Str} (h : NUL ∉ s) : c_str s = s := by
  unfold c_str
  rw [List.takeWhile_eq_self_iff]
  intro c hc
  have : c ≠ NUL := fun e => h (e ▸ hc)
  simpa using this

theorem toNat_ofNat_of_lt {n : Nat} (h : n < 0xd800) : (Char.ofNat n).toNat = n := by
  have hv : n.isValidChar := Or.inl h
  unfold Char.ofNat
  rw [dif_pos hv]
  simp [Char.ofNatAux, Char.toNat, UInt32.toNat]

theorem isdigit_iff (c : Char) : isdigit c = true ↔ 48 ≤ c.toNat ∧ c.toNat ≤ 57 := by
  simp [isdigit]

theorem digitChar_toNat {d : Nat} (h : d < 10) : (Char.ofNat (48 + d)).toNat = 48 + d :=
  toNat_ofNat_of_lt (by omega)

theorem isdigit_digitChar {d : Nat} (h : d < 10) : isdigit (Char.ofNat (48 + d)) = true := by
  rw [isdigit_iff, digitChar_toNat h]; omega

theorem digitValue_digitChar {d : Nat} (h : d < 10) : digitValue (Char.ofNat (48 + d)) = d := by
  rw [digitValue, digitChar_toNat h]; omega

theorem decimalDigits_all_digits (n : Nat) : ∀ c ∈ decimalDigits n, isdigit c = true := by
  induction n using Nat.strong_induction_on with
  | _ n ih =>
    intro c hc
    rw [decimalDigits] at hc
    split at hc
    · rename_i h
      simp at hc
      rw [hc]; exact isdigit_digitChar h
    · rename_i h
      rw [List.mem_append] at hc
      rcases hc with hc | hc
      · exact ih (n / 10) (by omega) c hc
      · simp at hc
        rw [hc]; exact isdigit_digitChar (Nat.mod_lt _ (by decide))

theorem decimalDigits_ne_nil (n : Nat) : decimalDigits n ≠ [] := by
  rw [decimalDigits]
  split <;> simp

theorem readDigits_decimalDigits (n : Nat) : ∀ (a : Nat) (rest : Str),
    readDigits a (decimalDigits n ++ rest) =
      readDigits (a * 10 ^ (decimalDigits n).length + n) rest := by
  induction n using Nat.strong_induction_on with
  | _ n ih =>
    intro a rest
    rw [decimalDigits]
    split
    · rename_i h
      simp [readDigits, isdigit_digitChar h, digitValue_digitChar h]
    · rename_i h
      rw [List.append_assoc, ih (n / 10) (by omega)]
      simp only [List.singleton_append, readDigits, isdigit_digitChar (Nat.mod_lt n (by decide : 10 > 0)),
        digitValue_digitChar (Nat.mod_lt n (by decide : 10 > 0)), if_true, List.length_append,
        List.length_singleton]
      congr 1
      rw [pow_succ]
      have := Nat.div_add_mod n 10
      nlinarith [Nat.div_add_mod n 10]

theorem readDigits_zero_decimalDigits (n : Nat) : readDigits 0 (decimalDigits n) = n := by
  have h := readDigits_decimalDigits n 0 []
  simpa [readDigits] using h

theorem isdigit_ne_NUL {c : Char} (h : isdigit c = true) : c ≠ NUL := by
  rw [isdigit_iff] at h
  intro e
  rw [e] at h
  simp [NUL] at h

theorem isdigit_not_isspace {c : Char} (h : isdigit c = true) : isspace c = false := by
  rw [isdigit_iff] at h
  simp [isspace]
  omega

theorem isdigit_not_sign {c : Char} (h : isdigit c = true) : c ≠ '-' ∧ c ≠ '+' := by
  rw [isdigit_iff] at h
  constructor <;> intro e <;> rw [e] at h <;> simp at h

theorem toInt32_of_range {v : Int} (hlo : -2 ^ 31 ≤ v) (hhi : v < 2 ^ 31) : toInt32 v = v := by
  unfold toInt32
  rw [Int.emod_eq_of_lt (by omega) (by omega)]
  omega

theorem readSign_digit {c : Char} (cs : Str) (h : isdigit c = true) :
    readSign (c :: cs) = (false, c :: cs) := by
  simp only [readSign, if_neg (isdigit_not_sign h).1, if_neg (isdigit_not_sign h).2]

theorem readSign_minus (cs : Str) : readSign ('-' :: cs) = (true, cs) := by
  simp [readSign]

theorem strtol_digits (ds : Str) (hne : ds ≠ []) (hd : ∀ c ∈ ds, isdigit c = true)
    (hhi : ((readDigits 0 ds : Nat) : Int) < 2 ^ 31) :
    strtol ds = (readDigits 0 ds : Nat) := by
  obtain ⟨c, cs, rfl⟩ := List.exists_cons_of_ne_nil hne
  have hc := hd c (by simp)
  unfold strtol
  rw [List.dropWhile_cons, isdigit_not_isspace hc]
  simp only [Bool.false_eq_true, if_false, readSign_digit cs hc, LONG_MIN, LONG_MAX]
  split_ifs <;> omega

theorem strtol_minus_digits (ds : Str)
    (hhi : ((readDigits 0 ds : Nat) : Int) ≤ 2 ^ 31) :
    strtol ('-' :: ds) = - ((readDigits 0 ds : Nat) : Int) := by
  unfold strtol
  have hsp : isspace '-' = false := by decide
  rw [List.dropWhile_cons, hsp]
  simp only [Bool.false_eq_true, if_false, readSign_minus, if_true, LONG_MIN, LONG_MAX]
  split_ifs <;> omega

/-- On the decimal text of a value that fits an `int`, `atoi` reads that value. -/
theorem atoi_decimalText (n : Int) (hlo : -2 ^ 31 ≤ n) (hhi : n < 2 ^ 31) :
    atoi (c_str (decimalText n)) = n := by
  have hnul : NUL ∉ decimalText n := by
    unfold decimalText
    split
    · intro h
      rcases List.mem_cons.mp h with h | h
      · exact absurd h (by decide)
      · exact isdigit_ne_NUL (decimalDigits_all_digits _ _ h) rfl
    · intro h
      exact isdigit_ne_NUL (decimalDigits_all_digits _ _ h) rfl
  rw [c_str_eq_self hnul]
  unfold atoi decimalText
  split
  · rename_i hneg
    rw [strtol_minus_digits _ (by rw [readDigits_zero_decimalDigits]; omega),
      readDigits_zero_decimalDigits]
    have : ((n.natAbs : Nat) : Int) = -n := by omega
    rw [this, neg_neg]
    exact toInt32_of_range hlo hhi
  · rename_i hneg
    rw [strtol_digits _ (decimalDigits_ne_nil _) (decimalDigits_all_digits _)
      (by rw [readDigits_zero_decimalDigits]; omega), readDigits_zero_decimalDigits]
    have : ((n.toNat : Nat) : Int) = n := by omega
    rw [this]
    exact toInt32_of_range hlo hhi

theorem parse_pin_state_mapping (s : Str) : PinStateMapping (atoi (c_str s)) (parse_pin_state s) := by
  unfold PinStateMapping parse_pin_state
  simp only
  split_ifs <;> refine ⟨?_, ?_, ?_, ?_, ?_, ?_⟩ <;> intros <;> first | rfl | omega

theorem decimalDigits_of_ge (n : Nat) (h : ¬ n < 10) :
    decimalDigits n = decimalDigits (n / 10) ++ [Char.ofNat (48 + n % 10)] := by
  rw [decimalDigits]
  simp only [h, dite_false]

theorem decimalDigits_of_lt (n : Nat) (h : n < 10) :
    decimalDigits n = [Char.ofNat (48 + n)] := by
  rw [decimalDigits]
  simp only [h, dite_true]

theorem decimalText_4294967292 : decimalText 4294967292 = "4294967292".toList := by
  unfold decimalText
  rw [if_neg (by decide)]
  show decimalDigits 4294967292 = _
  rw [decimalDigits_of_ge _ (by decide), decimalDigits_of_ge _ (by decide),
    decimalDigits_of_ge _ (by decide), decimalDigits_of_ge _ (by decide),
    decimalDigits_of_ge _ (by decide), decimalDigits_of_ge _ (by decide),
    decimalDigits_of_ge _ (by decide), decimalDigits_of_ge _ (by decide),
    decimalDigits_of_ge _ (by decide), decimalDigits_of_lt _ (by decide)]
  decide

/-- C6, counterexample. The field `4294967292` is the decimal text of the integer
4294967292, which is not negative, and `parse_pin_state` maps it to `NullPin`, not to
`PinOk`: the value does not fit an `int`, and `atoi` reads -4 from the field. -/
theorem parse_pin_state_wraps_counterexample :
    decimalText 4294967292 = "4294967292".toList ∧
    (0 : Int) ≤ 4294967292 ∧
    atoi (c_str (decimalText 4294967292)) = -4 ∧
    parse_pin_state (decimalText 4294967292) = PinState.NullPin ∧
    ¬ PinStateMapping 4294967292 (parse_pin_state (decimalText 4294967292)) := by
  rw [decimalText_4294967292]
  refine ⟨rfl, by decide, by decide, by decide, ?_⟩
  intro h
  have h1 := h.2.2.2.2.2 (by decide)
  have h2 : parse_pin_state "4294967292".toList = PinState.NullPin := by decide
  rw [h2] at h1
  exact absurd h1 (by decide)

/-- C6, amended. `parse_pin_state` maps every field whose integer value `n` fits an `int`
(`-2^31 ≤ n < 2^31`) by that value: -4 gives `NullPin`, -3 gives `PinBlocked`, -2 gives
`NoPin`, -1 gives `UnknownPinState`, every other negative value gives `UnknownPinState` and
every value from 0 on gives `PinOk`. In general the value by which a field is mapped is the
`int` that `atoi` reads from it. -/
theorem parse_pin_state_by_value :
    (∀ (s : Str) (n : Int), atoi (c_str s) = n → PinStateMapping n (parse_pin_state s)) ∧
    (∀ n : Int, -2 ^ 31 ≤ n → n < 2 ^ 31 →
      PinStateMapping n (parse_pin_state (decimalText n))) := by
  constructor
  · intro s n h
    rw [← h]
    exact parse_pin_state_mapping s
  · intro n hlo hhi
    have h := parse_pin_state_mapping (decimalText n)
    rwa [atoi_decimalText n hlo hhi] at h

/-- Witness of the amended C6. The text `-4` has value -4 and is mapped to `NullPin`; the
decimal text of -3 is mapped to `PinBlocked`. -/
theorem parse_pin_state_by_value_witness :
    atoi (c_str "-4".toList) = -4 ∧ parse_pin_state "-4".toList = PinState.NullPin ∧
    parse_pin_state (decimalText (-3)) = PinState.PinBlocked :=
  ⟨by decide, (parse_pin_state_by_value.1 "-4".toList (-4) (by decide)).1 rfl,
    (parse_pin_state_by_value.2 (-3) (by decide) (by decide)).2.1 rfl⟩

theorem readDigits_no_digit (s : Str) (h : (match s with | c :: _ => isdigit c | [] => false) = false) :
    readDigits 0 s = 0 := by
  cases s with
  | nil => rfl
  | cons c cs =>
    simp only at h
    simp [readDigits, h]

theorem atoi_no_integer (s : Str) (h : startsWithInteger s = false) : atoi s = 0 := by
  unfold startsWithInteger at h
  unfold atoi strtol
  simp only [readDigits_no_digit _ h, LONG_MIN, LONG_MAX]
  split_ifs <;> simp_all [toInt32]

/-- C7, counterexample. The texts `abc` and the empty text are not decimal integers, and
`parse_pin_state` does not answer `UnknownPinState` on them. -/
theorem parse_pin_state_garbled_counterexample :
    isDecimalInteger "abc".toList = false ∧
    parse_pin_state "abc".toList ≠ PinState.UnknownPinState ∧
    isDecimalInteger [] = false ∧
    parse_pin_state [] ≠ PinState.UnknownPinState := by
  decide

/-- C7, amended. For every field text that does not start with a number (after leading
white space and an optional sign there is no digit, as in `abc` or the empty text), `atoi`
reads 0 and `parse_pin_state` returns `PinOk`. -/
theorem parse_pin_state_no_integer (s : Str) (h : startsWithInteger (c_str s) = false) :
    atoi (c_str s) = 0 ∧ parse_pin_state s = PinState.PinOk := by
  have h0 := atoi_no_integer (c_str s) h
  refine ⟨h0, ?_⟩
  unfold parse_pin_state
  simp [h0]

/-- Witness of the amended C7 at the text `abc`. -/
theorem parse_pin_state_no_integer_witness :
    startsWithInteger (c_str "abc".toList) = false ∧
    atoi (c_str "abc".toList) = 0 ∧ parse_pin_state "abc".toList = PinState.PinOk :=
  ⟨by decide, parse_pin_state_no_integer "abc".toList (by decide)⟩

/-! ## The transport on a present session -/

theorem gpgagent_transact_some (ctx : Context) (command : Str) (w : Agent) :
    gpgagent_transact (some ctx) command w =
      some { value := (w.answer [] command).taken, err := (w.answer [] command).err,
             gpgAgent := (w.answer [] command).sessionAfter, agent := w.after [command] } := by
  unfold gpgagent_transact Context.assuanTransact Context.takeLastAssuanTransaction
    Reply.sessionAfter Reply.taken Agent.answer Agent.after
  simp only [List.append_nil]
  split_ifs <;> rfl

theorem gpgagent_data_some (ctx : Context) (what : Str) (w : Agent) :
    gpgagent_data (some ctx) what w =
      some { value := (w.answer [] what).dataText, err := (w.answer [] what).err,
             gpgAgent := (w.answer [] what).sessionAfter, agent := w.after [what] } := by
  unfold gpgagent_data Reply.dataText
  rw [gpgagent_transact_some]
  simp only [Option.map_some']
  split <;> rfl

theorem scd_getattr_status_some (ctx : Context) (what : Str) (w : Agent) :
    scd_getattr_status (some ctx) what w =
      some { value := (w.answer [] (c_str ("SCD GETATTR ".toList ++ what))).attrText what,
             err := (w.answer [] (c_str ("SCD GETATTR ".toList ++ what))).err,
             gpgAgent := (w.answer [] (c_str ("SCD GETATTR ".toList ++ what))).sessionAfter,
             agent := w.after [c_str ("SCD GETATTR ".toList ++ what)] } := by
  unfold scd_getattr_status Reply.attrText
  simp only [gpgagent_transact_some, Option.map_some']
  split <;> rfl

theorem sessionAfter_of_ok {r : Reply} (h : r.err = 0) :
    r.sessionAfter = some { lastAssuanTransaction := none } := by
  simp [Reply.sessionAfter, h]

/-! ## The prober on slot 0, reply by reply -/

theorem c_str_cmdAppType : c_str ("SCD GETATTR ".toList ++ "APPTYPE".toList) = cmdAppType := by
  decide

theorem c_str_cmdNksVersion :
    c_str ("SCD GETATTR ".toList ++ "NKS-VERSION".toList) = cmdNksVersion := by
  decide

theorem c_str_cmdChvStatus :
    c_str ("SCD GETATTR ".toList ++ "CHV-STATUS".toList) = cmdChvStatus := by
  decide

theorem answer_after (w : Agent) (a b : List Str) (c : Str) :
    (w.after a).answer b c = w.answer (a ++ b) c := by
  simp [Agent.answer, Agent.after, List.append_assoc]

theorem after_after (w : Agent) (a b : List Str) : (w.after a).after b = w.after (a ++ b) := by
  simp [Agent.after, List.append_assoc]

theorem taken_of_err {r : Reply} (h : r.err ≠ 0) : r.taken = none := by
  simp [Reply.taken, h]

/-- On slot 0 with a present session `get_card_status` returns, and what it returns is
`probeSlot0`. -/
theorem get_card_status_slot0 (klc : Option KeyListContext) (fileName : Str) (ctx : Context)
    (w : Agent) :
    get_card_status klc fileName 0 (some ctx) w = some (probeSlot0 klc fileName w) := by
  unfold get_card_status probeSlot0 pinStatesOf
  simp only [gpgagent_data_some, Option.some_bind, CardInfo.init]
  have e1 : w.answer [] "SCD SERIALNO".toList = w.serialNo := rfl
  have a1 : w.after ["SCD SERIALNO".toList] = w.after [cmdSerialNo] := rfl
  simp only [e1, a1]
  have hc : ¬ ((0 : Nat) = GPG_ERR_CARD_NOT_PRESENT ∨ (0 : Nat) = GPG_ERR_CARD_REMOVED) := by
    decide
  simp only [ne_eq, not_true_eq_false, Option.isNone_some, Bool.false_eq_true, or_self, if_false]
  by_cases h1 : w.serialNo.err = 0
  swap
  · simp only [h1, not_false_eq_true, if_true]
    split_ifs <;> rfl
  simp only [sessionAfter_of_ok h1, scd_getattr_status_some, Option.some_bind, answer_after,
    after_after, c_str_cmdAppType, c_str_cmdNksVersion, c_str_cmdChvStatus, List.nil_append,
    List.singleton_append, List.append_nil, h1, hc, if_false, not_true_eq_false]
  have e2 : w.answer [cmdSerialNo] cmdAppType = w.appType := rfl
  simp only [e2]
  by_cases h2 : w.appType.err = 0
  swap
  · simp only [h2, not_false_eq_true, if_true, true_or]
  simp only [h2, not_true_eq_false, if_false, false_or]
  by_cases t2 : parse_app_type (w.appType.attrText "APPTYPE".toList) = AppType.NksApplication
  swap
  · simp only [t2, not_false_eq_true, if_true]
  simp only [t2, not_true_eq_false, if_false]
  simp only [sessionAfter_of_ok h2, scd_getattr_status_some, Option.some_bind, answer_after,
    after_after, c_str_cmdAppType, c_str_cmdNksVersion, c_str_cmdChvStatus, List.nil_append,
    List.singleton_append, List.append_nil, List.cons_append]
  have e3 : w.answer [cmdSerialNo, cmdAppType] cmdNksVersion = w.nksVersion := rfl
  simp only [e3]
  by_cases h3 : w.nksVersion.err = 0
  swap
  · simp only [h3, not_false_eq_true, if_true, true_or]
  simp only [h3, not_true_eq_false, if_false, false_or]
  by_cases t3 : parse_app_version (w.nksVersion.attrText "NKS-VERSION".toList) = 3
  swap
  · simp only [t3, not_false_eq_true, if_true]
  simp only [t3, not_true_eq_false, if_false]
  simp only [sessionAfter_of_ok h3, scd_getattr_status_some, Option.some_bind, answer_after,
    after_after, c_str_cmdAppType, c_str_cmdNksVersion, c_str_cmdChvStatus, List.nil_append,
    List.singleton_append, List.append_nil, List.cons_append]
  have e4 : w.answer [cmdSerialNo, cmdAppType, cmdNksVersion] cmdChvStatus = w.chvStatus := rfl
  simp only [e4]
  by_cases h4 : w.chvStatus.err = 0
  swap
  · simp only [h4, not_false_eq_true, if_true]
  have hcont : ∀ l : List PinState, (l.contains PinState.NullPin = true) = (PinState.NullPin ∈ l) := by
    intro l; simp
  simp only [h4, not_true_eq_false, if_false, List.nil_append, hcont]
  by_cases n4 : PinState.NullPin ∈
      List.map parse_pin_state (boost_split is_space_or_tab (w.chvStatus.attrText "CHV-STATUS".toList))
  · simp only [n4, if_true]
  simp only [n4, if_false, sessionAfter_of_ok h4, gpgagent_transact_some, Option.some_bind,
    answer_after, after_after, List.nil_append, List.singleton_append, List.append_nil,
    List.cons_append]
  have e5 : w.answer [cmdSerialNo, cmdAppType, cmdNksVersion, cmdChvStatus]
      "SCD LEARN --keypairinfo".toList = w.learn := rfl
  have a5 : w.after [cmdSerialNo, cmdAppType, cmdNksVersion, cmdChvStatus,
      "SCD LEARN --keypairinfo".toList] =
      w.after [cmdSerialNo, cmdAppType, cmdNksVersion, cmdChvStatus, cmdLearn] := rfl
  simp only [e5, a5]
  cases hT : w.learn.taken with
  | none => simp only [Bool.false_eq_true, if_false]
  | some result =>
    have h5 : w.learn.err = 0 := by
      by_contra h
      rw [taken_of_err h] at hT
      exact Option.noConfusion hT
    simp only [h5, not_true_eq_false, if_false]
    cases klc with
    | none =>
      simp only [Bool.false_eq_true, if_false]
      split_ifs <;> rfl
    | some k =>
      simp only
      by_cases hE : (result.statusLine "KEYPAIRINFO".toList).isEmpty = true
      · have hnil : result.statusLine "KEYPAIRINFO".toList = [] := by simpa using hE
        simp only [hnil, List.isEmpty_nil, if_true, List.any_nil, Bool.false_eq_true, if_false]
      · simp only [hE, Bool.false_eq_true, if_false]
        split_ifs <;> rfl

theorem get_card_status_elsewhere (klc : Option KeyListContext) (fileName : Str) (idx : Nat)
    (gpg_agent : Option Context) (w : Agent) (h : idx ≠ 0 ∨ gpg_agent = none) :
    get_card_status klc fileName idx gpg_agent w =
      some ⟨CardInfo.init fileName Status.CardUsable, gpg_agent, w⟩ := by
  unfold get_card_status
  have h' : idx ≠ 0 ∨ gpg_agent.isNone = true := by
    rcases h with h | h
    · exact Or.inl h
    · exact Or.inr (by simp [h])
  simp only [if_pos h']

/-! ## The prober: slots other than 0 -/

/-- C2. For every slot index other than 0 and every session state, `get_card_status`
returns the snapshot seeded with `CardUsable` (empty serial number, `UnknownApplication`,
version -1, no PIN states) and leaves the session handle and the agent as they were: no
command is sent. -/
theorem get_card_status_other_slot (klc : Option KeyListContext) (fileName : Str) (idx : Nat)
    (gpg_agent : Option Context) (w : Agent) (h : idx ≠ 0) :
    get_card_status klc fileName idx gpg_agent w =
      some { ci := { fileName := fileName, status := Status.CardUsable, serialNumber := [],
                     appType := AppType.UnknownApplication, appVersion := -1,
                     pinStates := [] },
             gpg_agent := gpg_agent, agent := w } :=
  get_card_status_elsewhere klc fileName idx gpg_agent w (Or.inl h)

/-- Witness of C2 at slot 1 with a present session. -/
theorem get_card_status_other_slot_witness :
    (1 : Nat) ≠ 0 ∧
    get_card_status (some emptyKeyring) "reader_1.status".toList 1 (some freshContext)
        (nksV3Agent "-4 3 3" ["0123ABCD"]) =
      some { ci := { fileName := "reader_1.status".toList, status := Status.CardUsable,
                     serialNumber := [], appType := AppType.UnknownApplication,
                     appVersion := -1, pinStates := [] },
             gpg_agent := some freshContext, agent := nksV3Agent "-4 3 3" ["0123ABCD"] } :=
  ⟨by decide, get_card_status_other_slot _ _ 1 _ _ (by decide)⟩

/-! ## The prober: the serial number query -/

theorem dataText_of_err {r : Reply} (h : r.err ≠ 0) : r.dataText = [] := by
  simp [Reply.dataText, taken_of_err h]

theorem sessionAfter_of_card_absent {r : Reply}
    (h : r.err = GPG_ERR_CARD_NOT_PRESENT ∨ r.err = GPG_ERR_CARD_REMOVED) :
    r.sessionAfter = some { lastAssuanTransaction := r.transaction } := by
  unfold Reply.sessionAfter
  rcases h with h | h <;> rw [h] <;>
    simp [GPG_ERR_CARD_NOT_PRESENT, GPG_ERR_CARD_REMOVED, GPG_ERR_ASS_GENERAL]

/-- C3. On slot 0 with a present session, when the serial number query fails with
`GPG_ERR_CARD_NOT_PRESENT` or `GPG_ERR_CARD_REMOVED`, `get_card_status` returns status
`NoCard` with every other field at its default, keeps the session, and has sent the agent
the serial number query and nothing after it. -/
theorem get_card_status_no_card (klc : Option KeyListContext) (fileName : Str) (ctx : Context)
    (w : Agent)
    (h : w.serialNo.err = GPG_ERR_CARD_NOT_PRESENT ∨ w.serialNo.err = GPG_ERR_CARD_REMOVED) :
    get_card_status klc fileName 0 (some ctx) w =
      some { ci := { fileName := fileName, status := Status.NoCard, serialNumber := [],
                     appType := AppType.UnknownApplication, appVersion := -1,
                     pinStates := [] },
             gpg_agent := some { lastAssuanTransaction := w.serialNo.transaction },
             agent := { reply := w.reply, sent := w.sent ++ ["SCD SERIALNO".toList] } } := by
  have hne : w.serialNo.err ≠ 0 := by
    rcases h with h | h <;> rw [h] <;> decide
  rw [get_card_status_slot0]
  unfold probeSlot0
  simp only [if_pos h, dataText_of_err hne, sessionAfter_of_card_absent h]
  rfl

/-- Witness of C3: the serial number query answers "card removed". -/
theorem get_card_status_no_card_witness :
    ((failingAgent GPG_ERR_CARD_REMOVED).serialNo.err = GPG_ERR_CARD_NOT_PRESENT ∨
      (failingAgent GPG_ERR_CARD_REMOVED).serialNo.err = GPG_ERR_CARD_REMOVED) ∧
    get_card_status none "reader_0.status".toList 0 (some freshContext)
        (failingAgent GPG_ERR_CARD_REMOVED) =
      some { ci := { fileName := "reader_0.status".toList, status := Status.NoCard,
                     serialNumber := [], appType := AppType.UnknownApplication,
                     appVersion := -1, pinStates := [] },
             gpg_agent := some { lastAssuanTransaction :=
                                   (failingAgent GPG_ERR_CARD_REMOVED).serialNo.transaction },
             agent := { reply := (failingAgent GPG_ERR_CARD_REMOVED).reply,
                        sent := (failingAgent GPG_ERR_CARD_REMOVED).sent ++
                                  ["SCD SERIALNO".toList] } } :=
  ⟨by decide, get_card_status_no_card _ _ _ _ (by decide)⟩

/-- C4. On slot 0 with a present session `get_card_status` returns, and its status is
`CardError` exactly when the serial number query fails with an error code that is neither
`GPG_ERR_CARD_NOT_PRESENT` nor `GPG_ERR_CARD_REMOVED`; whatever the later queries answer,
once the serial number query has no error the status is not `CardError`. -/
theorem get_card_status_card_error_iff (klc : Option KeyListContext) (fileName : Str)
    (ctx : Context) (w : Agent) :
    ∃ p, get_card_status klc fileName 0 (some ctx) w = some p ∧
      (p.ci.status = Status.CardError ↔
        (w.serialNo.err ≠ 0 ∧ w.serialNo.err ≠ GPG_ERR_CARD_NOT_PRESENT ∧
          w.serialNo.err ≠ GPG_ERR_CARD_REMOVED)) := by
  refine ⟨_, get_card_status_slot0 klc fileName ctx w, ?_⟩
  unfold probeSlot0
  simp only
  split_ifs with h1 h2 h3 h4 h5 h6
  · simp only [reduceCtorEq, false_iff]
    tauto
  · simp only [true_iff]
    tauto
  all_goals
    simp only [reduceCtorEq, false_iff]
    tauto

/-! ## The prober: PIN states and keys to learn -/

theorem lookup_key_eq_false_iff (k : KeyListContext) (kpi : Str) :
    parse_keypairinfo_and_lookup_key (some k) kpi = false ↔ failsToResolve k kpi := by
  unfold parse_keypairinfo_and_lookup_key failsToResolve lookupPattern
  simp only
  cases k.startKeyListing (c_str (parse_keypairinfo kpi)) <;>
    cases (k.nextKey (c_str (parse_keypairinfo kpi))).1 <;>
    cases (k.nextKey (c_str (parse_keypairinfo kpi))).2 <;> simp

/-- Under the conditions that lead the probe of slot 0 to the PIN status step, and when
that query has no error, the probe is the part of `probeSlot0` from the PIN states on. -/
theorem probeSlot0_nksV3 (klc : Option KeyListContext) (fileName : Str) (w : Agent)
    (hcard : w.isNksV3) (hchv : w.chvStatus.err = 0) :
    probeSlot0 klc fileName w =
      if PinState.NullPin ∈ pinStatesOf (w.chvStatus.attrText "CHV-STATUS".toList) then
        ⟨{ fileName := fileName, status := Status.CardHasNullPin,
           serialNumber := w.serialNo.dataText, appType := AppType.NksApplication,
           appVersion := 3,
           pinStates := pinStatesOf (w.chvStatus.attrText "CHV-STATUS".toList) },
          some { lastAssuanTransaction := none },
          w.after [cmdSerialNo, cmdAppType, cmdNksVersion, cmdChvStatus]⟩
      else
        ⟨{ fileName := fileName,
           status :=
             if (match w.learn.taken, klc with
                 | some result, some k =>
                   (result.statusLine "KEYPAIRINFO".toList).any
                     (fun str => !parse_keypairinfo_and_lookup_key (some k) str)
                 | _, _ => false) = true
             then Status.CardCanLearnKeys else Status.CardUsable,
           serialNumber := w.serialNo.dataText, appType := AppType.NksApplication,
           appVersion := 3,
           pinStates := pinStatesOf (w.chvStatus.attrText "CHV-STATUS".toList) },
          w.learn.sessionAfter,
          w.after [cmdSerialNo, cmdAppType, cmdNksVersion, cmdChvStatus, cmdLearn]⟩ := by
  obtain ⟨h1, h2, t2, h3, t3⟩ := hcard
  have hc : ¬ ((0 : Nat) = GPG_ERR_CARD_NOT_PRESENT ∨ (0 : Nat) = GPG_ERR_CARD_REMOVED) := by
    decide
  unfold probeSlot0
  simp only [h1, h2, h3, hchv, t2, t3, hc, if_false, ne_eq, not_true_eq_false, or_self,
    sessionAfter_of_ok hchv]

/-- C1. `get_card_status` returns for every slot, session and agent, and whenever the PIN
states of the returned snapshot contain `NullPin` its status is `CardHasNullPin`, not
`CardCanLearnKeys`, whatever the agent would answer to the key-learn query and whatever
the key lookups would find; the commands sent are then the four queries up to the PIN
status query, so the key-learn query is not issued. -/
theorem get_card_status_null_pin_first (klc : Option KeyListContext) (fileName : Str)
    (idx : Nat) (gpg_agent : Option Context) (w : Agent) :
    ∃ p, get_card_status klc fileName idx gpg_agent w = some p ∧
      (PinState.NullPin ∈ p.ci.pinStates →
        p.ci.status = Status.CardHasNullPin ∧ p.ci.status ≠ Status.CardCanLearnKeys ∧
        p.agent.sent = w.sent ++ ["SCD SERIALNO".toList, "SCD GETATTR APPTYPE".toList,
          "SCD GETATTR NKS-VERSION".toList, "SCD GETATTR CHV-STATUS".toList]) := by
  by_cases hidx : idx ≠ 0 ∨ gpg_agent = none
  · refine ⟨_, get_card_status_elsewhere klc fileName idx gpg_agent w hidx, ?_⟩
    intro h
    simp [CardInfo.init] at h
  · have h0 : idx = 0 := by
      by_contra h; exact hidx (Or.inl h)
    obtain ⟨ctx, hctx⟩ : ∃ ctx, gpg_agent = some ctx := by
      cases gpg_agent with
      | none => exact absurd (Or.inr rfl) hidx
      | some ctx => exact ⟨ctx, rfl⟩
    subst h0 hctx
    refine ⟨_, get_card_status_slot0 klc fileName ctx w, ?_⟩
    unfold probeSlot0
    simp only
    split_ifs with h1 h2 h3 h4 h5 h6
    all_goals
      intro h
      first
        | exact absurd h (List.not_mem_nil _)
        | exact absurd h h6
        | exact ⟨rfl, nofun, rfl⟩

/-- Witness of C1: a NetKey v3 card whose first PIN is a null PIN and whose only key pair
is unknown to the keyring is classified `CardHasNullPin`, and the key-learn query is not
among the commands sent. -/
theorem get_card_status_null_pin_first_witness :
    ∃ p, get_card_status (some emptyKeyring) "reader_0.status".toList 0 (some freshContext)
        (nksV3Agent "-4 3 3" ["0123ABCD"]) = some p ∧
      PinState.NullPin ∈ p.ci.pinStates ∧
      p.ci.status = Status.CardHasNullPin ∧
      p.agent.sent = ["SCD SERIALNO".toList, "SCD GETATTR APPTYPE".toList,
        "SCD GETATTR NKS-VERSION".toList, "SCD GETATTR CHV-STATUS".toList] := by
  obtain ⟨p, hp, h⟩ := get_card_status_null_pin_first (some emptyKeyring)
    "reader_0.status".toList 0 (some freshContext) (nksV3Agent "-4 3 3" ["0123ABCD"])
  have hmem : PinState.NullPin ∈ p.ci.pinStates := by
    have e := hp
    rw [get_card_status_slot0] at e
    injection e with e
    subst e
    decide
  exact ⟨p, hp, hmem, (h hmem).1, (h hmem).2.2⟩

theorem taken_of_ok {r : Reply} (h : r.err = 0) : r.taken = r.transaction := by
  simp [Reply.taken, h]

/-- C5. For a NetKey v3 card whose PIN states contain no `NullPin`, whose key-learn query
succeeds with the transaction `result`, and with a usable lookup context `k`,
`get_card_status` returns `CardCanLearnKeys` exactly when at least one KEYPAIRINFO
identifier of `result` fails to resolve to a known key, and `CardUsable` otherwise, in
particular when there is no identifier at all. -/
theorem get_card_status_learn_keys_iff (k : KeyListContext) (fileName : Str) (ctx : Context)
    (w : Agent) (result : DefaultAssuanTransaction)
    (hcard : w.isNksV3) (hchv : w.chvStatus.err = 0)
    (hnull : PinState.NullPin ∉ pinStatesOf (w.chvStatus.attrText "CHV-STATUS".toList))
    (hlearn : w.learn.err = 0) (hres : w.learn.transaction = some result) :
    ∃ p, get_card_status (some k) fileName 0 (some ctx) w = some p ∧
      (p.ci.status = Status.CardCanLearnKeys ↔
        ∃ kpi ∈ result.statusLine "KEYPAIRINFO".toList, failsToResolve k kpi) ∧
      ((¬ ∃ kpi ∈ result.statusLine "KEYPAIRINFO".toList, failsToResolve k kpi) →
        p.ci.status = Status.CardUsable) ∧
      (result.statusLine "KEYPAIRINFO".toList = [] → p.ci.status = Status.CardUsable) := by
  refine ⟨_, get_card_status_slot0 (some k) fileName ctx w, ?_⟩
  have hany : ((result.statusLine "KEYPAIRINFO".toList).any
      (fun str => !parse_keypairinfo_and_lookup_key (some k) str) = true) ↔
      ∃ kpi ∈ result.statusLine "KEYPAIRINFO".toList, failsToResolve k kpi := by
    rw [List.any_eq_true]
    constructor
    · rintro ⟨x, hx, hf⟩
      exact ⟨x, hx, (lookup_key_eq_false_iff k x).mp (by simpa using hf)⟩
    · rintro ⟨x, hx, hf⟩
      exact ⟨x, hx, by simpa using (lookup_key_eq_false_iff k x).mpr hf⟩
  rw [probeSlot0_nksV3 (some k) fileName w hcard hchv, if_neg hnull]
  simp only [taken_of_ok hlearn, hres]
  by_cases hex : ∃ kpi ∈ result.statusLine "KEYPAIRINFO".toList, failsToResolve k kpi
  · rw [if_pos (hany.mpr hex)]
    refine ⟨⟨fun _ => hex, fun _ => rfl⟩, fun h => absurd hex h, ?_⟩
    intro hnil
    rw [hnil] at hex
    simp at hex
  · rw [if_neg (fun h => hex (hany.mp h))]
    refine ⟨⟨fun h => by simp at h, fun h => absurd h hex⟩, fun _ => rfl, fun _ => rfl⟩

/-- Witness of C5: a NetKey v3 card without a null PIN reports one key pair; with a keyring
that knows no key the status is `CardCanLearnKeys`. -/
theorem get_card_status_learn_keys_iff_witness :
    (nksV3Agent "3 3 3" ["0123ABCD"]).isNksV3 ∧
    (∃ kpi ∈ ["0123ABCD".toList], failsToResolve emptyKeyring kpi) ∧
    ∃ p, get_card_status (some emptyKeyring) "reader_0.status".toList 0 (some freshContext)
        (nksV3Agent "3 3 3" ["0123ABCD"]) = some p ∧
      p.ci.status = Status.CardCanLearnKeys := by
  have hcard : (nksV3Agent "3 3 3" ["0123ABCD"]).isNksV3 := by
    unfold Agent.isNksV3; decide
  have hfail : ∃ kpi ∈ ["0123ABCD".toList], failsToResolve emptyKeyring kpi := by decide
  obtain ⟨p, hp, hiff, _, _⟩ := get_card_status_learn_keys_iff emptyKeyring
    "reader_0.status".toList freshContext (nksV3Agent "3 3 3" ["0123ABCD"])
    { data := [], statusLines := [("KEYPAIRINFO".toList, "0123ABCD".toList)] }
    hcard (by decide) (by decide) (by decide) (by decide)
  exact ⟨hcard, hfail, p, hp, hiff.mpr (by decide)⟩

/-- The same card with a keyring that knows every key is `CardUsable`. -/
theorem get_card_status_full_keyring_usable :
    (get_card_status (some fullKeyring) "reader_0.status".toList 0 (some freshContext)
        (nksV3Agent "3 3 3" ["0123ABCD"])).map (fun p => p.ci.status) =
      some Status.CardUsable := by
  rw [get_card_status_slot0]
  decide

theorem boost_split_from_length (isSep : Char → Bool) : ∀ (s : Str) (inRun : Bool),
    (boost_split_from isSep inRun s).length = separatorRunsFrom isSep inRun s + 1
  | [], _ => by simp [boost_split_from, separatorRunsFrom]
  | c :: cs, inRun => by
    unfold boost_split_from separatorRunsFrom
    by_cases hc : isSep c = true
    · simp only [hc, if_true]
      cases inRun with
      | true => simpa using boost_split_from_length isSep cs true
      | false => simpa using boost_split_from_length isSep cs true
    · simp only [hc, if_false]
      have ih := boost_split_from_length isSep cs false
      cases hs : boost_split_from isSep false cs with
      | nil => rw [hs] at ih; simp at ih
      | cons f fs => rw [hs] at ih; simpa using ih

theorem boost_split_length (isSep : Char → Bool) (s : Str) :
    (boost_split isSep s).length = separatorRuns isSep s + 1 :=
  boost_split_from_length isSep s false

/-- No field of the split contains a separator. -/
theorem boost_split_from_no_sep (isSep : Char → Bool) : ∀ (s : Str) (inRun : Bool),
    ∀ f ∈ boost_split_from isSep inRun s, ∀ c ∈ f, isSep c = false
  | [], _ => by simp [boost_split_from]
  | c :: cs, inRun => by
    intro f hf x hx
    unfold boost_split_from at hf
    by_cases hc : isSep c = true
    · simp only [hc, if_true] at hf
      cases inRun with
      | true => exact boost_split_from_no_sep isSep cs true f (by simpa using hf) x hx
      | false =>
        simp only [Bool.false_eq_true, if_false, List.mem_cons] at hf
        rcases hf with hf | hf
        · subst hf; simp at hx
        · exact boost_split_from_no_sep isSep cs true f hf x hx
    · have hc' : isSep c = false := by simpa using hc
      simp only [hc', Bool.false_eq_true, if_false] at hf
      have ih := boost_split_from_no_sep isSep cs false
      cases hs : boost_split_from isSep false cs with
      | nil =>
        rw [hs] at hf
        simp only [List.mem_singleton] at hf
        subst hf
        simp only [List.mem_singleton] at hx
        subst hx
        exact hc'
      | cons g gs =>
        rw [hs] at hf ih
        simp only [List.mem_cons] at hf
        rcases hf with hf | hf
        · subst hf
          simp only [List.mem_cons] at hx
          rcases hx with hx | hx
          · subst hx; exact hc'
          · exact ih g (List.mem_cons_self _ _) x hx
        · exact ih f (List.mem_cons_of_mem _ hf) x hx

/-- The fields of the split, put together again, are the input without its separators. -/
theorem boost_split_from_flatten (isSep : Char → Bool) : ∀ (s : Str) (inRun : Bool),
    (boost_split_from isSep inRun s).flatten = s.filter (fun c => !isSep c)
  | [], _ => by simp [boost_split_from]
  | c :: cs, inRun => by
    unfold boost_split_from
    by_cases hc : isSep c = true
    · simp only [hc, if_true]
      cases inRun with
      | true => simpa [hc] using boost_split_from_flatten isSep cs true
      | false => simpa [hc] using boost_split_from_flatten isSep cs true
    · simp only [hc, if_false]
      have ih := boost_split_from_flatten isSep cs false
      cases hs : boost_split_from isSep false cs with
      | nil => rw [hs] at ih; simpa [hc] using ih
      | cons g gs => rw [hs] at ih; simpa [hc] using ih

/-- C9, counterexample. A PIN status line of five fields gives five PIN states, more than
four. -/
theorem five_pin_states_counterexample :
    ∃ p, get_card_status none "reader_0.status".toList 0 (some freshContext)
        (nksV3Agent "3 3 3 3 3" []) = some p ∧
      p.ci.pinStates.length = 5 ∧ ¬ p.ci.pinStates.length ≤ 4 := by
  refine ⟨_, get_card_status_slot0 _ _ _ _, ?_⟩
  decide

/-- C9, amended. On a NetKey v3 card, when the PIN status query has no error, the response
is split into one field more than it has maximal runs of space and tab characters, and the
snapshot has exactly one PIN state per field: at least one, with no upper bound. -/
theorem pin_states_one_per_field (klc : Option KeyListContext) (fileName : Str)
    (ctx : Context) (w : Agent) (hcard : w.isNksV3) (hchv : w.chvStatus.err = 0) :
    ∃ p, get_card_status klc fileName 0 (some ctx) w = some p ∧
      p.ci.pinStates.length =
        separatorRuns is_space_or_tab (w.chvStatus.attrText "CHV-STATUS".toList) + 1 ∧
      1 ≤ p.ci.pinStates.length := by
  refine ⟨_, get_card_status_slot0 klc fileName ctx w, ?_⟩
  rw [probeSlot0_nksV3 klc fileName w hcard hchv]
  have hl : (pinStatesOf (w.chvStatus.attrText "CHV-STATUS".toList)).length =
      separatorRuns is_space_or_tab (w.chvStatus.attrText "CHV-STATUS".toList) + 1 := by
    rw [pinStatesOf, List.length_map, boost_split_length]
  split_ifs <;> exact ⟨hl, by rw [hl]; exact Nat.le_add_left 1 _⟩

/-- Witness of the amended C9 at a PIN status line of five fields. -/
theorem pin_states_one_per_field_witness :
    (nksV3Agent "3 3 3 3 3" []).isNksV3 ∧
    separatorRuns is_space_or_tab "3 3 3 3 3".toList = 4 ∧
    ∃ p, get_card_status none "reader_0.status".toList 0 (some freshContext)
        (nksV3Agent "3 3 3 3 3" []) = some p ∧
      p.ci.pinStates.length = 4 + 1 := by
  have hcard : (nksV3Agent "3 3 3 3 3" []).isNksV3 := by
    unfold Agent.isNksV3; decide
  obtain ⟨p, hp, hlen, _⟩ := pin_states_one_per_field none "reader_0.status".toList
    freshContext (nksV3Agent "3 3 3 3 3" []) hcard (by decide)
  exact ⟨hcard, by decide, p, hp, hlen⟩

/-! ## Key-pair identifiers -/

theorem hexchars_contains (c : Char) : hexchars.contains c = isHexDigit c := by
  by_cases h : isHexDigit c = true
  · rw [h]
    obtain ⟨n, hn⟩ : ∃ n, c.toNat = n := ⟨_, rfl⟩
    have hc : c = Char.ofNat n := by rw [← hn]; simp
    subst hc
    simp only [isHexDigit, hn, Bool.or_eq_true, Bool.and_eq_true, decide_eq_true_eq] at h
    rcases h with (⟨h1, h2⟩ | ⟨h1, h2⟩) | ⟨h1, h2⟩ <;> interval_cases n <;> decide
  · have hf : isHexDigit c = false := by simpa using h
    rw [hf]
    by_contra hm
    have hm' : hexchars.contains c = true := by simpa using hm
    have hmem : c ∈ hexchars := by simpa using hm'
    simp only [hexchars, String.toList, List.mem_cons, List.mem_singleton] at hmem
    have : isHexDigit c = true := by
      rcases hmem with h | h | h | h | h | h | h | h | h | h | h | h | h | h | h | h | h | h |
        h | h | h | h | h <;> first | (subst h; decide) | simp at h
    exact h this

theorem substr0_find_if {α : Type} (p : α → Bool) (take : List α → Option Nat → List α)
    (htake : ∀ s, take s none = s) (htake' : ∀ s n, take s (some n) = s.take n) :
    ∀ s : List α, take s (find_if (fun c => !p c) s) = s.takeWhile p
  | [] => by simp [find_if, htake]
  | c :: cs => by
    have ih := substr0_find_if p take htake htake' cs
    unfold find_if
    by_cases hc : p c = true
    · simp only [hc, Bool.not_true, Bool.false_eq_true, if_false, List.takeWhile_cons, if_true]
      cases hf : find_if (fun c => !p c) cs with
      | none =>
        rw [hf, htake] at ih
        simp [htake, ← ih]
      | some k =>
        rw [hf, htake'] at ih
        simp [htake', ih]
    · simp [hc, htake']

theorem parse_keypairinfo_eq (kpi : Str) : parse_keypairinfo kpi = '&' :: leadingHexDigits kpi := by
  unfold parse_keypairinfo find_first_not_of leadingHexDigits
  have h := substr0_find_if (fun c => hexchars.contains c) substr0 (fun _ => rfl)
    (fun _ _ => rfl) kpi
  rw [h]
  congr 1
  congr 1
  funext c
  exact hexchars_contains c

/-- C12. For every key-pair identifier `kpi`, `parse_keypairinfo kpi` is the character `&`
followed by the longest prefix of `kpi` that consists of hexadecimal digits `[0-9a-fA-F]`
only: the prefix is made of hexadecimal digits, what follows it in `kpi` does not start with
one; it is the whole of `kpi` when `kpi` is hexadecimal throughout and empty when the first
character of `kpi` is not a hexadecimal digit. -/
theorem parse_keypairinfo_leading_hex (kpi : Str) :
    parse_keypairinfo kpi = '&' :: leadingHexDigits kpi ∧
    (∃ rest, kpi = leadingHexDigits kpi ++ rest ∧ (∀ c ∈ leadingHexDigits kpi, isHexDigit c = true) ∧
      ∀ c, rest.head? = some c → isHexDigit c = false) ∧
    ((∀ c ∈ kpi, isHexDigit c = true) → parse_keypairinfo kpi = '&' :: kpi) ∧
    (∀ c cs, kpi = c :: cs → isHexDigit c = false → parse_keypairinfo kpi = ['&']) := by
  refine ⟨parse_keypairinfo_eq kpi, ⟨kpi.dropWhile isHexDigit, ?_, ?_, ?_⟩, ?_, ?_⟩
  · exact (List.takeWhile_append_dropWhile isHexDigit kpi).symm
  · intro c hc
    exact List.mem_takeWhile_imp hc
  · intro c hc
    have := List.head?_dropWhile_not isHexDigit kpi
    rw [hc] at this
    simpa using this
  · intro hall
    rw [parse_keypairinfo_eq, leadingHexDigits, List.takeWhile_eq_self_iff.mpr hall]
  · intro c cs hk hc
    rw [parse_keypairinfo_eq, leadingHexDigits, hk, List.takeWhile_cons, hc]
    rfl

/-- Witness of C12: an identifier that is hexadecimal throughout, and one that starts with
a character that is not a hexadecimal digit. -/
theorem parse_keypairinfo_leading_hex_witness :
    (∀ c ∈ "0123ABCDef".toList, isHexDigit c = true) ∧
    parse_keypairinfo "0123ABCDef".toList = "&0123ABCDef".toList ∧
    isHexDigit 'x' = false ∧
    parse_keypairinfo "x0123".toList = "&".toList ∧
    parse_keypairinfo "0123ABCD.NKS-NKS3.4531".toList = "&0123ABCD".toList :=
  ⟨by decide, (parse_keypairinfo_leading_hex "0123ABCDef".toList).2.2.1 (by decide),
    by decide, (parse_keypairinfo_leading_hex "x0123".toList).2.2.2 'x' "0123".toList rfl
      (by decide), by decide⟩

/-! ## The prober: cards that are not NetKey v3 -/

theorem attrText_of_err {r : Reply} (what : Str) (h : r.err ≠ 0) : r.attrText what = [] := by
  simp [Reply.attrText, taken_of_err h]

/-- C11. On slot 0 with a present session, when the serial number query has no error:
if the parsed application type is not NKS the probe stops after the application type query
(two commands sent, no version, PIN status or key-learn query), with `app_type` the parsed
type, version -1, status `CardUsable` and no PIN states; if the type is NKS and the parsed
version is not 3 the probe stops after the version query (three commands sent, no PIN status
or key-learn query), with status `CardUsable` and no PIN states. -/
theorem get_card_status_not_nks_v3 (klc : Option KeyListContext) (fileName : Str)
    (ctx : Context) (w : Agent) (hserial : w.serialNo.err = 0) :
    (parse_app_type (w.appType.attrText "APPTYPE".toList) ≠ AppType.NksApplication →
      get_card_status klc fileName 0 (some ctx) w =
        some { ci := { fileName := fileName, status := Status.CardUsable,
                       serialNumber := w.serialNo.dataText,
                       appType := parse_app_type (w.appType.attrText "APPTYPE".toList),
                       appVersion := -1, pinStates := [] },
               gpg_agent := w.appType.sessionAfter,
               agent := { reply := w.reply,
                          sent := w.sent ++ ["SCD SERIALNO".toList,
                            "SCD GETATTR APPTYPE".toList] } }) ∧
    (parse_app_type (w.appType.attrText "APPTYPE".toList) = AppType.NksApplication →
      parse_app_version (w.nksVersion.attrText "NKS-VERSION".toList) ≠ 3 →
      get_card_status klc fileName 0 (some ctx) w =
        some { ci := { fileName := fileName, status := Status.CardUsable,
                       serialNumber := w.serialNo.dataText,
                       appType := AppType.NksApplication,
                       appVersion := parse_app_version
                         (w.nksVersion.attrText "NKS-VERSION".toList),
                       pinStates := [] },
               gpg_agent := w.nksVersion.sessionAfter,
               agent := { reply := w.reply,
                          sent := w.sent ++ ["SCD SERIALNO".toList,
                            "SCD GETATTR APPTYPE".toList,
                            "SCD GETATTR NKS-VERSION".toList] } }) := by
  have hc : ¬ ((0 : Nat) = GPG_ERR_CARD_NOT_PRESENT ∨ (0 : Nat) = GPG_ERR_CARD_REMOVED) := by
    decide
  constructor
  · intro ht
    rw [get_card_status_slot0]
    unfold probeSlot0
    simp only [hserial, hc, if_false, ne_eq, not_true_eq_false, ht, not_false_eq_true,
      or_true, if_true]
    rfl
  · intro ht hv
    have h2 : w.appType.err = 0 := by
      by_contra h
      rw [attrText_of_err _ h] at ht
      exact absurd ht (by decide)
    rw [get_card_status_slot0]
    unfold probeSlot0
    simp only [hserial, hc, if_false, ne_eq, not_true_eq_false, ht, h2, or_self, hv,
      not_false_eq_true, or_true, if_true]
    rfl

/-- Witness of C11: an OpenPGP card, and a NetKey card of version 2. -/
theorem get_card_status_not_nks_v3_witness :
    (get_card_status none "reader_0.status".toList 0 (some freshContext)
        (cardAgent "openpgp" "3")).map (fun p => (p.ci.appType, p.ci.appVersion,
          p.ci.status, p.ci.pinStates, p.agent.sent)) =
      some (AppType.OpenPGPApplication, -1, Status.CardUsable, [],
        ["SCD SERIALNO".toList, "SCD GETATTR APPTYPE".toList]) ∧
    (get_card_status none "reader_0.status".toList 0 (some freshContext)
        (cardAgent "NKS" "2")).map (fun p => (p.ci.appType, p.ci.appVersion,
          p.ci.status, p.ci.pinStates, p.agent.sent)) =
      some (AppType.NksApplication, 2, Status.CardUsable, [],
        ["SCD SERIALNO".toList, "SCD GETATTR APPTYPE".toList,
          "SCD GETATTR NKS-VERSION".toList]) := by
  constructor
  · rw [(get_card_status_not_nks_v3 none "reader_0.status".toList freshContext
      (cardAgent "openpgp" "3") (by decide)).1 (by decide)]
    rfl
  · rw [(get_card_status_not_nks_v3 none "reader_0.status".toList freshContext
      (cardAgent "NKS" "2") (by decide)).2 (by decide) (by decide)]
    rfl

/-! ## The transport: when the session is discarded -/

/-- C19. On a present session `gpgagent_transact` returns, reports the error code `c` of the
transaction to its caller, and leaves the session empty exactly when
`GPG_ERR_ASS_GENERAL ≤ c ≤ GPG_ERR_ASS_UNKNOWN_INQUIRE`; for every non-zero `c` it returns no
response object, and for `c = 0` it keeps the session and returns the response. -/
theorem gpgagent_transact_session (ctx : Context) (command : Str) (w : Agent) :
    ∃ r, gpgagent_transact (some ctx) command w = some r ∧
      r.err = (w.answer [] command).err ∧
      (r.gpgAgent = none ↔
        (GPG_ERR_ASS_GENERAL ≤ r.err ∧ r.err ≤ GPG_ERR_ASS_UNKNOWN_INQUIRE)) ∧
      (r.err ≠ 0 → r.value = none) ∧
      (r.err = 0 → r.gpgAgent.isSome = true ∧ r.value = (w.answer [] command).transaction) := by
  refine ⟨_, gpgagent_transact_some ctx command w, rfl, ?_, ?_, ?_⟩
  · simp only [Reply.sessionAfter]
    split_ifs with h0 hr
    · simp [hr]
    · simp only [reduceCtorEq, false_iff]
      exact hr
    · have h0' : (w.answer [] command).err = 0 := by simpa using h0
      simp [h0', GPG_ERR_ASS_GENERAL]
  · intro h
    exact taken_of_err h
  · intro h
    exact ⟨by simp [sessionAfter_of_ok h], taken_of_ok h⟩

/-- Witness of C19: an Assuan error empties the session, a card error keeps it, and a
reply without error keeps it and returns the response. -/
theorem gpgagent_transact_session_witness :
    (gpgagent_transact (some freshContext) "SCD SERIALNO".toList
        (failingAgent GPG_ERR_ASS_GENERAL)).map (fun r => (r.err, r.gpgAgent, r.value)) =
      some (GPG_ERR_ASS_GENERAL, none, none) ∧
    (gpgagent_transact (some freshContext) "SCD SERIALNO".toList
        (failingAgent GPG_ERR_CARD_REMOVED)).map (fun r => (r.err, r.gpgAgent.isSome, r.value)) =
      some (GPG_ERR_CARD_REMOVED, true, none) ∧
    (gpgagent_transact (some freshContext) "SCD SERIALNO".toList
        (nksV3Agent "3 3 3" [])).map (fun r => (r.err, r.gpgAgent.isSome, r.value)) =
      some (0, true, some { data := "D27600000000000000000000".toList, statusLines := [] }) := by
  obtain ⟨r, hr, he, hiff, hv, _⟩ := gpgagent_transact_session freshContext
    "SCD SERIALNO".toList (failingAgent GPG_ERR_ASS_GENERAL)
  have hnone : r.gpgAgent = none := hiff.mpr (by rw [he]; decide)
  have hval : r.value = none := hv (by rw [he]; decide)
  refine ⟨?_, rfl, rfl⟩
  rw [hr]
  simp only [Option.map_some', he, hnone, hval]
  rfl

/-! ## The request queue -/

theorem waitForTransactions_nonempty (waits : List Wait) (th : ReaderStatusThread)
    (h : th.m_transactions ≠ []) : waitForTransactions waits th = some th := by
  cases waits with
  | nil => simp [waitForTransactions, h]
  | cons wt wts => simp [waitForTransactions, h]

theorem take_transaction_cons (waits : List Wait) (th : ReaderStatusThread)
    (item : Transaction) (rest : List Transaction) (h : th.m_transactions = item :: rest) :
    take_transaction [] waits th = some (item, { th with m_transactions := rest }) := by
  unfold take_transaction
  simp only [List.foldl_nil]
  rw [waitForTransactions_nonempty waits th (by rw [h]; exact List.cons_ne_nil _ _)]
  simp only [h]

theorem take_transaction_nil (th : ReaderStatusThread) (h : th.m_transactions = []) :
    take_transaction [] [] th = none := by
  simp [take_transaction, waitForTransactions, h]

/-- Without a call of `stop`, what the worker took followed by what is still queued is what
was queued at the start followed by what was added, in the order of the additions. -/
theorem playQueue_fifo : ∀ (es : List QueueEvent) (th : ReaderStatusThread),
    withoutStop es = true →
    (playQueue es th).1 ++ (playQueue es th).2.m_transactions =
      th.m_transactions ++ addedRequests es
  | [], th, _ => by simp [playQueue, addedRequests]
  | QueueEvent.call (QueueOp.addTransaction t) :: es, th, h => by
    have h' : withoutStop es = true := by
      simp only [withoutStop, List.all_cons, Bool.and_eq_true] at h ⊢
      exact h.2
    have ih := playQueue_fifo es (th.addTransaction t) h'
    simp only [playQueue, QueueOp.apply, addedRequests]
    rw [ih]
    simp [ReaderStatusThread.addTransaction]
  | QueueEvent.call QueueOp.stop :: es, th, h => by
    simp [withoutStop] at h
  | QueueEvent.take :: es, th, h => by
    have h' : withoutStop es = true := by
      simp only [withoutStop, List.all_cons, Bool.and_eq_true] at h ⊢
      exact h.2
    simp only [playQueue, addedRequests]
    cases hq : th.m_transactions with
    | nil =>
      rw [take_transaction_nil th hq]
      simp only
      rw [playQueue_fifo es th h', hq]
    | cons item rest =>
      rw [take_transaction_cons [] th item rest hq]
      simp only [List.cons_append]
      rw [playQueue_fifo es { th with m_transactions := rest } h']

theorem foldl_apply_head_quit : ∀ (arrived : List QueueOp) (th : ReaderStatusThread),
    th.m_transactions.head? = some quitTransaction →
    (arrived.foldl QueueOp.apply th).m_transactions.head? = some quitTransaction
  | [], th, h => by simpa using h
  | QueueOp.addTransaction t :: ops, th, h => by
    simp only [List.foldl_cons]
    apply foldl_apply_head_quit ops
    cases hq : th.m_transactions with
    | nil => rw [hq] at h; simp at h
    | cons a as =>
      rw [hq] at h
      simpa [QueueOp.apply, ReaderStatusThread.addTransaction, hq] using h
  | QueueOp.stop :: ops, th, _ => by
    simp only [List.foldl_cons]
    apply foldl_apply_head_quit ops
    simp [QueueOp.apply, ReaderStatusThread.stop]

/-- After `stop`, whatever other threads call on the queue and however the waits would end,
the request the worker takes next is the quit sentinel. -/
theorem take_transaction_after_stop (arrived : List QueueOp) (waits : List Wait)
    (th : ReaderStatusThread) :
    ∃ th1, take_transaction arrived waits th.stop = some (quitTransaction, th1) := by
  have hh := foldl_apply_head_quit arrived th.stop (by simp [ReaderStatusThread.stop])
  unfold take_transaction
  cases hq : (arrived.foldl QueueOp.apply th.stop).m_transactions with
  | nil => rw [hq] at hh; simp at hh
  | cons a as =>
    rw [hq] at hh
    simp only [List.head?_cons, Option.some.injEq] at hh
    rw [waitForTransactions_nonempty waits _ (by rw [hq]; exact List.cons_ne_nil _ _)]
    simp only [hq, hh]
    exact ⟨_, rfl⟩

/-! ## The worker: the pieces of one pass -/

theorem get_event_counter_some (ctx : Context) (w : Agent) :
    get_event_counter (some ctx) w =
      some { value := w.eventCounter.counter, err := w.eventCounter.err,
             gpgAgent := w.eventCounter.sessionAfter, agent := w.after [cmdEventCounter] } := by
  unfold get_event_counter Reply.counter Agent.eventCounter cmdEventCounter
  simp only [gpgagent_transact_some, Option.map_some']
  split <;> rfl

theorem check_event_counter_changed_some (ctx : Context) (counter : Nat) (w : Agent) :
    check_event_counter_changed (some ctx) counter w =
      some { value := (decide (counter ≠ w.eventCounter.counter), w.eventCounter.counter),
             err := w.eventCounter.err, gpgAgent := w.eventCounter.sessionAfter,
             agent := w.after [cmdEventCounter] } := by
  unfold check_event_counter_changed
  simp only [get_event_counter_some, Option.map_some']

theorem get_card_status_zero (klc : Option KeyListContext) (fileName : Str)
    (gpgAgent : Option Context) (w : Agent) :
    get_card_status klc fileName 0 gpgAgent w = some (probed klc fileName gpgAgent w) := by
  cases gpgAgent with
  | none => exact get_card_status_elsewhere klc fileName 0 none w (Or.inr rfl)
  | some ctx => exact get_card_status_slot0 klc fileName ctx w

theorem update_cardinfo_eq (klc : Option KeyListContext) (home : Str)
    (gpgAgent : Option Context) (w : Agent) :
    update_cardinfo klc home gpgAgent w =
      some { cardInfos :=
               [(probed klc (absoluteFilePath home "reader_0.status".toList) gpgAgent w).ci],
             gpgAgent :=
               (probed klc (absoluteFilePath home "reader_0.status".toList) gpgAgent w).gpg_agent,
             agent :=
               (probed klc (absoluteFilePath home "reader_0.status".toList) gpgAgent w).agent } := by
  unfold update_cardinfo
  rw [get_card_status_zero]
  rfl

theorem resize_eq_pad (v : List CardInfo) (n : Nat) (h : v.length ≤ n) : resize v n = pad v n := by
  unfold resize pad
  rw [List.take_of_length_le h]

theorem length_pad (v : List CardInfo) (n : Nat) (h : v.length ≤ n) : (pad v n).length = n := by
  simp [pad]
  omega

theorem compareCardInfos_eq : ∀ (new old : List CardInfo) (idx : Nat) (acc : Comparison),
    new.length = old.length →
    compareCardInfos idx new old acc =
      { emitted := acc.emitted ++ statusChangesFrom idx new old,
        anyLC := acc.anyLC || anyStatus Status.CardCanLearnKeys new,
        anyNP := acc.anyNP || anyStatus Status.CardHasNullPin new,
        anyError := acc.anyError || anyStatus Status.CardError new }
  | [], [], idx, acc, _ => by
    simp [compareCardInfos, statusChangesFrom, anyStatus]
  | [], _ :: _, _, _, h => by simp at h
  | _ :: _, [], _, _, h => by simp at h
  | n :: ns, o :: os, idx, acc, h => by
    have hl : ns.length = os.length := by simpa using h
    rw [compareCardInfos, compareCardInfos_eq ns os (idx + 1) _ hl]
    simp only [statusChangesFrom, List.zip_cons_cons, List.enumFrom_cons, List.filterMap_cons,
      anyStatus, List.any_cons]
    by_cases hs : n.status = o.status
    · simp only [hs, ne_eq, not_true_eq_false, if_false]
      congr 1
      · cases acc.anyLC <;> by_cases h1 : o.status = Status.CardCanLearnKeys <;> simp [h1]
      · cases acc.anyNP <;> by_cases h1 : o.status = Status.CardHasNullPin <;> simp [h1]
      · cases acc.anyError <;> by_cases h1 : o.status = Status.CardError <;> simp [h1]
    · simp only [ne_eq, hs, not_false_eq_true, if_true, List.append_assoc, List.singleton_append]
      congr 1
      · cases acc.anyLC <;> by_cases h1 : n.status = Status.CardCanLearnKeys <;> simp [h1]
      · cases acc.anyNP <;> by_cases h1 : n.status = Status.CardHasNullPin <;> simp [h1]
      · cases acc.anyError <;> by_cases h1 : n.status = Status.CardError <;> simp [h1]

theorem reprobe_eq (klc : Option KeyListContext) (oldCardInfos : List CardInfo)
    (s : RunState) : reprobe klc oldCardInfos s = some (reprobed klc oldCardInfos s) := by
  unfold reprobe reprobed
  rw [update_cardinfo_eq]
  simp only [Option.map_some', List.length_singleton, reader0]
  have h1 : ([(probed klc (absoluteFilePath s.thread.m_gnupgHomePath "reader_0.status".toList)
      s.gpgAgent s.agent).ci] : List CardInfo).length ≤ max 1 oldCardInfos.length := by
    simp
  rw [resize_eq_pad _ _ h1, length_pad _ _ h1]
  have h2 : max (max 1 oldCardInfos.length) oldCardInfos.length = max 1 oldCardInfos.length := by
    omega
  rw [h2, resize_eq_pad _ _ (by omega)]
  rw [compareCardInfos_eq _ _ 0 _ (by rw [length_pad _ _ h1, length_pad _ _ (by omega)])]
  simp only [List.nil_append, Bool.false_or, statusChanges, List.append_assoc]

theorem refresh_event_counter_eq (s : RunState) :
    refresh_event_counter s = some (refreshed s) := by
  unfold refresh_event_counter refreshed
  cases hg : s.gpgAgent with
  | none => rfl
  | some ctx => simp only [get_event_counter_some, Option.map_some']

theorem end_of_iteration_some (s : RunState) :
    end_of_iteration (some s) = Step.next (refreshed s) := by
  simp [end_of_iteration, refresh_event_counter_eq]

theorem end_of_iteration_reprobe (klc : Option KeyListContext) (oldCardInfos : List CardInfo)
    (s : RunState) :
    end_of_iteration (reprobe klc oldCardInfos s) =
      Step.next (refreshed (reprobed klc oldCardInfos s)) := by
  rw [reprobe_eq, end_of_iteration_some]

/-! ## The worker: one pass, request by request -/

theorem isQuit_iff (t : Transaction) :
    t.isQuit = true ↔ t.slot = none ∧ t.command = "__quit__".toList := by
  unfold Transaction.isQuit
  cases t.slot <;> simp

theorem isUpdate_iff (t : Transaction) :
    t.isUpdate = true ↔ t.slot = none ∧ t.command = "__update__".toList := by
  unfold Transaction.isUpdate
  cases t.slot <;> simp

theorem isCheck_iff (t : Transaction) :
    t.isCheck = true ↔ t.slot = none ∧ t.command = "__check__".toList := by
  unfold Transaction.isCheck
  cases t.slot <;> simp

theorem run_iteration_quit (e : Surroundings) (s : RunState) (g : Option Context)
    (item : Transaction) (th : ReaderStatusThread)
    (hacq : acquire_session e s.gpgAgent = some g)
    (htake : take_transaction e.arrived e.waits s.thread = some (item, th))
    (hq : item.isQuit = true) :
    run_iteration e s = Step.finished { s with thread := th, gpgAgent := g } := by
  obtain ⟨hs, hc⟩ := (isQuit_iff item).mp hq
  unfold run_iteration
  rw [hacq, htake]
  simp only [hs, hc, quitTransaction, Option.isNone_none, Bool.true_and, beq_self_eq_true,
    if_true]

theorem run_iteration_update (e : Surroundings) (s : RunState) (g : Option Context)
    (item : Transaction) (th : ReaderStatusThread)
    (hacq : acquire_session e s.gpgAgent = some g)
    (htake : take_transaction e.arrived e.waits s.thread = some (item, th))
    (hu : item.isUpdate = true) :
    run_iteration e s =
      Step.next (refreshed (reprobed e.createForProtocol th.m_cardInfos
        { s with thread := th, gpgAgent := g })) := by
  obtain ⟨hs, hc⟩ := (isUpdate_iff item).mp hu
  have h1 : ("__update__".toList == "__quit__".toList) = false := by decide
  have h2 : ("__update__".toList == "__check__".toList) = false := by decide
  unfold run_iteration
  rw [hacq, htake]
  simp only [hs, hc, quitTransaction, updateTransaction, checkTransaction, Option.isNone_none,
    Bool.true_and, beq_self_eq_true, h1, h2, Bool.false_eq_true, if_false, Bool.or_false,
    if_true, end_of_iteration_reprobe]

theorem run_iteration_check (e : Surroundings) (s : RunState) (ctx : Context)
    (item : Transaction) (th : ReaderStatusThread)
    (hacq : acquire_session e s.gpgAgent = some (some ctx))
    (htake : take_transaction e.arrived e.waits s.thread = some (item, th))
    (hk : item.isCheck = true) :
    run_iteration e s =
      if s.eventCounter = s.agent.eventCounter.counter then
        Step.next (counterChecked { s with thread := th, gpgAgent := some ctx })
      else
        Step.next (refreshed (reprobed e.createForProtocol th.m_cardInfos
          (counterChecked { s with thread := th, gpgAgent := some ctx }))) := by
  obtain ⟨hs, hc⟩ := (isCheck_iff item).mp hk
  have h1 : ("__check__".toList == "__quit__".toList) = false := by decide
  have h2 : ("__check__".toList == "__update__".toList) = false := by decide
  unfold run_iteration
  rw [hacq, htake]
  simp only [hs, hc, quitTransaction, updateTransaction, checkTransaction, Option.isNone_none,
    Bool.true_and, beq_self_eq_true, h1, h2, Bool.false_eq_true, if_false, Bool.false_or,
    if_true, check_event_counter_changed_some, end_of_iteration_reprobe]
  by_cases hcount : s.eventCounter = s.agent.eventCounter.counter
  · simp only [hcount, ne_eq, not_true_eq_false, decide_False, Bool.not_false, if_true]
    rfl
  · simp only [hcount, ne_eq, not_false_eq_true, decide_True, Bool.not_true,
      Bool.false_eq_true, if_false]
    rfl

theorem run_iteration_pass_through (e : Surroundings) (s : RunState) (ctx : Context)
    (item : Transaction) (th : ReaderStatusThread)
    (hacq : acquire_session e s.gpgAgent = some (some ctx))
    (htake : take_transaction e.arrived e.waits s.thread = some (item, th))
    (hq : item.isQuit = false) (hu : item.isUpdate = false) (hk : item.isCheck = false) :
    run_iteration e s =
      Step.next (refreshed
        { thread := { th with
            m_finishedTransactions := th.m_finishedTransactions ++
              [{ item with error := (s.agent.answer [] (c_str item.command)).err }] },
          gpgAgent := (s.agent.answer [] (c_str item.command)).sessionAfter,
          eventCounter := s.eventCounter,
          agent := s.agent.after [c_str item.command],
          emitted := s.emitted ++ [Signal.oneTransactionFinished] }) := by
  unfold Transaction.isQuit at hq
  unfold Transaction.isUpdate at hu
  unfold Transaction.isCheck at hk
  unfold run_iteration
  rw [hacq, htake]
  simp only [quitTransaction, updateTransaction, checkTransaction, hq, hu, hk,
    Bool.false_eq_true, if_false, Bool.or_false, gpgagent_transact_some,
    end_of_iteration_some]

/-! ## The worker: the signals of a reprobe -/

theorem mem_statusChanges (new old : List CardInfo) (i : Nat) (st : Status) :
    Signal.cardStatusChanged i st ∈ statusChanges new old ↔
      ∃ cn co, new[i]? = some cn ∧ old[i]? = some co ∧ cn.status ≠ co.status ∧
        st = cn.status := by
  unfold statusChanges statusChangesFrom
  rw [List.mem_filterMap]
  constructor
  · rintro ⟨⟨j, cn, co⟩, hmem, hf⟩
    have hz : (new.zip old)[j]? = some (cn, co) := List.mk_mem_enum_iff_getElem?.mp hmem
    rw [List.getElem?_zip_eq_some] at hz
    simp only at hf
    split at hf
    · rename_i hne
      injection hf with hf
      injection hf with h1 h2
      subst h1
      exact ⟨cn, co, hz.1, hz.2, hne, h2.symm⟩
    · exact absurd hf (by simp)
  · rintro ⟨cn, co, hn, ho, hne, hst⟩
    refine ⟨(i, cn, co), ?_, ?_⟩
    · apply List.mk_mem_enum_iff_getElem?.mpr
      rw [List.getElem?_zip_eq_some]
      exact ⟨hn, ho⟩
    · simp only [hne, ne_eq, not_false_eq_true, if_true, hst]

theorem statusChanges_only_status (new old : List CardInfo) :
    ∀ sig ∈ statusChanges new old, ∃ i st, sig = Signal.cardStatusChanged i st := by
  intro sig hsig
  unfold statusChanges statusChangesFrom at hsig
  rw [List.mem_filterMap] at hsig
  obtain ⟨p, _, hf⟩ := hsig
  split at hf
  · injection hf with hf
    exact ⟨_, _, hf.symm⟩
  · exact absurd hf (by simp)

theorem statusChanges_increasing (new old : List CardInfo) :
    ((statusChanges new old).filterMap Signal.index?).Pairwise (· < ·) := by
  unfold statusChanges statusChangesFrom
  rw [List.filterMap_filterMap]
  have hp : List.Pairwise (fun a b : Nat × CardInfo × CardInfo => a.1 < b.1)
      ((new.zip old).enumFrom 0) := by
    have h := List.pairwise_lt_range (new.zip old).length
    rw [← List.enum_map_fst, List.pairwise_map] at h
    exact h
  refine List.Pairwise.filterMap _ ?_ hp
  intro a a' haa b hb b' hb'
  have key : ∀ (x : Nat × CardInfo × CardInfo) (y : Nat),
      y ∈ (Option.bind (if x.2.1.status ≠ x.2.2.status
        then some (Signal.cardStatusChanged x.1 x.2.1.status) else none) Signal.index?) →
      y = x.1 := by
    intro x y hy
    split at hy
    · simp only [Option.some_bind, Signal.index?, Option.mem_def, Option.some.injEq] at hy
      exact hy.symm
    · simp at hy
  rw [key a b hb, key a' b' hb']
  exact haa

/-- C17. Every reprobe fills up the new table (the result of `update_cardinfo`) and the old
one with `CardInfo()` entries, whose status is `NoCard`, to the length of the longer of the
two, publishes the filled-up new table, and emits, before the two aggregate signals, one
`cardStatusChanged(i, new status)` for exactly the indices `i` at which the status of the
two filled-up tables differs, one signal per such index, in strictly increasing order of
`i`. -/
theorem reprobe_publishes_and_signals (klc : Option KeyListContext)
    (oldCardInfos : List CardInfo) (s : RunState) :
    ∃ u s1, update_cardinfo klc s.thread.m_gnupgHomePath s.gpgAgent s.agent = some u ∧
      reprobe klc oldCardInfos s = some s1 ∧
      CardInfo.default.status = Status.NoCard ∧
      (pad u.cardInfos (max u.cardInfos.length oldCardInfos.length)).length =
        max u.cardInfos.length oldCardInfos.length ∧
      (pad oldCardInfos (max u.cardInfos.length oldCardInfos.length)).length =
        max u.cardInfos.length oldCardInfos.length ∧
      s1.thread.m_cardInfos = pad u.cardInfos (max u.cardInfos.length oldCardInfos.length) ∧
      (∃ anyNP anyLC, s1.emitted = s.emitted ++
        statusChanges (pad u.cardInfos (max u.cardInfos.length oldCardInfos.length))
          (pad oldCardInfos (max u.cardInfos.length oldCardInfos.length)) ++
        [Signal.anyCardHasNullPinChanged anyNP, Signal.anyCardCanLearnKeysChanged anyLC]) ∧
      (∀ i st, Signal.cardStatusChanged i st ∈
          statusChanges (pad u.cardInfos (max u.cardInfos.length oldCardInfos.length))
            (pad oldCardInfos (max u.cardInfos.length oldCardInfos.length)) ↔
        ∃ cn co,
          (pad u.cardInfos (max u.cardInfos.length oldCardInfos.length))[i]? = some cn ∧
          (pad oldCardInfos (max u.cardInfos.length oldCardInfos.length))[i]? = some co ∧
          cn.status ≠ co.status ∧ st = cn.status) ∧
      (∀ sig ∈ statusChanges (pad u.cardInfos (max u.cardInfos.length oldCardInfos.length))
          (pad oldCardInfos (max u.cardInfos.length oldCardInfos.length)),
        ∃ i st, sig = Signal.cardStatusChanged i st) ∧
      ((statusChanges (pad u.cardInfos (max u.cardInfos.length oldCardInfos.length))
          (pad oldCardInfos (max u.cardInfos.length oldCardInfos.length))).filterMap
        Signal.index?).Pairwise (· < ·) := by
  refine ⟨_, _, update_cardinfo_eq klc _ s.gpgAgent s.agent, reprobe_eq klc oldCardInfos s,
    rfl, ?_, ?_, rfl, ⟨_, _, rfl⟩, ?_, ?_, ?_⟩
  · exact length_pad _ _ (by simp)
  · exact length_pad _ _ (by simp)
  · intro i st
    exact mem_statusChanges _ _ i st
  · exact statusChanges_only_status _ _
  · exact statusChanges_increasing _ _

/-! ## The worker: shutdown -/

/-- The fields of the object that only the worker writes. -/
theorem foldl_apply_frame : ∀ (ops : List QueueOp) (th : ReaderStatusThread),
    (ops.foldl QueueOp.apply th).m_cardInfos = th.m_cardInfos ∧
    (ops.foldl QueueOp.apply th).m_finishedTransactions = th.m_finishedTransactions ∧
    (ops.foldl QueueOp.apply th).m_gnupgHomePath = th.m_gnupgHomePath
  | [], _ => ⟨rfl, rfl, rfl⟩
  | op :: ops, th => by
    have ih := foldl_apply_frame ops (QueueOp.apply th op)
    simp only [List.foldl_cons]
    cases op <;> exact ih

theorem waitForTransactions_frame : ∀ (waits : List Wait) (th th1 : ReaderStatusThread),
    waitForTransactions waits th = some th1 →
    th1.m_cardInfos = th.m_cardInfos ∧
    th1.m_finishedTransactions = th.m_finishedTransactions ∧
    th1.m_gnupgHomePath = th.m_gnupgHomePath
  | [], th, th1, h => by
    unfold waitForTransactions at h
    split at h
    · exact absurd h (by simp)
    · injection h with h; subst h; exact ⟨rfl, rfl, rfl⟩
  | wt :: wts, th, th1, h => by
    unfold waitForTransactions at h
    split at h
    · have ih := waitForTransactions_frame wts _ th1 h
      have hf := foldl_apply_frame wt.arrived th
      cases hto : wt.timedOut <;> simp only [hto, Bool.false_eq_true, if_false, if_true] at ih
      · exact ⟨ih.1.trans hf.1, ih.2.1.trans hf.2.1, ih.2.2.trans hf.2.2⟩
      · exact ⟨ih.1.trans hf.1, ih.2.1.trans hf.2.1, ih.2.2.trans hf.2.2⟩
    · injection h with h; subst h; exact ⟨rfl, rfl, rfl⟩

theorem take_transaction_frame (arrived : List QueueOp) (waits : List Wait)
    (th th1 : ReaderStatusThread) (item : Transaction)
    (h : take_transaction arrived waits th = some (item, th1)) :
    th1.m_cardInfos = th.m_cardInfos ∧
    th1.m_finishedTransactions = th.m_finishedTransactions ∧
    th1.m_gnupgHomePath = th.m_gnupgHomePath := by
  unfold take_transaction at h
  split at h
  · exact absurd h (by simp)
  · rename_i th2 hw
    have hw' := waitForTransactions_frame waits _ th2 hw
    have hf := foldl_apply_frame arrived th
    split at h
    · exact absurd h (by simp)
    · injection h with h
      injection h with h1 h2
      subst h2
      exact ⟨hw'.1.trans hf.1, hw'.2.1.trans hf.2.1, hw'.2.2.trans hf.2.2⟩

/-- C15. When the request the worker takes is the quit sentinel, `run` returns in that pass
whatever further passes could be made: the state it leaves has the agent, the published
table, the finished list and the emitted signals of the state before; the requests still
queued stay unprocessed, and the calls of later surroundings are never looked at. -/
theorem quit_ends_run (e : Surroundings) (es : List Surroundings) (s : RunState)
    (g : Option Context) (item : Transaction) (th : ReaderStatusThread)
    (hacq : acquire_session e s.gpgAgent = some g)
    (htake : take_transaction e.arrived e.waits s.thread = some (item, th))
    (hq : item.isQuit = true) :
    run_loop (e :: es) s =
      Step.finished { thread := th, gpgAgent := g, eventCounter := s.eventCounter,
                      agent := s.agent, emitted := s.emitted } ∧
    th.m_cardInfos = s.thread.m_cardInfos ∧
    th.m_finishedTransactions = s.thread.m_finishedTransactions := by
  have hf := take_transaction_frame _ _ _ _ _ htake
  refine ⟨?_, hf.1, hf.2.1⟩
  unfold run_loop
  rw [run_iteration_quit e s g item th hacq htake hq]

/-- Witness of C15: the quit sentinel is taken while a command is still queued and another
one would be added later. -/
theorem quit_ends_run_witness :
    run_loop [quietSurroundings,
        { quietSurroundings with arrived := [QueueOp.addTransaction (passThrough "B")] }]
      { thread := { ReaderStatusThread.init [] with
                      m_transactions := [quitTransaction, passThrough "A"] },
        gpgAgent := none, eventCounter := UINT_MAX, agent := nksV3Agent "3 3 3" [],
        emitted := [] } =
    Step.finished
      { thread := { ReaderStatusThread.init [] with m_transactions := [passThrough "A"] },
        gpgAgent := some freshContext, eventCounter := UINT_MAX,
        agent := nksV3Agent "3 3 3" [], emitted := [] } :=
  (quit_ends_run quietSurroundings
    [{ quietSurroundings with arrived := [QueueOp.addTransaction (passThrough "B")] }]
    { thread := { ReaderStatusThread.init [] with
                    m_transactions := [quitTransaction, passThrough "A"] },
      gpgAgent := none, eventCounter := UINT_MAX, agent := nksV3Agent "3 3 3" [],
      emitted := [] }
    (some freshContext) quitTransaction
    { ReaderStatusThread.init [] with m_transactions := [passThrough "A"] }
    rfl rfl rfl).1

theorem refreshed_thread (s : RunState) : (refreshed s).thread = s.thread := by
  unfold refreshed
  split <;> rfl

theorem refreshed_emitted (s : RunState) : (refreshed s).emitted = s.emitted := by
  unfold refreshed
  split <;> rfl

/-- C16. In a pass in which the worker takes the request `item`: a forced update reprobes
(with or without a session); on a present session a periodic check reprobes when the
freshly fetched event counter differs from the stored one, while a periodic check with an
unchanged counter sends the single query `GETEVENTCOUNTER` and does nothing else (table,
finished list and emitted signals stay as they were, and the pass ends without the refresh
of the counter); and a request that is no sentinel leaves the published table alone and
emits only `oneTransactionFinished`. A reprobe calls `update_cardinfo`, publishes the table
made from its result and emits the two aggregate signals. -/
theorem reprobe_exactly_when (e : Surroundings) (s : RunState) (g : Option Context)
    (item : Transaction) (th : ReaderStatusThread)
    (hacq : acquire_session e s.gpgAgent = some g)
    (htake : take_transaction e.arrived e.waits s.thread = some (item, th)) :
    (item.isUpdate = true →
      run_iteration e s =
        end_of_iteration (reprobe e.createForProtocol th.m_cardInfos
          { s with thread := th, gpgAgent := g })) ∧
    (item.isCheck = true → g.isSome = true →
      s.eventCounter ≠ s.agent.eventCounter.counter →
      run_iteration e s =
        end_of_iteration (reprobe e.createForProtocol th.m_cardInfos
          { thread := th, gpgAgent := s.agent.eventCounter.sessionAfter,
            eventCounter := s.agent.eventCounter.counter,
            agent := { reply := s.agent.reply,
                       sent := s.agent.sent ++ ["GETEVENTCOUNTER".toList] },
            emitted := s.emitted })) ∧
    (item.isCheck = true → g.isSome = true →
      s.eventCounter = s.agent.eventCounter.counter →
      run_iteration e s =
        Step.next
          { thread := th, gpgAgent := s.agent.eventCounter.sessionAfter,
            eventCounter := s.eventCounter,
            agent := { reply := s.agent.reply,
                       sent := s.agent.sent ++ ["GETEVENTCOUNTER".toList] },
            emitted := s.emitted } ∧
      th.m_cardInfos = s.thread.m_cardInfos ∧
      th.m_finishedTransactions = s.thread.m_finishedTransactions) ∧
    (item.isQuit = false → item.isUpdate = false → item.isCheck = false →
      g.isSome = true →
      ∃ s1, run_iteration e s = Step.next s1 ∧
        s1.thread.m_cardInfos = s.thread.m_cardInfos ∧
        s1.emitted = s.emitted ++ [Signal.oneTransactionFinished]) ∧
    (∀ (old : List CardInfo) (s0 : RunState),
      ∃ u s1 s2, update_cardinfo e.createForProtocol s0.thread.m_gnupgHomePath s0.gpgAgent
          s0.agent = some u ∧
        reprobe e.createForProtocol old s0 = some s1 ∧
        end_of_iteration (reprobe e.createForProtocol old s0) = Step.next s2 ∧
        s2.thread.m_cardInfos = pad u.cardInfos (max u.cardInfos.length old.length) ∧
        ∃ changes anyNP anyLC, s2.emitted = s0.emitted ++ changes ++
          [Signal.anyCardHasNullPinChanged anyNP, Signal.anyCardCanLearnKeysChanged anyLC]) := by
  have hf := take_transaction_frame _ _ _ _ _ htake
  refine ⟨?_, ?_, ?_, ?_, ?_⟩
  · intro hu
    rw [run_iteration_update e s g item th hacq htake hu, end_of_iteration_reprobe]
  · intro hk hg hne
    obtain ⟨ctx, rfl⟩ := Option.isSome_iff_exists.mp hg
    rw [run_iteration_check e s ctx item th hacq htake hk, if_neg hne,
      end_of_iteration_reprobe]
    rfl
  · intro hk hg heq
    obtain ⟨ctx, rfl⟩ := Option.isSome_iff_exists.mp hg
    rw [run_iteration_check e s ctx item th hacq htake hk, if_pos heq]
    refine ⟨?_, hf.1, hf.2.1⟩
    simp only [counterChecked, ← heq]
    rfl
  · intro hq hu hk hg
    obtain ⟨ctx, rfl⟩ := Option.isSome_iff_exists.mp hg
    rw [run_iteration_pass_through e s ctx item th hacq htake hq hu hk]
    refine ⟨_, rfl, ?_, ?_⟩
    · rw [refreshed_thread]
      exact hf.1
    · rw [refreshed_emitted]
  · intro old s0
    refine ⟨_, _, _, update_cardinfo_eq _ _ _ _, reprobe_eq _ old s0,
      end_of_iteration_reprobe _ old s0, ?_, ?_⟩
    · rw [refreshed_thread]
      rfl
    · rw [refreshed_emitted]
      exact ⟨_, _, _, rfl⟩

/-- Witness of C16: a periodic check finds the event counter unchanged at 7, and sends the
counter query and nothing else. -/
theorem reprobe_exactly_when_witness :
    run_iteration quietSurroundings
      { thread := { ReaderStatusThread.init [] with m_transactions := [checkTransaction] },
        gpgAgent := some freshContext, eventCounter := 7,
        agent := withEventCounter "0 0 7" (nksV3Agent "3 3 3" []), emitted := [] } =
    Step.next
      { thread := { ReaderStatusThread.init [] with m_transactions := [] },
        gpgAgent := some freshContext, eventCounter := 7,
        agent := { reply := (withEventCounter "0 0 7" (nksV3Agent "3 3 3" [])).reply,
                   sent := ["GETEVENTCOUNTER".toList] },
        emitted := [] } :=
  ((reprobe_exactly_when quietSurroundings
    { thread := { ReaderStatusThread.init [] with m_transactions := [checkTransaction] },
      gpgAgent := some freshContext, eventCounter := 7,
      agent := withEventCounter "0 0 7" (nksV3Agent "3 3 3" []), emitted := [] }
    (some freshContext) checkTransaction
    { ReaderStatusThread.init [] with m_transactions := [] } rfl rfl).2.2.1 rfl rfl
    (by decide)).1

/-! ## The worker: errors and repeated updates -/

theorem hasCardError_iff (v : List CardInfo) :
    hasCardError v ↔ anyStatus Status.CardError v = true := by
  unfold hasCardError anyStatus
  rw [List.any_eq_true]
  constructor
  · rintro ⟨ci, hm, hs⟩
    exact ⟨ci, hm, by simp [hs]⟩
  · rintro ⟨ci, hm, hs⟩
    exact ⟨ci, hm, by simpa using hs⟩

theorem reprobe_card_error (klc : Option KeyListContext) (old : List CardInfo) (s0 : RunState) :
    ∃ s1, end_of_iteration (reprobe klc old s0) = Step.next s1 ∧
      (hasCardError s1.thread.m_cardInfos → s1.gpgAgent = none ∧ s1.eventCounter = UINT_MAX) := by
  refine ⟨_, end_of_iteration_reprobe klc old s0, ?_⟩
  intro h
  rw [refreshed_thread] at h
  have h' : anyStatus Status.CardError (reprobed klc old s0).thread.m_cardInfos = true :=
    (hasCardError_iff _).mp h
  have hg : (reprobed klc old s0).gpgAgent = none := by
    simp only [reprobed] at h' ⊢
    rw [if_pos h']
  unfold refreshed
  rw [hg]
  exact ⟨rfl, rfl⟩

/-- C20. A pass that reprobes (a forced update, or a periodic check on a present session
whose counter has changed) does not end `run`; and when a snapshot of the table it has
published has the status `CardError`, the worker has no session at the end of the pass and
the stored event counter is `-1`. -/
theorem card_error_drops_session (e : Surroundings) (s : RunState) (g : Option Context)
    (item : Transaction) (th : ReaderStatusThread)
    (hacq : acquire_session e s.gpgAgent = some g)
    (htake : take_transaction e.arrived e.waits s.thread = some (item, th)) :
    (item.isUpdate = true →
      ∃ s1, run_iteration e s = Step.next s1 ∧
        (hasCardError s1.thread.m_cardInfos →
          s1.gpgAgent = none ∧ s1.eventCounter = UINT_MAX)) ∧
    (item.isCheck = true → g.isSome = true →
      s.eventCounter ≠ s.agent.eventCounter.counter →
      ∃ s1, run_iteration e s = Step.next s1 ∧
        (hasCardError s1.thread.m_cardInfos →
          s1.gpgAgent = none ∧ s1.eventCounter = UINT_MAX)) := by
  constructor
  · intro hu
    obtain ⟨s1, h1, h2⟩ := reprobe_card_error e.createForProtocol th.m_cardInfos
      { s with thread := th, gpgAgent := g }
    refine ⟨s1, ?_, h2⟩
    rw [run_iteration_update e s g item th hacq htake hu, ← h1, end_of_iteration_reprobe]
  · intro hk hg hne
    obtain ⟨ctx, rfl⟩ := Option.isSome_iff_exists.mp hg
    obtain ⟨s1, h1, h2⟩ := reprobe_card_error e.createForProtocol th.m_cardInfos
      (counterChecked { s with thread := th, gpgAgent := some ctx })
    refine ⟨s1, ?_, h2⟩
    rw [run_iteration_check e s ctx item th hacq htake hk, if_neg hne, ← h1,
      end_of_iteration_reprobe]

/-- Witness of C20: the serial number query of a forced update fails with a general error;
the table shows `CardError`, the session is gone and the counter is `-1`. -/
theorem card_error_drops_session_witness :
    ∃ s1, run_iteration quietSurroundings
        { thread := ReaderStatusThread.init [], gpgAgent := some freshContext,
          eventCounter := 7, agent := withEventCounter "0 0 7" (failingAgent 1),
          emitted := [] } = Step.next s1 ∧
      hasCardError s1.thread.m_cardInfos ∧ s1.gpgAgent = none ∧
      s1.eventCounter = UINT_MAX := by
  obtain ⟨s1, h1, h2⟩ := (card_error_drops_session quietSurroundings
    { thread := ReaderStatusThread.init [], gpgAgent := some freshContext,
      eventCounter := 7, agent := withEventCounter "0 0 7" (failingAgent 1), emitted := [] }
    (some freshContext) updateTransaction
    { ReaderStatusThread.init [] with m_transactions := [] } rfl rfl).1 rfl
  have hs : run_iteration quietSurroundings
      { thread := ReaderStatusThread.init [], gpgAgent := some freshContext,
        eventCounter := 7, agent := withEventCounter "0 0 7" (failingAgent 1),
        emitted := [] } =
      Step.next (refreshed (reprobed quietSurroundings.createForProtocol []
        { thread := { ReaderStatusThread.init [] with m_transactions := [] },
          gpgAgent := some freshContext, eventCounter := 7,
          agent := withEventCounter "0 0 7" (failingAgent 1), emitted := [] })) :=
    run_iteration_update _ _ (some freshContext) updateTransaction _ rfl rfl rfl
  have he : hasCardError s1.thread.m_cardInfos := by
    rw [hs] at h1
    injection h1 with h1
    subst h1
    rw [refreshed_thread]
    exact ⟨_, List.mem_cons_self _ _, rfl⟩
  exact ⟨s1, h1, he, h2 he⟩

theorem statusChangesFrom_self : ∀ (l : List CardInfo) (idx : Nat),
    statusChangesFrom idx l l = []
  | [], _ => by simp [statusChangesFrom]
  | c :: cs, idx => by
    have ih := statusChangesFrom_self cs (idx + 1)
    unfold statusChangesFrom at ih ⊢
    simp only [List.zip_cons_cons, List.enumFrom_cons, List.filterMap_cons, ne_eq,
      not_true_eq_false, if_false]
    exact ih

theorem probeSlot0_ci_congr (klc : Option KeyListContext) (fileName : Str) (w1 w2 : Agent)
    (h : sameAnswers w1 w2) :
    (probeSlot0 klc fileName w2).ci = (probeSlot0 klc fileName w1).ci := by
  obtain ⟨h1, h2, h3, h4, h5⟩ := h
  unfold probeSlot0
  simp only [h1, h2, h3, h4, h5]
  split_ifs <;> rfl

theorem probed_ci_congr (klc : Option KeyListContext) (fileName : Str)
    (g1 g2 : Option Context) (w1 w2 : Agent) (hg : g2.isSome = g1.isSome)
    (h : sameAnswers w1 w2) :
    (probed klc fileName g2 w2).ci = (probed klc fileName g1 w1).ci := by
  cases g1 <;> cases g2 <;> simp at hg
  · rfl
  · exact probeSlot0_ci_congr klc fileName w1 w2 h

theorem pad_pad_singleton (ci : CardInfo) (n : Nat) :
    pad [ci] (max 1 (pad [ci] (max 1 n)).length) = pad [ci] (max 1 n) := by
  rw [length_pad _ _ (by simp)]
  congr 1
  omega

theorem pad_length_self (v : List CardInfo) (h : 1 ≤ v.length) :
    pad v (max 1 v.length) = v := by
  unfold pad
  have : max 1 v.length - v.length = 0 := by omega
  rw [this]
  simp

/-- A reprobe that finds the table of an earlier reprobe and makes the same snapshot of
slot 0 publishes that table again and emits the two aggregate signals only. -/
theorem reprobed_twice (klc : Option KeyListContext) (old : List CardInfo)
    (sA sB : RunState)
    (hci : (probed klc (reader0 sB.thread) sB.gpgAgent sB.agent).ci =
      (probed klc (reader0 sA.thread) sA.gpgAgent sA.agent).ci)
    (htab : sB.thread.m_cardInfos = (reprobed klc old sA).thread.m_cardInfos) :
    (reprobed klc sB.thread.m_cardInfos sB).thread.m_cardInfos =
      (reprobed klc old sA).thread.m_cardInfos ∧
    (reprobed klc sB.thread.m_cardInfos sB).emitted = sB.emitted ++
      [Signal.anyCardHasNullPinChanged (anyStatus Status.CardHasNullPin sB.thread.m_cardInfos),
       Signal.anyCardCanLearnKeysChanged
         (anyStatus Status.CardCanLearnKeys sB.thread.m_cardInfos)] := by
  have htab' : sB.thread.m_cardInfos =
      pad [(probed klc (reader0 sA.thread) sA.gpgAgent sA.agent).ci] (max 1 old.length) := htab
  have hlen : 1 ≤ (pad [(probed klc (reader0 sA.thread) sA.gpgAgent sA.agent).ci]
      (max 1 old.length)).length := by
    rw [length_pad _ _ (by simp)]
    omega
  have hnew : pad [(probed klc (reader0 sB.thread) sB.gpgAgent sB.agent).ci]
      (max 1 sB.thread.m_cardInfos.length) = sB.thread.m_cardInfos := by
    rw [hci, htab', pad_pad_singleton]
  constructor
  · show pad [(probed klc (reader0 sB.thread) sB.gpgAgent sB.agent).ci]
      (max 1 sB.thread.m_cardInfos.length) = _
    rw [hnew, htab]
  · show sB.emitted ++ statusChanges
      (pad [(probed klc (reader0 sB.thread) sB.gpgAgent sB.agent).ci]
        (max 1 sB.thread.m_cardInfos.length))
      (pad sB.thread.m_cardInfos (max 1 sB.thread.m_cardInfos.length)) ++
      [Signal.anyCardHasNullPinChanged (anyStatus Status.CardHasNullPin
        (pad [(probed klc (reader0 sB.thread) sB.gpgAgent sB.agent).ci]
          (max 1 sB.thread.m_cardInfos.length))),
       Signal.anyCardCanLearnKeysChanged (anyStatus Status.CardCanLearnKeys
        (pad [(probed klc (reader0 sB.thread) sB.gpgAgent sB.agent).ci]
          (max 1 sB.thread.m_cardInfos.length)))] = _
    rw [hnew, pad_length_self _ (by rw [htab']; exact hlen)]
    simp only [statusChanges, statusChangesFrom_self, List.append_nil]

/-- C18. Two forced updates are taken in two consecutive passes. If the second pass has a
session exactly when the first had one, its probe gets the same replies to the five queries
as the probe of the first pass, and the key lookup context is the same, then the second pass
publishes the table the first pass published and emits no `cardStatusChanged` signal: all
it emits are the two aggregate signals. -/
theorem forced_update_idempotent (e1 e2 : Surroundings) (s : RunState)
    (g1 : Option Context) (u1 u2 : Transaction) (rest : List Transaction)
    (hq : s.thread.m_transactions = u1 :: u2 :: rest)
    (hu1 : u1.isUpdate = true) (hu2 : u2.isUpdate = true)
    (harr1 : e1.arrived = []) (harr2 : e2.arrived = [])
    (hacq1 : acquire_session e1 s.gpgAgent = some g1) :
    ∃ s1, run_iteration e1 s = Step.next s1 ∧
      ∀ g2, acquire_session e2 s1.gpgAgent = some g2 → g2.isSome = g1.isSome →
        sameAnswers s.agent s1.agent → e2.createForProtocol = e1.createForProtocol →
        ∃ s2, run_iteration e2 s1 = Step.next s2 ∧
          run_loop [e1, e2] s = Step.next s2 ∧
          s2.thread.m_cardInfos = s1.thread.m_cardInfos ∧
          ∃ anyNP anyLC, s2.emitted = s1.emitted ++
            [Signal.anyCardHasNullPinChanged anyNP,
             Signal.anyCardCanLearnKeysChanged anyLC] := by
  have htake1 : take_transaction e1.arrived e1.waits s.thread =
      some (u1, { s.thread with m_transactions := u2 :: rest }) := by
    rw [harr1]
    exact take_transaction_cons e1.waits s.thread u1 (u2 :: rest) hq
  obtain ⟨sA, hsA⟩ : ∃ sA : RunState,
      sA = { s with thread := { s.thread with m_transactions := u2 :: rest },
                    gpgAgent := g1 } := ⟨_, rfl⟩
  have hit1 : run_iteration e1 s =
      Step.next (refreshed (reprobed e1.createForProtocol s.thread.m_cardInfos sA)) := by
    rw [hsA]
    exact run_iteration_update e1 s g1 u1 _ hacq1 htake1 hu1
  refine ⟨_, hit1, ?_⟩
  intro g2 hacq2 hg hsame hklc
  obtain ⟨s1, hs1⟩ : ∃ s1 : RunState,
      s1 = refreshed (reprobed e1.createForProtocol s.thread.m_cardInfos sA) := ⟨_, rfl⟩
  rw [← hs1] at hacq2 hsame ⊢
  rw [← hs1] at hit1
  have hth1 : s1.thread = (reprobed e1.createForProtocol s.thread.m_cardInfos sA).thread := by
    rw [hs1, refreshed_thread]
  have hq1 : s1.thread.m_transactions = u2 :: rest := by
    rw [hth1, hsA]
    rfl
  have htake2 : take_transaction e2.arrived e2.waits s1.thread =
      some (u2, { s1.thread with m_transactions := rest }) := by
    rw [harr2]
    exact take_transaction_cons e2.waits s1.thread u2 rest hq1
  obtain ⟨sB, hsB⟩ : ∃ sB : RunState,
      sB = { s1 with thread := { s1.thread with m_transactions := rest },
                     gpgAgent := g2 } := ⟨_, rfl⟩
  have hit2 : run_iteration e2 s1 =
      Step.next (refreshed (reprobed e2.createForProtocol s1.thread.m_cardInfos sB)) := by
    rw [hsB]
    exact run_iteration_update e2 s1 g2 u2 _ hacq2 htake2 hu2
  have hci : (probed e1.createForProtocol (reader0 sB.thread) sB.gpgAgent sB.agent).ci =
      (probed e1.createForProtocol (reader0 sA.thread) sA.gpgAgent sA.agent).ci := by
    have hr : reader0 sB.thread = reader0 sA.thread := by
      rw [hsB]
      show absoluteFilePath s1.thread.m_gnupgHomePath _ = _
      rw [hth1]
      rfl
    rw [hr]
    have h1 : sB.gpgAgent = g2 := by rw [hsB]
    have h2 : sB.agent = s1.agent := by rw [hsB]
    have h3 : sA.gpgAgent = g1 := by rw [hsA]
    have h4 : sA.agent = s.agent := by rw [hsA]
    rw [h1, h2, h3, h4]
    exact probed_ci_congr _ _ g1 g2 _ _ hg hsame
  have htab : sB.thread.m_cardInfos =
      (reprobed e1.createForProtocol s.thread.m_cardInfos sA).thread.m_cardInfos := by
    rw [hsB, ← hth1]
  have hsBtab : sB.thread.m_cardInfos = s1.thread.m_cardInfos := by rw [hsB]
  have hsBem : sB.emitted = s1.emitted := by rw [hsB]
  obtain ⟨ht, hem⟩ := reprobed_twice e1.createForProtocol
    s.thread.m_cardInfos sA sB hci htab
  rw [hsBtab] at ht hem
  rw [hklc] at hit2
  refine ⟨_, hit2, ?_, ?_, ?_⟩
  · unfold run_loop
    rw [hit1]
    simp only
    unfold run_loop
    rw [hit2]
    simp only [run_loop]
  · rw [refreshed_thread, ht, hth1]
  · rw [refreshed_emitted, hem, hsBem]
    exact ⟨_, _, rfl⟩

/-- Witness of C18: two forced updates on a NetKey v3 card with a key the keyring does not
know; the agent answers the second probe as the first. -/
theorem forced_update_idempotent_witness :
    ∃ s1 s2, run_iteration quietSurroundings
        { thread := (ReaderStatusThread.init []).ping, gpgAgent := none,
          eventCounter := UINT_MAX, agent := nksV3Agent "3 3 3" ["0123ABCD"],
          emitted := [] } = Step.next s1 ∧
      run_iteration quietSurroundings s1 = Step.next s2 ∧
      s1.thread.m_cardInfos.map (fun ci => ci.status) = [Status.CardCanLearnKeys] ∧
      s2.thread.m_cardInfos = s1.thread.m_cardInfos ∧
      ∃ anyNP anyLC, s2.emitted = s1.emitted ++
        [Signal.anyCardHasNullPinChanged anyNP, Signal.anyCardCanLearnKeysChanged anyLC] := by
  obtain ⟨s1, h1, h⟩ := forced_update_idempotent quietSurroundings quietSurroundings
    { thread := (ReaderStatusThread.init []).ping, gpgAgent := none,
      eventCounter := UINT_MAX, agent := nksV3Agent "3 3 3" ["0123ABCD"], emitted := [] }
    (some freshContext) updateTransaction updateTransaction [] rfl rfl rfl rfl rfl rfl
  have hs : run_iteration quietSurroundings
      { thread := (ReaderStatusThread.init []).ping, gpgAgent := none,
        eventCounter := UINT_MAX, agent := nksV3Agent "3 3 3" ["0123ABCD"], emitted := [] } =
      Step.next (refreshed (reprobed quietSurroundings.createForProtocol []
        { thread := { ReaderStatusThread.init [] with m_transactions := [updateTransaction] },
          gpgAgent := some freshContext, eventCounter := UINT_MAX,
          agent := nksV3Agent "3 3 3" ["0123ABCD"], emitted := [] })) :=
    run_iteration_update _ _ (some freshContext) updateTransaction _ rfl rfl rfl
  have he := h1
  rw [hs] at he
  injection he with he
  obtain ⟨s2, h2, _, ht, hem⟩ := h (some freshContext) (by rw [← he]; rfl) rfl
    (by rw [← he]; exact ⟨rfl, rfl, rfl, rfl, rfl⟩) rfl
  refine ⟨s1, s2, h1, h2, ?_, ht, hem⟩
  rw [← he]
  rfl

/-! ## The worker: the session handle -/

theorem run_iteration_blocked (e : Surroundings) (s : RunState) (g : Option Context)
    (hacq : acquire_session e s.gpgAgent = some g)
    (htake : take_transaction e.arrived e.waits s.thread = none) :
    run_iteration e s = Step.blocked := by
  unfold run_iteration
  rw [hacq, htake]

theorem run_iteration_check_null (e : Surroundings) (s : RunState)
    (item : Transaction) (th : ReaderStatusThread)
    (hacq : acquire_session e s.gpgAgent = some none)
    (htake : take_transaction e.arrived e.waits s.thread = some (item, th))
    (hk : item.isCheck = true) :
    run_iteration e s = Step.undefined := by
  obtain ⟨hs, hc⟩ := (isCheck_iff item).mp hk
  have h1 : ("__check__".toList == "__quit__".toList) = false := by decide
  have h2 : ("__check__".toList == "__update__".toList) = false := by decide
  unfold run_iteration
  rw [hacq, htake]
  simp only [hs, hc, quitTransaction, updateTransaction, checkTransaction, Option.isNone_none,
    Bool.true_and, beq_self_eq_true, h1, h2, Bool.false_eq_true, if_false, Bool.false_or,
    if_true]
  rfl

theorem run_iteration_pass_through_null (e : Surroundings) (s : RunState)
    (item : Transaction) (th : ReaderStatusThread)
    (hacq : acquire_session e s.gpgAgent = some none)
    (htake : take_transaction e.arrived e.waits s.thread = some (item, th))
    (hq : item.isQuit = false) (hu : item.isUpdate = false) (hk : item.isCheck = false) :
    run_iteration e s = Step.undefined := by
  unfold Transaction.isQuit at hq
  unfold Transaction.isUpdate at hu
  unfold Transaction.isCheck at hk
  unfold run_iteration
  rw [hacq, htake]
  simp only [quitTransaction, updateTransaction, checkTransaction, hq, hu, hk,
    Bool.false_eq_true, if_false, Bool.or_false]
  rfl

theorem acquire_session_none (e : Surroundings) :
    acquire_session e none =
      if e.createForEngine.1 = GPG_ERR_NOT_SUPPORTED then none else some e.createForEngine.2 :=
  rfl

/-- C21. A worker without session whose creation of a session reports
`GPG_ERR_NOT_SUPPORTED` returns from `run` in that pass: the state is the one the pass
started with (nothing is taken from the queue, nothing is sent, nothing is emitted), and
whatever further passes could bring is not looked at. With every other outcome of the
creation the pass goes on with the handle the creation delivered: it takes a request (or
sleeps on the empty queue); unless that request is the quit sentinel `run` does not return
in this pass, and when the creation delivered a session, or the request is a forced update,
the pass ends and the loop goes on with the next pass. -/
theorem not_supported_ends_run (e : Surroundings) (es : List Surroundings) (s : RunState)
    (hs : s.gpgAgent = none) :
    (e.createForEngine.1 = GPG_ERR_NOT_SUPPORTED →
      run_iteration e s = Step.finished s ∧ run_loop (e :: es) s = Step.finished s) ∧
    (e.createForEngine.1 ≠ GPG_ERR_NOT_SUPPORTED →
      acquire_session e s.gpgAgent = some e.createForEngine.2 ∧
      (take_transaction e.arrived e.waits s.thread = none → run_iteration e s = Step.blocked) ∧
      (∀ item th, take_transaction e.arrived e.waits s.thread = some (item, th) →
        item.isQuit = false →
        (∀ s1, run_iteration e s ≠ Step.finished s1) ∧
        (e.createForEngine.2.isSome = true ∨ item.isUpdate = true →
          ∃ s1, run_iteration e s = Step.next s1 ∧ run_loop (e :: es) s = run_loop es s1))) := by
  constructor
  · intro hc
    have h1 : run_iteration e s = Step.finished s := by
      unfold run_iteration
      rw [hs, acquire_session_none, if_pos hc]
    refine ⟨h1, ?_⟩
    simp only [run_loop, h1]
  · intro hc
    have hacq : acquire_session e s.gpgAgent = some e.createForEngine.2 := by
      rw [hs, acquire_session_none, if_neg hc]
    refine ⟨hacq, fun hnone => run_iteration_blocked e s _ hacq hnone, ?_⟩
    intro item th htake hq
    have hnext : ∀ s1, run_iteration e s = Step.next s1 →
        run_loop (e :: es) s = run_loop es s1 := by
      intro s1 h1
      simp only [run_loop, h1]
    by_cases hu : item.isUpdate = true
    · have h1 := run_iteration_update e s _ item th hacq htake hu
      refine ⟨fun s1 h => ?_, fun _ => ⟨_, h1, hnext _ h1⟩⟩
      rw [h1] at h
      exact Step.noConfusion h
    · have hu0 : item.isUpdate = false := by simpa using hu
      cases hg : e.createForEngine.2 with
      | none =>
        rw [hg] at hacq
        have hund : run_iteration e s = Step.undefined := by
          by_cases hk : item.isCheck = true
          · exact run_iteration_check_null e s item th hacq htake hk
          · exact run_iteration_pass_through_null e s item th hacq htake hq hu0
              (by simpa using hk)
        refine ⟨fun s1 h => ?_, fun h => ?_⟩
        · rw [hund] at h
          exact Step.noConfusion h
        · rcases h with h | h
          · simp at h
          · exact absurd h hu
      | some ctx =>
        rw [hg] at hacq
        have hstep : ∃ s1, run_iteration e s = Step.next s1 := by
          by_cases hk : item.isCheck = true
          · rw [run_iteration_check e s ctx item th hacq htake hk]
            split
            · exact ⟨_, rfl⟩
            · exact ⟨_, rfl⟩
          · exact ⟨_, run_iteration_pass_through e s ctx item th hacq htake hq hu0
              (by simpa using hk)⟩
        obtain ⟨s1, h1⟩ := hstep
        refine ⟨fun s2 h => ?_, fun _ => ⟨s1, h1, hnext s1 h1⟩⟩
        rw [h1] at h
        exact Step.noConfusion h

/-- Witness of C21: the first pass of `run` finds the engine not supported and returns with
the forced update of the constructor still queued. -/
theorem not_supported_ends_run_witness :
    run_iteration { quietSurroundings with createForEngine := (GPG_ERR_NOT_SUPPORTED, none) }
        { thread := ReaderStatusThread.init [], gpgAgent := none, eventCounter := UINT_MAX,
          agent := failingAgent 1, emitted := [] } =
      Step.finished
        { thread := ReaderStatusThread.init [], gpgAgent := none, eventCounter := UINT_MAX,
          agent := failingAgent 1, emitted := [] } :=
  ((not_supported_ends_run
    { quietSurroundings with createForEngine := (GPG_ERR_NOT_SUPPORTED, none) } []
    { thread := ReaderStatusThread.init [], gpgAgent := none, eventCounter := UINT_MAX,
      agent := failingAgent 1, emitted := [] } rfl).1 rfl).1


/-- C27. The creation of the session fails twice with an error other than
`GPG_ERR_NOT_SUPPORTED` and gives a null context. The first pass of `run` runs the forced
update of the constructor on the null handle, which the prober tests. In the second pass the
wait times out, the worker takes the periodic check and `check_event_counter_changed` sends
`GETEVENTCOUNTER` through the null handle: the transaction is issued without a session. -/
theorem run_null_session_check :
    run [{ noSession GPG_ERR_INV_ENGINE with waits := [] }, noSession GPG_ERR_INV_ENGINE]
        (ReaderStatusThread.init "/home/user/.gnupg".toList) (failingAgent 1) =
      Step.undefined ∧
    (∃ s1, run [{ noSession GPG_ERR_INV_ENGINE with waits := [] }]
        (ReaderStatusThread.init "/home/user/.gnupg".toList) (failingAgent 1) = Step.next s1 ∧
      s1.gpgAgent = none ∧ s1.thread.m_transactions = [] ∧ s1.agent.sent = []) ∧
    get_event_counter none (failingAgent 1) = none ∧
    gpgagent_transact none "GETEVENTCOUNTER".toList (failingAgent 1) = none :=
  ⟨rfl, ⟨_, rfl, rfl, rfl, rfl⟩, rfl, rfl⟩

/-! ## The facade -/

/-- C25. For a slot index at or beyond the length of the published table `cardStatus`
returns `NoCard` and `pinStates` the empty sequence; for a slot index below the length they
return the status and the PIN states of the snapshot stored at that index. -/
theorem absent_slot_reads_no_card (d : ReaderStatusThread) (slot : Nat) :
    (d.m_cardInfos.length ≤ slot →
      ReaderStatus.cardStatus d slot = Status.NoCard ∧ ReaderStatus.pinStates d slot = []) ∧
    (∀ ci, d.m_cardInfos[slot]? = some ci →
      ReaderStatus.cardStatus d slot = ci.status ∧
      ReaderStatus.pinStates d slot = ci.pinStates) := by
  unfold ReaderStatus.cardStatus ReaderStatus.pinStates ReaderStatusThread.cardStatus
    ReaderStatusThread.cardInfos
  constructor
  · intro h
    have h1 : ¬ slot < d.m_cardInfos.length := by omega
    simp only [dif_neg h1, and_self]
  · intro ci hci
    obtain ⟨h1, h2⟩ := List.getElem?_eq_some.mp hci
    simp only [dif_pos h1, List.get_eq_getElem, h2, and_self]

/-- Witness of C25: slot 1 of a table with one snapshot. -/
theorem absent_slot_reads_no_card_witness :
    ReaderStatus.cardStatus
        { ReaderStatusThread.init [] with
          m_cardInfos := [CardInfo.init [] Status.CardHasNullPin] } 1 = Status.NoCard ∧
    ReaderStatus.pinStates
        { ReaderStatusThread.init [] with
          m_cardInfos := [CardInfo.init [] Status.CardHasNullPin] } 1 = [] :=
  (absent_slot_reads_no_card
    { ReaderStatusThread.init [] with m_cardInfos := [CardInfo.init [] Status.CardHasNullPin] }
    1).1 (by decide)

/-- C30. A reprobe publishes a table and emits, after the status changes, the signal
`anyCardHasNullPinChanged` with the value `anyCardHasNullPin()` has on the published table
and the signal `anyCardCanLearnKeysChanged` with the value `anyCardCanLearnKeys()` has on
it. -/
theorem aggregates_agree_with_facade (klc : Option KeyListContext)
    (oldCardInfos : List CardInfo) (s : RunState) :
    ∃ s1, reprobe klc oldCardInfos s = some s1 ∧
      s1.emitted = s.emitted ++
        statusChanges s1.thread.m_cardInfos
          (pad oldCardInfos s1.thread.m_cardInfos.length) ++
        [Signal.anyCardHasNullPinChanged (ReaderStatus.anyCardHasNullPin s1.thread),
         Signal.anyCardCanLearnKeysChanged (ReaderStatus.anyCardCanLearnKeys s1.thread)] ∧
      (ReaderStatus.anyCardHasNullPin s1.thread = true ↔
        ∃ ci ∈ s1.thread.m_cardInfos, ci.status = Status.CardHasNullPin) ∧
      (ReaderStatus.anyCardCanLearnKeys s1.thread = true ↔
        ∃ ci ∈ s1.thread.m_cardInfos, ci.status = Status.CardCanLearnKeys) := by
  refine ⟨_, reprobe_eq klc oldCardInfos s, ?_, ?_, ?_⟩
  · have hlen : (pad [(probed klc (reader0 s.thread) s.gpgAgent s.agent).ci]
        (max 1 oldCardInfos.length)).length = max 1 oldCardInfos.length :=
      length_pad _ _ (by simp)
    simp only [reprobed, hlen]
    rfl
  · simp [ReaderStatus.anyCardHasNullPin, anyCardHasNullPinImpl, ReaderStatusThread.cardInfos,
      List.any_eq_true]
  · simp [ReaderStatus.anyCardCanLearnKeys, anyCardCanLearnKeysImpl,
      ReaderStatusThread.cardInfos, List.any_eq_true]


/-! ## The prober: what every snapshot satisfies -/

theorem probeSlot0_invariant (klc : Option KeyListContext) (fileName : Str) (w : Agent) :
    ((probeSlot0 klc fileName w).ci.status = Status.NoCard ∨
      (probeSlot0 klc fileName w).ci.status = Status.CardUsable ∨
      (probeSlot0 klc fileName w).ci.status = Status.CardCanLearnKeys ∨
      (probeSlot0 klc fileName w).ci.status = Status.CardHasNullPin ∨
      (probeSlot0 klc fileName w).ci.status = Status.CardError) ∧
    ((probeSlot0 klc fileName w).ci.status = Status.CardHasNullPin ↔
      PinState.NullPin ∈ (probeSlot0 klc fileName w).ci.pinStates) ∧
    ((probeSlot0 klc fileName w).ci.status = Status.CardCanLearnKeys →
      (probeSlot0 klc fileName w).ci.appType = AppType.NksApplication ∧
      (probeSlot0 klc fileName w).ci.appVersion = 3 ∧
      PinState.NullPin ∉ (probeSlot0 klc fileName w).ci.pinStates) := by
  unfold probeSlot0
  simp only []
  split_ifs with h1 h2 h3 h4 h5 h6 h7 <;> simp_all

/-- C26. Every call of `get_card_status` returns a snapshot whose status is one of `NoCard`,
`CardUsable`, `CardCanLearnKeys`, `CardHasNullPin` and `CardError` (never `CardPresent` or
`CardActive`), whose status is `CardHasNullPin` exactly when its PIN states contain
`NullPin`, and whose status `CardCanLearnKeys` comes with application type NKS, version 3
and PIN states without `NullPin`. -/
theorem get_card_status_snapshot_invariant (klc : Option KeyListContext) (fileName : Str)
    (idx : Nat) (gpg_agent : Option Context) (w : Agent) :
    ∃ p, get_card_status klc fileName idx gpg_agent w = some p ∧
      (p.ci.status = Status.NoCard ∨ p.ci.status = Status.CardUsable ∨
        p.ci.status = Status.CardCanLearnKeys ∨ p.ci.status = Status.CardHasNullPin ∨
        p.ci.status = Status.CardError) ∧
      p.ci.status ≠ Status.CardPresent ∧ p.ci.status ≠ Status.CardActive ∧
      (p.ci.status = Status.CardHasNullPin ↔ PinState.NullPin ∈ p.ci.pinStates) ∧
      (p.ci.status = Status.CardCanLearnKeys →
        p.ci.appType = AppType.NksApplication ∧ p.ci.appVersion = 3 ∧
        PinState.NullPin ∉ p.ci.pinStates) := by
  have hne : ∀ st : Status, (st = Status.NoCard ∨ st = Status.CardUsable ∨
      st = Status.CardCanLearnKeys ∨ st = Status.CardHasNullPin ∨ st = Status.CardError) →
      st ≠ Status.CardPresent ∧ st ≠ Status.CardActive := by
    intro st h
    rcases h with h | h | h | h | h <;> subst h <;> exact ⟨by decide, by decide⟩
  by_cases hsl : idx ≠ 0 ∨ gpg_agent = none
  · refine ⟨_, get_card_status_elsewhere klc fileName idx gpg_agent w hsl, ?_⟩
    simp [CardInfo.init]
  · have hidx : idx = 0 := by
      by_contra h
      exact hsl (Or.inl h)
    obtain ⟨ctx, hctx⟩ : ∃ ctx, gpg_agent = some ctx := by
      cases gpg_agent with
      | none => exact absurd (Or.inr rfl) hsl
      | some ctx => exact ⟨ctx, rfl⟩
    subst hidx hctx
    have h := probeSlot0_invariant klc fileName w
    exact ⟨_, get_card_status_slot0 klc fileName ctx w, h.1, (hne _ h.1).1, (hne _ h.1).2,
      h.2.1, h.2.2⟩

/-- Witness of C26: a NetKey v3 card without null PIN whose key the keyring does not know
is a snapshot with the status `CardCanLearnKeys`, application type NKS and version 3. -/
theorem get_card_status_snapshot_invariant_witness :
    ∃ p, get_card_status (some emptyKeyring) [] 0 (some freshContext)
        (nksV3Agent "3 3 3" ["ABCD1234 OPENPGP.1"]) = some p ∧
      p.ci.status = Status.CardCanLearnKeys ∧
      p.ci.appType = AppType.NksApplication ∧ p.ci.appVersion = 3 ∧
      PinState.NullPin ∉ p.ci.pinStates := by
  obtain ⟨p, hp, _, _, _, _, h5⟩ := get_card_status_snapshot_invariant (some emptyKeyring) [] 0
    (some freshContext) (nksV3Agent "3 3 3" ["ABCD1234 OPENPGP.1"])
  have hst : p.ci.status = Status.CardCanLearnKeys := by
    have h0 : (get_card_status (some emptyKeyring) [] 0 (some freshContext)
        (nksV3Agent "3 3 3" ["ABCD1234 OPENPGP.1"])).map (fun q => q.ci.status) =
        some Status.CardCanLearnKeys := by decide
    rw [hp] at h0
    exact Option.some.inj h0
  exact ⟨p, hp, hst, h5 hst⟩


/-! ## The worker: pass-through commands -/

theorem run_iteration_passedThrough (e : Surroundings) (s : RunState) (ctx : Context)
    (item : Transaction) (th : ReaderStatusThread)
    (hacq : acquire_session e s.gpgAgent = some (some ctx))
    (htake : take_transaction e.arrived e.waits s.thread = some (item, th))
    (hq : item.isQuit = false) (hu : item.isUpdate = false) (hk : item.isCheck = false) :
    run_iteration e s = Step.next (passedThrough s item th) :=
  run_iteration_pass_through e s ctx item th hacq htake hq hu hk

theorem passedThrough_sent (s : RunState) (item : Transaction) (th : ReaderStatusThread) :
    (passedThrough s item th).agent.sent =
      s.agent.sent ++ [c_str item.command] ++
        (if (s.agent.answer [] (c_str item.command)).sessionAfter.isSome then [cmdEventCounter]
         else []) := by
  unfold passedThrough refreshed
  cases h : (s.agent.answer [] (c_str item.command)).sessionAfter with
  | none => simp [Agent.after]
  | some c => simp [Agent.after]

theorem passedThrough_thread (s : RunState) (item : Transaction) (th : ReaderStatusThread) :
    (passedThrough s item th).thread =
      { th with
        m_finishedTransactions := th.m_finishedTransactions ++
          [{ item with error := (s.agent.answer [] (c_str item.command)).err }] } := by
  unfold passedThrough
  rw [refreshed_thread]

theorem passedThrough_emitted (s : RunState) (item : Transaction) (th : ReaderStatusThread) :
    (passedThrough s item th).emitted = s.emitted ++ [Signal.oneTransactionFinished] := by
  unfold passedThrough
  rw [refreshed_emitted]

/-- C24, counterexample. The worker takes a request whose command holds a NUL byte: the
agent is sent the bytes before the NUL only, so the command bytes themselves are not among
what the agent was sent. -/
theorem pass_through_nul_counterexample :
    ∃ s1, run_iteration quietSurroundings (workerWith [nulCommand]) = Step.next s1 ∧
      nulCommand.isQuit = false ∧ nulCommand.isUpdate = false ∧ nulCommand.isCheck = false ∧
      s1.agent.sent = ["GETINFO version".toList, "GETEVENTCOUNTER".toList] ∧
      nulCommand.command ∉ s1.agent.sent :=
  ⟨_, rfl, rfl, rfl, rfl, rfl, by decide⟩

/-- C24, amended. A worker with a session takes a request that is no sentinel: it sends the
command, as the C string `constData()` gives (the bytes before the first NUL byte, all of
them when there is none), to the agent in one transaction, which is followed only by the
event counter query that ends the pass when the session is still there; it stores the error
code of that transaction in the request and appends the request to the end of the finished
list; the published table stays as it was; `oneTransactionFinished` is emitted. -/
theorem pass_through_sends_c_string (e : Surroundings) (s : RunState) (ctx : Context)
    (item : Transaction) (th : ReaderStatusThread)
    (hacq : acquire_session e s.gpgAgent = some (some ctx))
    (htake : take_transaction e.arrived e.waits s.thread = some (item, th))
    (hq : item.isQuit = false) (hu : item.isUpdate = false) (hk : item.isCheck = false) :
    ∃ s1, run_iteration e s = Step.next s1 ∧
      s1.agent.sent = s.agent.sent ++ [c_str item.command] ++
        (if (s.agent.answer [] (c_str item.command)).sessionAfter.isSome then [cmdEventCounter]
         else []) ∧
      (NUL ∉ item.command → c_str item.command = item.command) ∧
      s1.thread.m_finishedTransactions = s.thread.m_finishedTransactions ++
        [{ item with error := (s.agent.reply s.agent.sent (c_str item.command)).err }] ∧
      s1.thread.m_cardInfos = s.thread.m_cardInfos ∧
      s1.emitted = s.emitted ++ [Signal.oneTransactionFinished] := by
  have hf := take_transaction_frame _ _ _ _ _ htake
  refine ⟨_, run_iteration_passedThrough e s ctx item th hacq htake hq hu hk,
    passedThrough_sent s item th, fun h => c_str_eq_self h, ?_, ?_,
    passedThrough_emitted s item th⟩
  · rw [passedThrough_thread]
    simp only [hf.2.1, Agent.answer, List.append_nil]
  · rw [passedThrough_thread]
    exact hf.1

/-- Witness of the amended C24: the command `GETINFO version` passes through. -/
theorem pass_through_sends_c_string_witness :
    ∃ s1, run_iteration quietSurroundings (workerWith [passThrough "GETINFO version"]) =
        Step.next s1 ∧
      s1.agent.sent = ["GETINFO version".toList, "GETEVENTCOUNTER".toList] ∧
      s1.thread.m_finishedTransactions = [{ passThrough "GETINFO version" with error := 1 }] ∧
      s1.thread.m_cardInfos = [] := by
  obtain ⟨s1, h1, h2, _, h4, h5, _⟩ :=
    pass_through_sends_c_string quietSurroundings (workerWith [passThrough "GETINFO version"])
      freshContext (passThrough "GETINFO version")
      { ReaderStatusThread.init [] with m_transactions := [] } rfl rfl rfl rfl rfl
  exact ⟨s1, h1, h2, h4, h5⟩


/-! ## The worker: which requests are sentinels -/

theorem not_sentinel_of (item : Transaction)
    (h : item.slot ≠ none ∨
      (item.command ≠ "__check__".toList ∧ item.command ≠ "__update__".toList ∧
        item.command ≠ "__quit__".toList)) :
    item.isQuit = false ∧ item.isUpdate = false ∧ item.isCheck = false := by
  refine ⟨?_, ?_, ?_⟩
  · rw [← Bool.not_eq_true, isQuit_iff]
    rintro ⟨h1, h2⟩
    rcases h with h | h
    · exact h h1
    · exact h.2.2 h2
  · rw [← Bool.not_eq_true, isUpdate_iff]
    rintro ⟨h1, h2⟩
    rcases h with h | h
    · exact h h1
    · exact h.2.1 h2
  · rw [← Bool.not_eq_true, isCheck_iff]
    rintro ⟨h1, h2⟩
    rcases h with h | h
    · exact h h1
    · exact h.1 h2

/-- C29. A worker with a session takes the request `item`. Unless the slot of the request is
null and its command is `__check__`, `__update__` or `__quit__`, the request is sent to the
agent as a pass-through command. A request with a null slot and the command `__quit__`,
whatever its receiver, makes `run` return as the quit sentinel of `stop` does; a worker
whose queue holds only such a request, put there by `startSimpleTransaction`, ends as the
worker on whose empty queue `stop` was called. The command `__quit__` with a slot that is
not null is sent to the agent. -/
theorem sentinel_needs_null_slot (e : Surroundings) (s : RunState) (ctx : Context)
    (hacq : acquire_session e s.gpgAgent = some (some ctx)) :
    (∀ item th, take_transaction e.arrived e.waits s.thread = some (item, th) →
      (item.slot ≠ none ∨
        (item.command ≠ "__check__".toList ∧ item.command ≠ "__update__".toList ∧
          item.command ≠ "__quit__".toList)) →
      run_iteration e s = Step.next (passedThrough s item th)) ∧
    (∀ item th, take_transaction e.arrived e.waits s.thread = some (item, th) →
      item.slot = none → item.command = "__quit__".toList →
      run_iteration e s = Step.finished { s with thread := th, gpgAgent := some ctx }) ∧
    (∀ (d : ReaderStatusThread) (receiver : Option Nat), d.m_transactions = [] →
      run_iteration { e with arrived := [] }
          { s with thread :=
              (ReaderStatus.startSimpleTransaction d "__quit__".toList receiver none) } =
        run_iteration { e with arrived := [] } { s with thread := d.stop }) ∧
    (∀ item th, take_transaction e.arrived e.waits s.thread = some (item, th) →
      item.slot ≠ none → item.command = "__quit__".toList →
      run_iteration e s = Step.next (passedThrough s item th) ∧
      (passedThrough s item th).agent.sent = s.agent.sent ++ ["__quit__".toList] ++
        (if (s.agent.answer [] "__quit__".toList).sessionAfter.isSome then [cmdEventCounter]
         else [])) := by
  refine ⟨?_, ?_, ?_, ?_⟩
  · intro item th htake h
    obtain ⟨hq, hu, hk⟩ := not_sentinel_of item h
    exact run_iteration_passedThrough e s ctx item th hacq htake hq hu hk
  · intro item th htake h1 h2
    exact run_iteration_quit e s (some ctx) item th hacq htake ((isQuit_iff item).mpr ⟨h1, h2⟩)
  · intro d receiver hd
    have hacq1 : ∀ th1 : ReaderStatusThread,
        acquire_session { e with arrived := [] } ({ s with thread := th1 } : RunState).gpgAgent =
          some (some ctx) := by
      intro th1
      cases hg : s.gpgAgent with
      | none =>
        rw [hg] at hacq
        simpa [acquire_session] using hacq
      | some c =>
        rw [hg] at hacq
        simpa [acquire_session] using hacq
    have ht1 : take_transaction ({ e with arrived := [] } : Surroundings).arrived
        ({ e with arrived := [] } : Surroundings).waits
        ({ s with thread :=
            (ReaderStatus.startSimpleTransaction d "__quit__".toList receiver none) } :
          RunState).thread =
        some ({ command := "__quit__".toList, receiver := receiver, slot := none, error := 0 },
          d) := by
      show take_transaction [] e.waits _ = _
      have h := take_transaction_cons e.waits
        (ReaderStatus.startSimpleTransaction d "__quit__".toList receiver none)
        { command := "__quit__".toList, receiver := receiver, slot := none, error := 0 } []
        (by simp only [ReaderStatus.startSimpleTransaction, ReaderStatusThread.addTransaction,
          hd, List.nil_append])
      rw [h]
      cases d
      simp only at hd
      subst hd
      rfl
    have ht2 : take_transaction ({ e with arrived := [] } : Surroundings).arrived
        ({ e with arrived := [] } : Surroundings).waits
        ({ s with thread := d.stop } : RunState).thread = some (quitTransaction, d) := by
      show take_transaction [] e.waits _ = _
      have h := take_transaction_cons e.waits d.stop quitTransaction []
        (by simp only [ReaderStatusThread.stop, hd])
      rw [h]
      cases d
      simp only at hd
      subst hd
      rfl
    rw [run_iteration_quit _ _ (some ctx) _ _ (hacq1 _) ht1 rfl,
      run_iteration_quit _ _ (some ctx) _ _ (hacq1 _) ht2 rfl]
  · intro item th htake h1 h2
    obtain ⟨hq, hu, hk⟩ := not_sentinel_of item (Or.inl h1)
    refine ⟨run_iteration_passedThrough e s ctx item th hacq htake hq hu hk, ?_⟩
    have hc : c_str item.command = "__quit__".toList := by
      rw [h2]
      decide
    rw [passedThrough_sent, hc]

/-- Witness of C29: the command `__quit__` with a slot that is not null goes to the agent,
and the worker goes on. -/
theorem sentinel_needs_null_slot_witness :
    run_iteration quietSurroundings (workerWith [passThrough "__quit__"]) =
      Step.next (passedThrough (workerWith [passThrough "__quit__"]) (passThrough "__quit__")
        { ReaderStatusThread.init [] with m_transactions := [] }) ∧
    (passedThrough (workerWith [passThrough "__quit__"]) (passThrough "__quit__")
        { ReaderStatusThread.init [] with m_transactions := [] }).agent.sent =
      ["__quit__".toList, "GETEVENTCOUNTER".toList] :=
  ⟨((sentinel_needs_null_slot quietSurroundings (workerWith [passThrough "__quit__"])
      freshContext rfl).2.2.2 (passThrough "__quit__")
      { ReaderStatusThread.init [] with m_transactions := [] } rfl (by decide) rfl).1, rfl⟩


/-! ## The status files: the slot number of a file name -/

theorem readDigits_all_digits : ∀ (ds : Str) (a : Nat), ds.all isdigit = true →
    readDigits a ds = ds.foldl (fun acc c => 10 * acc + (c.toNat - 48)) a
  | [], _, _ => rfl
  | c :: cs, a, h => by
    simp only [List.all_cons, Bool.and_eq_true] at h
    simp only [readDigits, h.1, if_true, List.foldl_cons, digitValue]
    rw [readDigits_all_digits cs _ h.2, Nat.mul_comm]

theorem readDigits_eq_valueOfDigits (ds : Str) (h : ds.all isdigit = true) :
    readDigits 0 ds = valueOfDigits ds :=
  readDigits_all_digits ds 0 h

theorem dropLiteral_append : ∀ (lit s : Str), dropLiteral lit (lit ++ s) = some s
  | [], s => by cases s <;> rfl
  | l :: ls, s => by
    simp only [List.cons_append, dropLiteral, if_true]
    exact dropLiteral_append ls s

theorem dropLiteral_some : ∀ (lit s rest : Str), dropLiteral lit s = some rest →
    s = lit ++ rest
  | [], s, rest, h => by
    cases s <;> simp only [dropLiteral, Option.some.injEq] at h <;> simp [h]
  | l :: ls, [], rest, h => by simp [dropLiteral] at h
  | l :: ls, c :: cs, rest, h => by
    simp only [dropLiteral] at h
    split at h
    · rename_i hlc
      rw [dropLiteral_some ls cs rest h, hlc]
      rfl
    · exact absurd h (by simp)

theorem QChar_isDigit_of_isdigit (nd : Char → Bool) (c : Char) (h : isdigit c = true) :
    QChar_isDigit nd c = true := by
  simp [QChar_isDigit, h]

theorem exactMatch_some (nd : Char → Bool) (name cap1 : Str)
    (h : exactMatch nd name = some cap1) : name = readerStatusName cap1 ∧ cap1 ≠ [] := by
  unfold exactMatch at h
  split at h
  · exact absurd h (by simp)
  · rename_i rest hrest
    simp only at h
    split at h
    · exact absurd h (by simp)
    · rename_i hne
      split at h
      · rename_i hdrop
        simp only [Option.some.injEq] at h
        have hsplit := List.takeWhile_append_dropWhile (QChar_isDigit nd) rest
        rw [hdrop, h] at hsplit
        refine ⟨?_, ?_⟩
        · rw [dropLiteral_some _ _ _ hrest, ← hsplit]
          simp [readerStatusName]
        · rw [← h]
          intro h0
          exact hne (by simp [h0])
      · exact absurd h (by simp)

theorem exactMatch_digits (nd : Char → Bool) (ds : Str) (h1 : ds ≠ [])
    (h2 : ds.all isdigit = true) : exactMatch nd (readerStatusName ds) = some ds := by
  have hall : ∀ c ∈ ds, QChar_isDigit nd c = true := fun c hc =>
    QChar_isDigit_of_isdigit nd c (List.all_eq_true.mp h2 c hc)
  have hdot : QChar_isDigit nd '.' = false := by
    simp only [QChar_isDigit, Bool.or_eq_false_iff, Bool.and_eq_false_iff]
    exact ⟨by decide, Or.inl (by decide)⟩
  have htake : (ds ++ ".status".toList).takeWhile (QChar_isDigit nd) = ds := by
    rw [List.takeWhile_append_of_pos hall]
    simp [List.takeWhile, hdot]
  have hdrop : (ds ++ ".status".toList).dropWhile (QChar_isDigit nd) = ".status".toList := by
    rw [List.dropWhile_append_of_pos hall]
    simp [List.dropWhile, hdot]
  unfold exactMatch readerStatusName
  rw [List.append_assoc, dropLiteral_append]
  simp only [htake, hdrop, if_true]
  cases ds with
  | nil => exact absurd rfl h1
  | cons c cs => rfl

theorem toUInt_of_digits (s : Str) (h1 : s ≠ []) (h2 : s.all isdigit = true)
    (h3 : valueOfDigits s ≤ UINT_MAX) : toUInt s = (valueOfDigits s, true) := by
  unfold toUInt
  have he : s.isEmpty = false := by
    cases s with
    | nil => exact absurd rfl h1
    | cons c cs => rfl
  simp only [he, h2, Bool.not_true, Bool.or_self, Bool.false_eq_true, if_false,
    readDigits_eq_valueOfDigits s h2, h3, if_true]

theorem toUInt_ne_failure (s : Str) (h : toUInt s ≠ (0, false)) :
    s ≠ [] ∧ s.all isdigit = true ∧ valueOfDigits s ≤ UINT_MAX := by
  unfold toUInt at h
  split at h
  · exact absurd rfl h
  · rename_i hc
    simp only [Bool.or_eq_true, Bool.not_eq_true', not_or, Bool.not_eq_true,
      Bool.not_eq_false] at hc
    split at h
    · rename_i hle
      refine ⟨?_, hc.2, ?_⟩
      · intro h0
        rw [h0] at hc
        simp at hc
      · rw [← readDigits_eq_valueOfDigits s hc.2]
        exact hle
    · exact absurd rfl h

/-- C23. For a path whose base name is `reader_`, one or more decimal digits and `.status`,
the digits denoting a value that fits a 32-bit unsigned integer, `parseFileName` returns
that value and sets `ok` to true; for every other path it returns 0 and sets `ok` to false.
The base name is the part of the path behind its last `/`. -/
theorem parseFileName_slot_index (nd : Char → Bool) (path : Str) :
    (∀ ds, ds ≠ [] → ds.all isdigit = true → QFileInfo_fileName path = readerStatusName ds →
      valueOfDigits ds ≤ UINT_MAX → parseFileName nd path = (valueOfDigits ds, true)) ∧
    (¬ isReaderStatusName (QFileInfo_fileName path) → parseFileName nd path = (0, false)) ∧
    (∀ dir base, path = dir ++ '/' :: base → '/' ∉ base → QFileInfo_fileName path = base) ∧
    ('/' ∉ path → QFileInfo_fileName path = path) := by
  refine ⟨?_, ?_, ?_, ?_⟩
  · intro ds h1 h2 h3 h4
    unfold parseFileName
    rw [h3, exactMatch_digits nd ds h1 h2]
    exact toUInt_of_digits ds h1 h2 h4
  · intro hnot
    by_contra hne
    apply hnot
    unfold parseFileName at hne
    split at hne
    · rename_i cap1 hm
      obtain ⟨hname, _⟩ := exactMatch_some nd _ cap1 hm
      obtain ⟨h1, h2, h3⟩ := toUInt_ne_failure cap1 hne
      exact ⟨cap1, h1, h2, hname, h3⟩
    · exact absurd rfl hne
  · intro dir base hp hb
    have hall : ∀ c ∈ base.reverse, (c != '/') = true := by
      intro c hc
      have hc1 : c ∈ base := List.mem_reverse.mp hc
      simp only [bne_iff_ne, ne_eq]
      intro h0
      exact hb (h0 ▸ hc1)
    unfold QFileInfo_fileName
    rw [hp, List.reverse_append, List.reverse_cons, List.append_assoc,
      List.takeWhile_append_of_pos hall]
    simp [List.takeWhile]
  · intro hb
    have hall : ∀ c ∈ path.reverse, (c != '/') = true := by
      intro c hc
      have hc1 : c ∈ path := List.mem_reverse.mp hc
      simp only [bne_iff_ne, ne_eq]
      intro h0
      exact hb (h0 ▸ hc1)
    unfold QFileInfo_fileName
    rw [List.takeWhile_eq_self_iff.mpr hall, List.reverse_reverse]

/-- Witness of C23: the file of slot 12 in a gnupg home directory. -/
theorem parseFileName_slot_index_witness :
    parseFileName (fun _ => true) "/home/user/.gnupg/reader_12.status".toList = (12, true) :=
  (parseFileName_slot_index (fun _ => true) "/home/user/.gnupg/reader_12.status".toList).1
    "12".toList (by decide) (by decide) (by decide) (by decide)


/-! ## The status files: content vectors -/

theorem entryAt_append_left (a b : List Str) (i : Nat) (h : i < a.length) :
    entryAt (a ++ b) i = entryAt a i := by
  unfold entryAt
  rw [List.getElem?_append_left h]

theorem entryAt_append_right (a b : List Str) (i : Nat) (h : a.length ≤ i) :
    entryAt (a ++ b) i = entryAt b (i - a.length) := by
  unfold entryAt
  rw [List.getElem?_append_right h]

theorem entryAt_beyond (v : List Str) (i : Nat) (h : v.length ≤ i) : entryAt v i = [] := by
  unfold entryAt
  rw [List.getElem?_eq_none h]
  rfl

theorem entryAt_replicate (n i : Nat) : entryAt (List.replicate n []) i = [] := by
  unfold entryAt
  rw [List.getElem?_replicate]
  split <;> rfl

theorem resizeContents_of_le (c : List Str) (k : Nat) (h : c.length ≤ k) :
    resizeContents c k = c ++ List.replicate (k - c.length) [] := by
  unfold resizeContents
  rw [List.take_of_length_le h]

theorem length_resizeContents (c : List Str) (k : Nat) (h : c.length ≤ k) :
    (resizeContents c k).length = k := by
  rw [resizeContents_of_le c k h]
  simp
  omega

theorem entryAt_placed (c : List Str) (k : Nat) (x : Str) (i : Nat) (h : c.length ≤ k) :
    entryAt (resizeContents c k ++ [x]) i =
      if i < c.length then entryAt c i else if i = k then x else [] := by
  have hlen := length_resizeContents c k h
  by_cases h1 : i < c.length
  · rw [if_pos h1, entryAt_append_left _ _ _ (by omega), resizeContents_of_le c k h,
      entryAt_append_left _ _ _ h1]
  · rw [if_neg h1]
    by_cases h2 : i = k
    · rw [if_pos h2, entryAt_append_right _ _ _ (by omega), hlen, h2, Nat.sub_self]
      rfl
    · rw [if_neg h2]
      by_cases h3 : i < k
      · rw [entryAt_append_left _ _ _ (by omega), resizeContents_of_le c k h,
          entryAt_append_right _ _ _ (by omega), entryAt_replicate]
      · exact entryAt_beyond _ _ (by simp [hlen]; omega)

theorem contentAmong_none (nd : Char → Bool) (files : Str → Option Str) (path : Str)
    (names : List Str) (i : Nat)
    (h : ∀ f ∈ names, (parseFileName nd f).2 = true → (parseFileName nd f).1 ≠ i) :
    contentAmong nd files path names i = [] := by
  unfold contentAmong
  have hnone : names.find?
      (fun f => (parseFileName nd f).2 && (parseFileName nd f).1 == i) = none := by
    rw [List.find?_eq_none]
    intro f hf hp
    simp only [Bool.and_eq_true, beq_iff_eq] at hp
    exact h f hf hp.1 hp.2
  rw [hnone]

theorem contentAmong_cons_skip (nd : Char → Bool) (files : Str → Option Str) (path : Str)
    (f : Str) (names : List Str) (i : Nat)
    (h : ¬ ((parseFileName nd f).2 = true ∧ (parseFileName nd f).1 = i)) :
    contentAmong nd files path (f :: names) i = contentAmong nd files path names i := by
  unfold contentAmong
  have hp : ((parseFileName nd f).2 && (parseFileName nd f).1 == i) = false := by
    rw [← Bool.not_eq_true]
    simpa only [Bool.and_eq_true, beq_iff_eq] using h
  rw [List.find?_cons_of_neg _ (by simp [hp])]

theorem contentAmong_cons_hit (nd : Char → Bool) (files : Str → Option Str) (path : Str)
    (f : Str) (names : List Str)
    (h : (parseFileName nd f).2 = true) :
    contentAmong nd files path (f :: names) (parseFileName nd f).1 =
      read_file files (absoluteFilePath path f) := by
  unfold contentAmong
  rw [List.find?_cons_of_pos _ (by simp [h])]

/-- The loop over names whose accepted slot numbers increase strictly and are not below the
length of the vector so far: no assertion fails, and the vector made holds the entries it
had and, behind them, the content of each accepted file at its slot number. -/
theorem placeContents_increasing (nd : Char → Bool) (files : Str → Option Str) (path : Str) :
    ∀ (names : List Str) (c : List Str),
      names.Pairwise (fun a b => (parseFileName nd a).2 = true →
        (parseFileName nd b).2 = true → (parseFileName nd a).1 < (parseFileName nd b).1) →
      (∀ f ∈ names, (parseFileName nd f).2 = true → c.length ≤ (parseFileName nd f).1) →
      ∃ r, placeContents nd files path names c = some r ∧
        ∀ i, entryAt r i =
          if i < c.length then entryAt c i else contentAmong nd files path names i
  | [], c, _, _ => by
    refine ⟨c, rfl, fun i => ?_⟩
    split
    · rfl
    · rename_i h
      rw [entryAt_beyond c i (by omega)]
      rfl
  | f :: rest, c, hp, hb => by
    rw [List.pairwise_cons] at hp
    by_cases hok : (parseFileName nd f).2 = true
    · have hk : c.length ≤ (parseFileName nd f).1 := hb f (List.mem_cons_self _ _) hok
      have hlen : (resizeContents c (parseFileName nd f).1 ++
          [read_file files (absoluteFilePath path f)]).length = (parseFileName nd f).1 + 1 := by
        rw [List.length_append, length_resizeContents c _ hk]
        rfl
      obtain ⟨r, hr, hri⟩ := placeContents_increasing nd files path rest
        (resizeContents c (parseFileName nd f).1 ++ [read_file files (absoluteFilePath path f)])
        hp.2 (by
          intro g hg hgok
          rw [hlen]
          exact hp.1 g hg hok hgok)
      refine ⟨r, ?_, fun i => ?_⟩
      · unfold placeContents
        simp only [hok, Bool.not_true, Bool.false_eq_true, if_false, Nat.not_lt.mpr hk]
        exact hr
      · rw [hri i, hlen, entryAt_placed c _ _ i hk]
        by_cases h1 : i < c.length
        · rw [if_pos h1, if_pos h1, if_pos (by omega)]
        · rw [if_neg h1, if_neg h1]
          by_cases h2 : i = (parseFileName nd f).1
          · rw [if_pos (by omega), if_pos h2, h2, contentAmong_cons_hit nd files path f rest hok]
          · rw [contentAmong_cons_skip nd files path f rest i (fun h => h2 h.2.symm)]
            by_cases h3 : i < (parseFileName nd f).1 + 1
            · rw [if_pos h3, if_neg h2]
              refine (contentAmong_none nd files path rest i ?_).symm
              intro g hg hgok
              have := hp.1 g hg hok hgok
              omega
            · rw [if_neg h3]
    · have hok0 : (parseFileName nd f).2 = false := by simpa using hok
      obtain ⟨r, hr, hri⟩ := placeContents_increasing nd files path rest c hp.2
        (fun g hg hgok => hb g (List.mem_cons_of_mem _ hg) hgok)
      refine ⟨r, ?_, fun i => ?_⟩
      · unfold placeContents
        simp only [hok0, Bool.not_false, if_true]
        exact hr
      · rw [hri i, contentAmong_cons_skip nd files path f rest i (fun h => hok h.1)]


/-! ## The status files: sorting and canonical form -/

theorem sortFiles_perm (nd : Char → Bool) (names : List Str) :
    (sortFiles nd names).Perm names :=
  List.perm_insertionSort _ names

theorem sortFiles_sorted (nd : Char → Bool) (names : List Str) :
    (sortFiles nd names).Pairwise
      (fun a b => (parseFileName nd a).1 ≤ (parseFileName nd b).1) := by
  haveI : IsTotal Str
      (fun lhs rhs => ¬ (parseFileName nd rhs).1 < (parseFileName nd lhs).1) :=
    ⟨fun a b => by
      by_cases h : (parseFileName nd b).1 < (parseFileName nd a).1
      · exact Or.inr (by omega)
      · exact Or.inl h⟩
  haveI : IsTrans Str
      (fun lhs rhs => ¬ (parseFileName nd rhs).1 < (parseFileName nd lhs).1) :=
    ⟨fun a b c h1 h2 => by
      show ¬ (parseFileName nd c).1 < (parseFileName nd a).1
      have h1' : ¬ (parseFileName nd b).1 < (parseFileName nd a).1 := h1
      have h2' : ¬ (parseFileName nd c).1 < (parseFileName nd b).1 := h2
      omega⟩
  have h := List.sorted_insertionSort
    (fun lhs rhs => ¬ (parseFileName nd rhs).1 < (parseFileName nd lhs).1) names
  exact List.Pairwise.imp (fun {a b} hab => Nat.le_of_not_lt hab) h

theorem sortFiles_increasing (nd : Char → Bool) (names : List Str)
    (hd : distinctSlots nd names) :
    (sortFiles nd names).Pairwise (fun a b => (parseFileName nd a).2 = true →
      (parseFileName nd b).2 = true → (parseFileName nd a).1 < (parseFileName nd b).1) := by
  have hd1 : distinctSlots nd (sortFiles nd names) :=
    (List.Perm.pairwise_iff (fun {x y} h hy hx => (h hx hy).symm)
      (sortFiles_perm nd names)).mpr hd
  exact List.Pairwise.imp₂ (fun a b h1 h2 ha hb => Nat.lt_of_le_of_ne h1 (h2 ha hb))
    (sortFiles_sorted nd names) hd1

theorem contentAmong_perm (nd : Char → Bool) (files : Str → Option Str) (path : Str)
    (l1 l2 : List Str) (hperm : l1.Perm l2) (hd : distinctSlots nd l1) (i : Nat) :
    contentAmong nd files path l1 i = contentAmong nd files path l2 i := by
  have hu : ∀ a ∈ l1, ∀ b ∈ l1,
      (parseFileName nd a).2 = true → (parseFileName nd a).1 = i →
      (parseFileName nd b).2 = true → (parseFileName nd b).1 = i → a = b := by
    intro a ha b hb ha1 ha2 hb1 hb2
    by_contra hne
    have hsymm : Symmetric (fun a b : Str =>
        (parseFileName nd a).2 = true → (parseFileName nd b).2 = true →
          (parseFileName nd a).1 ≠ (parseFileName nd b).1) :=
      fun x y h hy hx => (h hx hy).symm
    exact List.Pairwise.forall hsymm hd ha hb hne ha1 hb1 (ha2.trans hb2.symm)
  unfold contentAmong
  cases h1 : l1.find? (fun f => (parseFileName nd f).2 && (parseFileName nd f).1 == i) with
  | none =>
    have h2 : l2.find? (fun f => (parseFileName nd f).2 && (parseFileName nd f).1 == i) =
        none := by
      rw [List.find?_eq_none] at h1 ⊢
      exact fun x hx => h1 x (hperm.mem_iff.mpr hx)
    rw [h2]
  | some a =>
    have ha := List.mem_of_find?_eq_some h1
    have hpa := List.find?_some h1
    simp only [Bool.and_eq_true, beq_iff_eq] at hpa
    cases h2 : l2.find? (fun f => (parseFileName nd f).2 && (parseFileName nd f).1 == i) with
    | none =>
      rw [List.find?_eq_none] at h2
      exact absurd (by simp [hpa.1, hpa.2]) (h2 a (hperm.mem_iff.mp ha))
    | some b =>
      have hb := hperm.mem_iff.mpr (List.mem_of_find?_eq_some h2)
      have hpb := List.find?_some h2
      simp only [Bool.and_eq_true, beq_iff_eq] at hpb
      rw [hu a ha b hb hpa.1 hpa.2 hpb.1 hpb.2]

theorem popEmptyBack_eq_dropWhile : ∀ (l : List Str),
    popEmptyBack l = l.dropWhile fun c => c.isEmpty
  | [] => rfl
  | c :: cs => by
    unfold popEmptyBack
    by_cases h : c.isEmpty = true
    · rw [if_pos h, List.dropWhile_cons_of_pos h]
      exact popEmptyBack_eq_dropWhile cs
    · rw [if_neg h, List.dropWhile_cons_of_neg h]

theorem popEmptyBack_reverse (v : List Str) :
    (popEmptyBack v.reverse).reverse = withoutTrailingEmpty v := by
  rw [popEmptyBack_eq_dropWhile]
  rfl

theorem entryAt_withoutTrailingEmpty (v : List Str) (i : Nat) :
    entryAt (withoutTrailingEmpty v) i = entryAt v i := by
  induction v using List.reverseRecOn with
  | nil => rfl
  | append_singleton l x ih =>
    unfold withoutTrailingEmpty at ih ⊢
    by_cases hx : x.isEmpty = true
    · rw [List.rdropWhile_concat_pos _ _ _ hx, ih]
      by_cases h1 : i < l.length
      · rw [entryAt_append_left _ _ _ h1]
      · rw [entryAt_beyond l i (by omega), entryAt_append_right _ _ _ (by omega)]
        have hx0 : x = [] := List.isEmpty_iff.mp hx
        rw [hx0]
        unfold entryAt
        cases i - l.length <;> rfl
    · rw [List.rdropWhile_concat_neg _ _ _ hx]

theorem last_withoutTrailingEmpty (v : List Str) (h : withoutTrailingEmpty v ≠ []) :
    (withoutTrailingEmpty v).getLast h ≠ [] := by
  have h1 := List.rdropWhile_last_not (fun c : Str => c.isEmpty) v h
  intro h0
  apply h1
  unfold withoutTrailingEmpty at h0
  rw [h0]
  rfl

theorem length_le_of_entryAt (w1 w2 : List Str)
    (h2 : ∀ h : w2 ≠ [], w2.getLast h ≠ [])
    (he : ∀ i, entryAt w1 i = entryAt w2 i) : w2.length ≤ w1.length := by
  by_contra hlt
  have hne : w2 ≠ [] := by
    intro h0
    rw [h0] at hlt
    simp at hlt
  have hpos : 0 < w2.length := List.length_pos.mpr hne
  have hlast := h2 hne
  rw [List.getLast_eq_getElem] at hlast
  have h3 : entryAt w2 (w2.length - 1) = w2[w2.length - 1] := by
    unfold entryAt
    rw [List.getElem?_eq_getElem (by omega)]
    rfl
  have h4 : entryAt w1 (w2.length - 1) = [] := entryAt_beyond w1 _ (by omega)
  rw [he, h3] at h4
  exact hlast h4

theorem eq_of_entryAt (w1 w2 : List Str)
    (h1 : ∀ h : w1 ≠ [], w1.getLast h ≠ [])
    (h2 : ∀ h : w2 ≠ [], w2.getLast h ≠ [])
    (he : ∀ i, entryAt w1 i = entryAt w2 i) : w1 = w2 := by
  have hl1 := length_le_of_entryAt w1 w2 h2 he
  have hl2 := length_le_of_entryAt w2 w1 h1 (fun i => (he i).symm)
  apply List.ext_getElem (by omega)
  intro i hi1 hi2
  have h := he i
  unfold entryAt at h
  rw [List.getElem?_eq_getElem hi1, List.getElem?_eq_getElem hi2] at h
  exact h

theorem withoutTrailingEmpty_congr (v1 v2 : List Str)
    (he : ∀ i, entryAt v1 i = entryAt v2 i) :
    withoutTrailingEmpty v1 = withoutTrailingEmpty v2 :=
  eq_of_entryAt _ _ (last_withoutTrailingEmpty v1) (last_withoutTrailingEmpty v2)
    (fun i => by rw [entryAt_withoutTrailingEmpty, entryAt_withoutTrailingEmpty, he i])


/-! ## The status files: the change notification -/

theorem lt_slotCount (nd : Char → Bool) : ∀ (names : List Str) (f : Str), f ∈ names →
    (parseFileName nd f).2 = true → (parseFileName nd f).1 < slotCount nd names
  | [], f, h, _ => by simp at h
  | g :: rest, f, h, hok => by
    unfold slotCount
    rw [List.foldr_cons]
    rcases List.mem_cons.mp h with h1 | h1
    · subst h1
      rw [if_pos hok]
      omega
    · have ih := lt_slotCount nd rest f h1 hok
      unfold slotCount at ih
      split
      · omega
      · exact ih

theorem entryAt_range_map (n : Nat) (g : Nat → Str) (i : Nat) :
    entryAt ((List.range n).map g) i = if i < n then g i else [] := by
  unfold entryAt
  by_cases h : i < n
  · rw [if_pos h, List.getElem?_map, List.getElem?_range h]
    rfl
  · rw [if_neg h, List.getElem?_eq_none (by simp; omega)]
    rfl

/-- In a directory whose accepted file names have pairwise different slot numbers the loop
of the slot meets no failing assertion and makes a vector of the canonical form the
specification describes, in whatever order `std::sort` leaves names with the same number:
`sorted` is any arrangement of the names in ascending order of their numbers. -/
theorem placeContents_of_sorted (nd : Char → Bool) (home : GnupgHome) (path : Str)
    (sorted : List Str) (hperm : sorted.Perm home.entryList)
    (hs : sorted.Pairwise (fun a b => (parseFileName nd a).1 ≤ (parseFileName nd b).1))
    (hd : distinctSlots nd home.entryList) :
    ∃ r, placeContents nd home.files path sorted [] = some r ∧
      (popEmptyBack r.reverse).reverse = canonicalContents nd home path := by
  have hd1 : distinctSlots nd sorted :=
    (List.Perm.pairwise_iff (fun {x y} h hy hx => (h hx hy).symm) hperm).mpr hd
  obtain ⟨r, hr, hri⟩ := placeContents_increasing nd home.files path sorted []
    (List.Pairwise.imp₂ (fun a b h1 h2 ha hb => Nat.lt_of_le_of_ne h1 (h2 ha hb)) hs hd1)
    (fun _ _ _ => Nat.zero_le _)
  refine ⟨r, hr, ?_⟩
  rw [popEmptyBack_reverse]
  unfold canonicalContents
  apply withoutTrailingEmpty_congr
  intro i
  rw [hri i, if_neg (by simp), entryAt_range_map,
    contentAmong_perm nd home.files path _ _ hperm hd1 i]
  split
  · rfl
  · rename_i hge
    refine contentAmong_none nd home.files path home.entryList i ?_
    intro f hf hok
    have := lt_slotCount nd home.entryList f hf hok
    omega

theorem placeContents_canonical (nd : Char → Bool) (home : GnupgHome) (path : Str)
    (hd : distinctSlots nd home.entryList) :
    ∃ r, placeContents nd home.files path (sortFiles nd home.entryList) [] = some r ∧
      (popEmptyBack r.reverse).reverse = canonicalContents nd home path :=
  placeContents_of_sorted nd home path _ (sortFiles_perm nd home.entryList)
    (sortFiles_sorted nd home.entryList) hd

theorem slotReaderStatusFileChanged_eq (nd : Char → Bool) (home : GnupgHome)
    (th : ReaderStatusThread) (hthere : home.isThere = true)
    (hd : distinctSlots nd home.entryList) :
    th.slotReaderStatusFileChanged nd home =
      some { (if canonicalContents nd home th.m_gnupgHomePath ≠ th.readerStatusFileContents
              then th.ping else th) with
             readerStatusFileContents := canonicalContents nd home th.m_gnupgHomePath } := by
  obtain ⟨r, hr, hcanon⟩ := placeContents_canonical nd home th.m_gnupgHomePath hd
  unfold ReaderStatusThread.slotReaderStatusFileChanged
  simp only [hthere, Bool.not_true, Bool.false_eq_true, if_false, hr, hcanon]

/-- C22, counterexample. The gnupg home directory is gone and the stored vector holds the
content of one file: the canonical content vector there is to read is empty and differs from
the stored one, but the slot returns at once, enqueues nothing and keeps the stored
vector. -/
theorem missing_home_counterexample :
    canonicalContents (fun _ => false) missingHome "/home/user/.gnupg".toList = [] ∧
    (watching ["USABLE"]).readerStatusFileContents = ["USABLE".toList] ∧
    canonicalContents (fun _ => false) missingHome "/home/user/.gnupg".toList ≠
      (watching ["USABLE"]).readerStatusFileContents ∧
    (watching ["USABLE"]).slotReaderStatusFileChanged (fun _ => false) missingHome =
      some (watching ["USABLE"]) ∧
    (watching ["USABLE"]).m_transactions = [updateTransaction] :=
  ⟨rfl, rfl, by decide, rfl, rfl⟩

/-- C22, amended. A change notification that finds the gnupg home directory, with accepted
file names of pairwise different slot numbers, enqueues a forced update exactly when the
canonical content vector just read (the file contents at their slot index, trailing empty
entries removed) differs from the stored vector; in both cases the stored vector becomes
the one just read and nothing else of the object changes, so a second notification with
the same files enqueues nothing. A notification that does not find the directory enqueues
nothing and keeps the stored vector. -/
theorem status_file_change_enqueues_update (nd : Char → Bool) (home : GnupgHome)
    (th : ReaderStatusThread) :
    (home.isThere = false → th.slotReaderStatusFileChanged nd home = some th) ∧
    (home.isThere = true → distinctSlots nd home.entryList →
      ∃ th1, th.slotReaderStatusFileChanged nd home = some th1 ∧
        th1.readerStatusFileContents = canonicalContents nd home th.m_gnupgHomePath ∧
        (canonicalContents nd home th.m_gnupgHomePath ≠ th.readerStatusFileContents →
          th1.m_transactions = th.m_transactions ++ [updateTransaction]) ∧
        (canonicalContents nd home th.m_gnupgHomePath = th.readerStatusFileContents →
          th1.m_transactions = th.m_transactions) ∧
        th1.m_cardInfos = th.m_cardInfos ∧
        th1.m_finishedTransactions = th.m_finishedTransactions ∧
        th1.m_gnupgHomePath = th.m_gnupgHomePath ∧
        th1.slotReaderStatusFileChanged nd home = some th1) := by
  constructor
  · intro h
    unfold ReaderStatusThread.slotReaderStatusFileChanged
    simp only [h, Bool.not_false, if_true]
  · intro hthere hd
    refine ⟨_, slotReaderStatusFileChanged_eq nd home th hthere hd, rfl, ?_, ?_, ?_, ?_, ?_, ?_⟩
    · intro hne
      simp only [if_pos hne]
      rfl
    · intro heq
      simp only [heq, ne_eq, not_true_eq_false, if_false]
    · split <;> rfl
    · split <;> rfl
    · split <;> rfl
    · have hpath : ({ (if canonicalContents nd home th.m_gnupgHomePath ≠
            th.readerStatusFileContents then th.ping else th) with
          readerStatusFileContents := canonicalContents nd home th.m_gnupgHomePath } :
          ReaderStatusThread).m_gnupgHomePath = th.m_gnupgHomePath := by
        split <;> rfl
      rw [slotReaderStatusFileChanged_eq nd home _ hthere hd, hpath]
      simp only [ne_eq, not_true_eq_false, if_false]

/-- Witness of the amended C22: the status file of slot 0 appears. -/
theorem status_file_change_enqueues_update_witness :
    ∃ th1, (watching []).slotReaderStatusFileChanged (fun _ => false)
        (homeWith ["reader_0.status"]) = some th1 ∧
      th1.readerStatusFileContents = ["USABLE".toList] ∧
      th1.m_transactions = [updateTransaction, updateTransaction] := by
  obtain ⟨th1, h1, h2, h3, _⟩ :=
    (status_file_change_enqueues_update (fun _ => false) (homeWith ["reader_0.status"])
      (watching [])).2 rfl (List.pairwise_singleton _ _)
  exact ⟨th1, h1, h2.trans (by decide), (h3 (by decide)).trans rfl⟩

/-- C28. The directory holds the files `reader_01.status` and `reader_1.status`: both names
are accepted with the slot number 1, and at the second of them the assertion
`idx >= contents.size()` fails, whichever of the two comes first. -/
theorem duplicate_slot_number_fails_assertion :
    parseFileName (fun _ => false) "reader_01.status".toList = (1, true) ∧
    parseFileName (fun _ => false) "reader_1.status".toList = (1, true) ∧
    (watching []).slotReaderStatusFileChanged (fun _ => false)
        (homeWith ["reader_01.status", "reader_1.status"]) = none ∧
    (watching []).slotReaderStatusFileChanged (fun _ => false)
        (homeWith ["reader_1.status", "reader_01.status"]) = none :=
  ⟨rfl, rfl, rfl, rfl⟩


/-! ## The request queue under waits and time-outs -/

theorem foldl_apply_stop_mem : ∀ (ops : List QueueOp) (th : ReaderStatusThread),
    QueueOp.stop ∈ ops →
    (ops.foldl QueueOp.apply th).m_transactions.head? = some quitTransaction
  | [], _, h => by simp at h
  | QueueOp.stop :: ops, th, _ => by
    simp only [List.foldl_cons]
    exact foldl_apply_head_quit ops _ (by simp [QueueOp.apply, ReaderStatusThread.stop])
  | QueueOp.addTransaction t :: ops, th, h => by
    simp only [List.foldl_cons]
    apply foldl_apply_stop_mem ops
    rcases List.mem_cons.mp h with h | h
    · exact absurd h (by simp)
    · exact h

theorem foldl_apply_no_stop : ∀ (ops : List QueueOp) (th : ReaderStatusThread),
    QueueOp.stop ∉ ops →
    (ops.foldl QueueOp.apply th).m_transactions = th.m_transactions ++ addedBy ops
  | [], th, _ => by simp [addedBy]
  | QueueOp.stop :: ops, th, h => by simp at h
  | QueueOp.addTransaction t :: ops, th, h => by
    have h' : QueueOp.stop ∉ ops := fun hm => h (List.mem_cons_of_mem _ hm)
    simp only [List.foldl_cons, addedBy]
    rw [foldl_apply_no_stop ops _ h']
    simp [QueueOp.apply, ReaderStatusThread.addTransaction]

theorem addedBy_append : ∀ (a b : List QueueOp), addedBy (a ++ b) = addedBy a ++ addedBy b
  | [], b => rfl
  | QueueOp.stop :: a, b => by
    simp only [List.cons_append, addedBy]
    exact addedBy_append a b
  | QueueOp.addTransaction t :: a, b => by
    simp only [List.cons_append, addedBy, List.append_eq, addedBy_append a b]

/-- The waiting loop, written out: the object it ends with is the object as the calls made
during the waits left it, with a periodic check in front after a time-out. -/
theorem waitForTransactions_eq : ∀ (waits : List Wait) (th th1 : ReaderStatusThread),
    waitForTransactions waits th = some th1 →
    th1 =
      if endedByTimeOut waits th = true then
        { (callsDuringWaits waits th).foldl QueueOp.apply th with
          m_transactions := checkTransaction ::
            ((callsDuringWaits waits th).foldl QueueOp.apply th).m_transactions }
      else (callsDuringWaits waits th).foldl QueueOp.apply th
  | [], th, th1, h => by
    unfold waitForTransactions at h
    split at h
    · exact absurd h (by simp)
    · simp only [Option.some.injEq] at h
      simp [endedByTimeOut, callsDuringWaits, h]
  | wt :: wts, th, th1, h => by
    unfold waitForTransactions at h
    by_cases he : th.m_transactions.isEmpty = true
    · simp only [he, if_true] at h
      by_cases hto : wt.timedOut = true
      · simp only [hto, if_true] at h
        rw [waitForTransactions_nonempty wts _ (by simp)] at h
        simp only [Option.some.injEq] at h
        simp only [endedByTimeOut, callsDuringWaits, he, hto, if_true]
        exact h.symm
      · have hto0 : wt.timedOut = false := by simpa using hto
        simp only [hto0, Bool.false_eq_true, if_false] at h
        have ih := waitForTransactions_eq wts _ th1 h
        simp only [endedByTimeOut, callsDuringWaits, he, hto0, if_true, Bool.false_eq_true,
          if_false, List.foldl_append]
        exact ih
    · simp only [he, if_false] at h
      have h1 : th = th1 := by simpa using h
      subst h1
      simp [endedByTimeOut, callsDuringWaits, he]

/-- One take of the worker, written out: after a time-out the worker takes a periodic check
of its own and leaves the queue as the calls of the other threads made it; otherwise it
takes the front of the queue as those calls made it. -/
theorem take_transaction_eq (arrived : List QueueOp) (waits : List Wait)
    (th th1 : ReaderStatusThread) (item : Transaction)
    (h : take_transaction arrived waits th = some (item, th1)) :
    (takesOwnCheck arrived waits th = true →
      item = checkTransaction ∧
      th1 = (callsBeforeTake arrived waits th).foldl QueueOp.apply th) ∧
    (takesOwnCheck arrived waits th = false →
      ((callsBeforeTake arrived waits th).foldl QueueOp.apply th).m_transactions =
        item :: th1.m_transactions) := by
  unfold take_transaction at h
  cases hw : waitForTransactions waits (arrived.foldl QueueOp.apply th) with
  | none => rw [hw] at h; exact absurd h (by simp)
  | some th2 =>
    rw [hw] at h
    have h2 := waitForTransactions_eq waits _ th2 hw
    simp only at h
    unfold takesOwnCheck callsBeforeTake
    rw [List.foldl_append]
    constructor
    · intro hown
      rw [if_pos hown] at h2
      rw [h2] at h
      simp only [Option.some.injEq, Prod.mk.injEq] at h
      exact ⟨h.1.symm, h.2.symm⟩
    · intro hown
      rw [hown] at h2
      simp only [Bool.false_eq_true, if_false] at h2
      rw [← h2]
      cases hq : th2.m_transactions with
      | nil => rw [hq] at h; exact absurd h (by simp)
      | cons a as =>
        rw [hq] at h
        simp only [Option.some.injEq, Prod.mk.injEq] at h
        rw [← h.1, ← h.2]

theorem take_transaction_head_quit (arrived : List QueueOp) (waits : List Wait)
    (th : ReaderStatusThread) (hh : th.m_transactions.head? = some quitTransaction) :
    ∃ th1, take_transaction arrived waits th = some (quitTransaction, th1) := by
  have hh1 := foldl_apply_head_quit arrived th hh
  unfold take_transaction
  cases hq : (arrived.foldl QueueOp.apply th).m_transactions with
  | nil => rw [hq] at hh1; simp at hh1
  | cons a as =>
    rw [hq] at hh1
    simp only [List.head?_cons, Option.some.injEq] at hh1
    rw [waitForTransactions_nonempty waits _ (by rw [hq]; exact List.cons_ne_nil _ _)]
    simp only [hq, hh1]
    exact ⟨_, rfl⟩

/-- Once `stop` is among the calls made before the worker takes a request, the worker takes
the quit sentinel, unless its waiting ended with a time-out: then it takes a periodic check
of its own first, and the quit sentinel in the pass after that. -/
theorem take_transaction_stop_called (arrived : List QueueOp) (waits : List Wait)
    (th th1 : ReaderStatusThread) (item : Transaction)
    (h : take_transaction arrived waits th = some (item, th1))
    (hstop : QueueOp.stop ∈ callsBeforeTake arrived waits th) :
    (takesOwnCheck arrived waits th = false → item = quitTransaction) ∧
    (takesOwnCheck arrived waits th = true →
      item = checkTransaction ∧
      ∀ arrived1 waits1, ∃ th2,
        take_transaction arrived1 waits1 th1 = some (quitTransaction, th2)) := by
  have heq := take_transaction_eq arrived waits th th1 item h
  have hhead := foldl_apply_stop_mem _ th hstop
  constructor
  · intro hown
    rw [heq.2 hown] at hhead
    simpa using hhead
  · intro hown
    obtain ⟨h1, h2⟩ := heq.1 hown
    refine ⟨h1, fun arrived1 waits1 => take_transaction_head_quit arrived1 waits1 th1 ?_⟩
    rw [h2]
    exact hhead

/-- Without a call of `stop`, in every sequence of passes, whatever waits and time-outs they
hold: the requests of other threads the worker took followed by those still queued are the
requests queued at the start followed by the added ones, in the order they were added. -/
theorem playPasses_fifo : ∀ (ps : List (List QueueOp × List Wait)) (th : ReaderStatusThread),
    QueueOp.stop ∉ (playPasses ps th).2.2 →
    (playPasses ps th).1 ++ (playPasses ps th).2.1.m_transactions =
      th.m_transactions ++ addedBy (playPasses ps th).2.2
  | [], th, _ => by simp [playPasses, addedBy]
  | (arrived, waits) :: ps, th, h => by
    unfold playPasses at h ⊢
    cases ht : take_transaction arrived waits th with
    | none =>
      rw [ht] at h
      simp only at h ⊢
      rw [foldl_apply_no_stop _ th h]
      simp
    | some r =>
      obtain ⟨item, th1⟩ := r
      rw [ht] at h
      simp only at h ⊢
      have hs1 : QueueOp.stop ∉ callsBeforeTake arrived waits th :=
        fun hm => h (List.mem_append_left _ hm)
      have hs2 : QueueOp.stop ∉ (playPasses ps th1).2.2 :=
        fun hm => h (List.mem_append_right _ hm)
      have ih := playPasses_fifo ps th1 hs2
      have heq := take_transaction_eq arrived waits th th1 item ht
      have hq := foldl_apply_no_stop _ th hs1
      rw [addedBy_append, ← List.append_assoc, ← hq]
      cases hown : takesOwnCheck arrived waits th with
      | true =>
        simp only [if_true]
        rw [ih, (heq.1 hown).2]
      | false =>
        simp only [Bool.false_eq_true, if_false, List.cons_append]
        rw [ih, heq.2 hown]
        rfl


theorem waitForTransactions_some_ne_nil : ∀ (waits : List Wait) (th th1 : ReaderStatusThread),
    waitForTransactions waits th = some th1 → th1.m_transactions ≠ []
  | [], th, th1, h => by
    unfold waitForTransactions at h
    split at h
    · exact absurd h (by simp)
    · rename_i he
      have h1 : th = th1 := by simpa using h
      subst h1
      intro h0
      exact he (by simp [h0])
  | wt :: wts, th, th1, h => by
    unfold waitForTransactions at h
    split at h
    · exact waitForTransactions_some_ne_nil wts _ th1 h
    · rename_i he
      have h1 : th = th1 := by simpa using h
      subst h1
      intro h0
      exact he (by simp [h0])

theorem waitForTransactions_none : ∀ (waits : List Wait) (th : ReaderStatusThread),
    waitForTransactions waits th = none →
    ((callsDuringWaits waits th).foldl QueueOp.apply th).m_transactions = []
  | [], th, h => by
    unfold waitForTransactions at h
    split at h
    · rename_i he
      simpa [callsDuringWaits] using he
    · exact absurd h (by simp)
  | wt :: wts, th, h => by
    unfold waitForTransactions at h
    by_cases he : th.m_transactions.isEmpty = true
    · simp only [he, if_true] at h
      by_cases hto : wt.timedOut = true
      · simp only [hto, if_true] at h
        rw [waitForTransactions_nonempty wts _ (by simp)] at h
        exact absurd h (by simp)
      · have hto0 : wt.timedOut = false := by simpa using hto
        simp only [hto0, Bool.false_eq_true, if_false] at h
        have ih := waitForTransactions_none wts _ h
        simp only [callsDuringWaits, he, hto0, if_true, Bool.false_eq_true, if_false,
          List.foldl_append]
        exact ih
    · simp only [he, if_false] at h
      exact absurd h (by simp)

/-- Once `stop` is among the calls made before it, the take of the worker does happen: the
worker does not sleep on. -/
theorem take_transaction_of_stop_called (arrived : List QueueOp) (waits : List Wait)
    (th : ReaderStatusThread) (hstop : QueueOp.stop ∈ callsBeforeTake arrived waits th) :
    ∃ item th1, take_transaction arrived waits th = some (item, th1) := by
  have hhead := foldl_apply_stop_mem _ th hstop
  unfold callsBeforeTake at hhead
  rw [List.foldl_append] at hhead
  unfold take_transaction
  cases hw : waitForTransactions waits (arrived.foldl QueueOp.apply th) with
  | none =>
    rw [waitForTransactions_none waits _ hw] at hhead
    simp at hhead
  | some th2 =>
    have hne := waitForTransactions_some_ne_nil waits _ th2 hw
    cases hq : th2.m_transactions with
    | nil => exact absurd hq hne
    | cons a as =>
      refine ⟨a, { th2 with m_transactions := as }, ?_⟩
      simp only [hq]

/-- C13, counterexample. The worker sleeps on an empty queue, its wait times out, and `stop`
is called before the worker has the mutex again: the worker puts its periodic check in front
of the quit sentinel, takes the check as its next request and sends `GETEVENTCOUNTER` to
the agent; the quit sentinel is still queued after that pass. -/
theorem stop_during_timed_out_wait_counterexample :
    take_transaction [] [{ arrived := [QueueOp.stop], timedOut := true }]
        { ReaderStatusThread.init [] with m_transactions := [] } =
      some (checkTransaction,
        { ReaderStatusThread.init [] with m_transactions := [quitTransaction] }) ∧
    checkTransaction ≠ quitTransaction ∧
    ∃ s1, run_iteration
        { quietSurroundings with waits := [{ arrived := [QueueOp.stop], timedOut := true }] }
        (workerWith []) = Step.next s1 ∧
      s1.agent.sent = ["GETEVENTCOUNTER".toList] ∧
      s1.thread.m_transactions = [quitTransaction] :=
  ⟨rfl, by decide, _, rfl, rfl, rfl⟩

/-- C13, amended. `addTransaction` appends the request at the back of the queue, `stop` puts
the quit sentinel at the front, and the worker takes the front element of the queue as the
calls of the other threads made it, or, when its waiting ended with a time-out, a periodic
check of its own. Hence, in every sequence of passes without a call of `stop`, the requests
of other threads the worker took followed by those still queued are the requests queued at
the start followed by the added ones in the order they were added. Once `stop` was called,
the worker does take a request, and it is the quit sentinel, whatever is queued and whatever
is added meanwhile, unless `stop` was called during a waiting of the worker that ended with
a time-out: then the worker takes its own periodic check first and the quit sentinel in the
pass after that. -/
theorem queue_fifo_except_stop :
    (∀ (th : ReaderStatusThread) (t : Transaction),
      (th.addTransaction t).m_transactions = th.m_transactions ++ [t]) ∧
    (∀ th : ReaderStatusThread, th.stop.m_transactions = quitTransaction :: th.m_transactions) ∧
    (∀ (th : ReaderStatusThread) (waits : List Wait) (item : Transaction)
        (rest : List Transaction), th.m_transactions = item :: rest →
      take_transaction [] waits th = some (item, { th with m_transactions := rest })) ∧
    (∀ (arrived : List QueueOp) (waits : List Wait) (th th1 : ReaderStatusThread)
        (item : Transaction), take_transaction arrived waits th = some (item, th1) →
      (takesOwnCheck arrived waits th = true →
        item = checkTransaction ∧
        th1 = (callsBeforeTake arrived waits th).foldl QueueOp.apply th) ∧
      (takesOwnCheck arrived waits th = false →
        ((callsBeforeTake arrived waits th).foldl QueueOp.apply th).m_transactions =
          item :: th1.m_transactions)) ∧
    (∀ (es : List QueueEvent) (th : ReaderStatusThread), withoutStop es = true →
      (playQueue es th).1 ++ (playQueue es th).2.m_transactions =
        th.m_transactions ++ addedRequests es) ∧
    (∀ (ps : List (List QueueOp × List Wait)) (th : ReaderStatusThread),
      QueueOp.stop ∉ (playPasses ps th).2.2 →
      (playPasses ps th).1 ++ (playPasses ps th).2.1.m_transactions =
        th.m_transactions ++ addedBy (playPasses ps th).2.2) ∧
    (∀ (th : ReaderStatusThread) (arrived : List QueueOp) (waits : List Wait),
      ∃ th1, take_transaction arrived waits th.stop = some (quitTransaction, th1)) ∧
    (∀ (arrived : List QueueOp) (waits : List Wait) (th : ReaderStatusThread),
      QueueOp.stop ∈ callsBeforeTake arrived waits th →
      ∃ item th1, take_transaction arrived waits th = some (item, th1) ∧
        (takesOwnCheck arrived waits th = false → item = quitTransaction) ∧
        (takesOwnCheck arrived waits th = true →
          item = checkTransaction ∧
          ∀ arrived1 waits1, ∃ th2,
            take_transaction arrived1 waits1 th1 = some (quitTransaction, th2))) := by
  refine ⟨fun _ _ => rfl, fun _ => rfl,
    fun th waits item rest h => take_transaction_cons waits th item rest h,
    fun arrived waits th th1 item h => take_transaction_eq arrived waits th th1 item h,
    playQueue_fifo, playPasses_fifo,
    fun th arrived waits => take_transaction_after_stop arrived waits th, ?_⟩
  intro arrived waits th hstop
  obtain ⟨item, th1, h⟩ := take_transaction_of_stop_called arrived waits th hstop
  exact ⟨item, th1, h, take_transaction_stop_called arrived waits th th1 item h hstop⟩

/-- Witness of the amended C13: in two passes with a time-out in between the worker takes
the requests `A` and `B` in the order they were added; and `stop`, called during a wait that
times out, is followed by the worker's own check and then by the quit sentinel. -/
theorem queue_fifo_except_stop_witness :
    (playPasses
        [([QueueOp.addTransaction (passThrough "A")], []),
         ([], [{ arrived := [QueueOp.addTransaction (passThrough "B")], timedOut := true }]),
         ([], [])]
        { ReaderStatusThread.init [] with m_transactions := [] }).1 ++
      (playPasses
        [([QueueOp.addTransaction (passThrough "A")], []),
         ([], [{ arrived := [QueueOp.addTransaction (passThrough "B")], timedOut := true }]),
         ([], [])]
        { ReaderStatusThread.init [] with m_transactions := [] }).2.1.m_transactions =
      [passThrough "A", passThrough "B"] ∧
    ∃ item th1, take_transaction [] [{ arrived := [QueueOp.stop], timedOut := true }]
        { ReaderStatusThread.init [] with m_transactions := [] } = some (item, th1) ∧
      item = checkTransaction ∧
      ∃ th2, take_transaction [] [] th1 = some (quitTransaction, th2) := by
  have h := queue_fifo_except_stop.2.2.2.2.2.1
    [([QueueOp.addTransaction (passThrough "A")], []),
     ([], [{ arrived := [QueueOp.addTransaction (passThrough "B")], timedOut := true }]),
     ([], [])]
    { ReaderStatusThread.init [] with m_transactions := [] } (by decide)
  obtain ⟨item, th1, h1, _, h3⟩ := queue_fifo_except_stop.2.2.2.2.2.2.2 []
    [{ arrived := [QueueOp.stop], timedOut := true }]
    { ReaderStatusThread.init [] with m_transactions := [] } (by decide)
  refine ⟨h.trans (by decide), item, th1, h1, (h3 rfl).1, (h3 rfl).2 [] []⟩


end Kleo
